import Mathlib

/-!
# MatrixPlus: the S21Matrix class

A shallow embedding of `src/s21_matrix_oop.h` and `src/function/*.cpp`.

* A `double` is a rational number: every statement below is about the
  program computed over exact arithmetic.
* An `int` is an `Int`. Sums and differences of dimensions and indices stay
  far inside the range of a 32-bit integer; the one product of two dimensions,
  `rows_ * cols_` in `setMatrixValue`, is wrapped to 32 bits.
* `double** matrix_` is a list of rows, each row a list of values; `nullptr`
  is the empty list.
* A call either returns, or throws a C++ exception, or (for the recursive
  determinant only) runs out of the fuel that bounds the recursion depth.
* A member function that assigns to members of `*this` is a `Method`: it
  yields the object as the call leaves it, also when the call throws.
-/

namespace MatrixPlus

/-! ## Error codes, exceptions, outcomes -/

/-- The enumeration `Code` of `s21_matrix_oop.h`. -/
inductive Code where
  | CODE_NO
  | CODE_DIFF_DIMENSIONS
  | CODE_MISTMATCH_SIZE
  | CODE_NO_SQUERE
  | CODE_ZERO_DETERMINANT
  | CODE_CALC_COMPLEMENT
  | CODE_INDEX_OUT_OF_RANGE
  | CODE_INCORRECT_SIZE
  | CODE_SET_ROWS
  | CODE_SET_COLS
  deriving DecidableEq

/-- The enumerator values of `Code`. -/
def Code.toInt : Code → Int
  | .CODE_NO => -1
  | .CODE_DIFF_DIMENSIONS => 0
  | .CODE_MISTMATCH_SIZE => 1
  | .CODE_NO_SQUERE => 2
  | .CODE_ZERO_DETERMINANT => 3
  | .CODE_CALC_COMPLEMENT => 4
  | .CODE_INDEX_OUT_OF_RANGE => 5
  | .CODE_INCORRECT_SIZE => 6
  | .CODE_SET_ROWS => 7
  | .CODE_SET_COLS => 8

/-- The exceptions the program throws: the class of the exception object and
the code whose entry of the message table `ERROR_MESSAGES` it carries. -/
inductive Exception where
  | logic_error (index : Code)
  | invalid_argument (index : Code)
  deriving DecidableEq

/-- How a call ends: it returns a value, it throws, or the fuel bounding the
recursion of `Determinant` is used up. -/
inductive Outcome (α : Type) where
  | ok (val : α)
  | thrown (e : Exception)
  | outOfFuel
  deriving DecidableEq

/-- Sequencing: a throw (or lack of fuel) skips the rest. -/
def Outcome.bind {α β : Type} : Outcome α → (α → Outcome β) → Outcome β
  | .ok a, f => f a
  | .thrown e, _ => .thrown e
  | .outOfFuel, _ => .outOfFuel

instance : Monad Outcome where
  pure := Outcome.ok
  bind := Outcome.bind

/-- The macro `LOG_ERR(index)`: throw `std::logic_error`. -/
def LOG_ERR {α : Type} (index : Code) : Outcome α :=
  .thrown (.logic_error index)

/-- The macro `INV_ARG(index)`: throw `std::invalid_argument`. -/
def INV_ARG {α : Type} (index : Code) : Outcome α :=
  .thrown (.invalid_argument index)

/-- Function `errors_` (Errors.cpp). -/
def errors_ (code_ : Code) : Outcome Unit :=
  if code_ = Code.CODE_NO then .ok ()
  else if code_.toInt < Code.CODE_INDEX_OUT_OF_RANGE.toInt then LOG_ERR code_
  else INV_ARG code_

/-! ## The object -/

/-- The data members of `class S21Matrix`. -/
structure S21Matrix where
  rows_ : Int
  cols_ : Int
  matrix_ : List (List ℚ)
  deriving DecidableEq

/-- The lvalue `matrix_[i][j]`, read (0 where the store has no such cell; no
such read happens on a valid matrix). -/
def rawGet (st : List (List ℚ)) (i j : Nat) : ℚ :=
  (st.getD i []).getD j 0

/-- The lvalue `matrix_[i][j]`, assigned. -/
def rawSet (st : List (List ℚ)) (i j : Nat) (v : ℚ) : List (List ℚ) :=
  st.set i ((st.getD i []).set j v)

/-- The expression `this->matrix_[i][j]`. -/
def S21Matrix.cell (this : S21Matrix) (i j : Nat) : ℚ :=
  rawGet this.matrix_ i j

/-- The assignment `this->matrix_[i][j] = v`. -/
def S21Matrix.assign (this : S21Matrix) (i j : Nat) (v : ℚ) : S21Matrix :=
  { this with matrix_ := rawSet this.matrix_ i j v }

/-- The object after a call of a member function, and how the call ended. -/
structure Effect (α : Type) where
  self : S21Matrix
  result : Outcome α
  deriving DecidableEq

/-- A member function that may assign to the members of `*this`. -/
def Method (α : Type) : Type := S21Matrix → Effect α

/-- Sequencing of statements of a member function; the object stays as the
throwing statement left it. -/
def Method.bind {α β : Type} (m : Method α) (f : α → Method β) : Method β :=
  fun this =>
    match m this with
    | ⟨this1, .ok a⟩ => f a this1
    | ⟨this1, .thrown e⟩ => ⟨this1, .thrown e⟩
    | ⟨this1, .outOfFuel⟩ => ⟨this1, .outOfFuel⟩

instance : Monad Method where
  pure a := fun this => ⟨this, .ok a⟩
  bind := Method.bind

/-- Read `*this`. -/
def getThis : Method S21Matrix := fun this => ⟨this, .ok this⟩

/-- Overwrite the members of `*this`. -/
def setThis (new : S21Matrix) : Method Unit := fun _ => ⟨new, .ok ()⟩

/-- A call that does not touch `*this`, as a statement of a member function. -/
def Outcome.lift {α : Type} (o : Outcome α) : Method α := fun this => ⟨this, o⟩

/-- Call a member function on a local object; a throw unwinds the local. -/
def S21Matrix.call {α : Type} (obj : S21Matrix) (m : Method α) : Outcome (S21Matrix × α) :=
  match m obj with
  | ⟨obj1, .ok a⟩ => .ok (obj1, a)
  | ⟨_, .thrown e⟩ => .thrown e
  | ⟨_, .outOfFuel⟩ => .outOfFuel

/-- Call a `void` member function on a local object and keep the object. -/
def S21Matrix.run (obj : S21Matrix) (m : Method Unit) : Outcome S21Matrix :=
  match m obj with
  | ⟨obj1, .ok _⟩ => .ok obj1
  | ⟨_, .thrown e⟩ => .thrown e
  | ⟨_, .outOfFuel⟩ => .outOfFuel

/-! ## Loops -/

/-- The first `k` iterations `i = 0, 1, .., k - 1` of a `for` loop over local
variables `s`. -/
def loopUpTo {σ : Type} (body : Nat → σ → Outcome σ) : Nat → σ → Outcome σ
  | 0, s => .ok s
  | k + 1, s => (loopUpTo body k s).bind (body k)

/-- The loop `for (int i = 0; i < n; i++) body`. -/
def forLoop {σ : Type} (n : Int) (body : Nat → σ → Outcome σ) (s : σ) : Outcome σ :=
  loopUpTo body n.toNat s

/-- The first `k` iterations of a `for` loop in a member function: the body
may assign to `*this` and to the local variables `s`. -/
def loopUpToM {σ : Type} (body : Nat → σ → Method σ) : Nat → σ → Method σ
  | 0, s => fun this => ⟨this, .ok s⟩
  | k + 1, s => (loopUpToM body k s).bind (body k)

/-- The loop `for (int i = 0; i < n; i++) body` in a member function. -/
def forLoopM {σ : Type} (n : Int) (body : Nat → σ → Method σ) (s : σ) : Method σ :=
  loopUpToM body n.toNat s

/-- The first `k` iterations of `for (int i = 0; (i < n) && cond; i++) body`
for a body that cannot throw: once `cond` fails the variables stay as they
are. -/
def loopWhile {σ : Type} (cond : σ → Bool) (body : Nat → σ → σ) : Nat → σ → σ
  | 0, s => s
  | k + 1, s => if cond (loopWhile cond body k s) then body k (loopWhile cond body k s)
      else loopWhile cond body k s

/-- The macro `MATRIX_DOUBLE_LOOP(rows, cols) body` over local variables. -/
def MATRIX_DOUBLE_LOOP {σ : Type} (rows cols : Int) (body : Nat → Nat → σ → Outcome σ)
    (s : σ) : Outcome σ :=
  forLoop rows (fun i s1 => forLoop cols (fun j s2 => body i j s2) s1) s

/-- The macro `MATRIX_DOUBLE_LOOP(rows, cols) body` in a member function. -/
def MATRIX_DOUBLE_LOOP_M {σ : Type} (rows cols : Int) (body : Nat → Nat → σ → Method σ)
    (s : σ) : Method σ :=
  forLoopM rows (fun i s1 => forLoopM cols (fun j s2 => body i j s2) s1) s

/-- The template `allocate_<T>(size)`: a fresh array of `size` elements.
`new T[size]` leaves them indeterminate; they are taken as `fill`. -/
def allocate_ {T : Type} (fill : T) (size : Int) : List T :=
  List.replicate size.toNat fill

/-- The value of an `int` expression after wrapping to 32 bits. -/
def wrapInt (x : Int) : Int :=
  (x + 2147483648) % 4294967296 - 2147483648

/-- The constant `ACCURACY` of operations.cpp, `0.0000001`. -/
def ACCURACY : ℚ := 1 / 10000000

namespace S21Matrix

/-! ## helpers.cpp, struct.cpp and the inline members -/

/-- Member `S21Matrix::checkSize`. -/
def checkSize (this : S21Matrix) : Bool :=
  decide (this.rows_ > 0) && decide (this.cols_ > 0)

/-- Member `S21Matrix::checkIndex`. -/
def checkIndex (this : S21Matrix) (i j : Int) : Bool :=
  let i_ := decide (i ≥ 0) && decide (i < this.rows_)
  let j_ := decide (j ≥ 0) && decide (j < this.cols_)
  i_ && j_

/-- Member `S21Matrix::EqSizeMatrix`. -/
def EqSizeMatrix (this other : S21Matrix) : Bool :=
  decide (other.cols_ = this.cols_) && decide (other.rows_ = this.rows_)

/-- Member `S21Matrix::getRows_`. -/
def getRows_ (this : S21Matrix) : Int := this.rows_

/-- Member `S21Matrix::getCols_`. -/
def getCols_ (this : S21Matrix) : Int := this.cols_

/-- Function `ChecksError` (Errors.cpp) for every code but `CODE_ZERO_DETERMINANT`,
whose case calls `Determinant` and is added in `ChecksError` below. A null
`second` is never dereferenced by a caller; its cases raise no error. -/
def ChecksErrorBasic (code_ : Code) (first : S21Matrix) (second : Option S21Matrix) :
    Outcome Unit :=
  let c_ : Bool :=
    match code_ with
    | .CODE_DIFF_DIMENSIONS =>
      match second with
      | some s => !(first.EqSizeMatrix s)
      | none => false
    | .CODE_MISTMATCH_SIZE =>
      match second with
      | some s => decide (first.getCols_ ≠ s.getRows_)
      | none => false
    | .CODE_NO_SQUERE => decide (first.getCols_ ≠ first.getRows_)
    | .CODE_CALC_COMPLEMENT => decide (first.getCols_ < 2)
    | .CODE_INCORRECT_SIZE => !first.checkSize
    | _ => false
  if c_ then errors_ code_ else .ok ()

/-- The mutable `S21Matrix::operator()`: the reference it returns is the
position of the cell. -/
def operator_call (this : S21Matrix) (i j : Int) : Outcome (Nat × Nat) := do
  if !this.checkIndex i j then errors_ .CODE_INDEX_OUT_OF_RANGE
  pure (i.toNat, j.toNat)

/-- The constant `S21Matrix::operator()`. -/
def operator_call_const (this : S21Matrix) (i j : Int) : Outcome ℚ := do
  if !this.checkIndex i j then errors_ .CODE_INDEX_OUT_OF_RANGE
  pure (this.cell i.toNat j.toNat)

/-- The inline member `zeroing`. -/
def zeroing : Method Unit :=
  fun _ => ⟨{ rows_ := 0, cols_ := 0, matrix_ := [] }, .ok ()⟩

/-- Member `S21Matrix::createMatrix`. -/
def createMatrix : Method Unit := do
  let this ← getThis
  (ChecksErrorBasic .CODE_INCORRECT_SIZE this none).lift
  setThis { this with matrix_ := allocate_ [] this.rows_ }
  forLoopM this.rows_ (fun i _ => do
    let cur ← getThis
    setThis { cur with matrix_ := cur.matrix_.set i (allocate_ 0 cur.cols_) }) ()

/-- Member `S21Matrix::deleteMatrix`. -/
def deleteMatrix : Method Unit := do
  let this ← getThis
  if this.matrix_ ≠ [] then zeroing

/-- Member `S21Matrix::initMatrixZero`. -/
def initMatrixZero : Method Unit := do
  let this ← getThis
  MATRIX_DOUBLE_LOOP_M this.rows_ this.cols_ (fun i j _ => do
    let cur ← getThis
    setThis (cur.assign i j 0)) ()

/-- The inline member `creater_`. -/
def creater_ : Method Unit := do
  createMatrix
  initMatrixZero

/-- Member `S21Matrix::copyMatrix`. -/
def copyMatrix (other : S21Matrix) : Method Unit :=
  MATRIX_DOUBLE_LOOP_M other.rows_ other.cols_ (fun i j _ => do
    let cur ← getThis
    let v ← (other.operator_call_const i j).lift
    setThis (cur.assign i j v)) ()

/-- The default constructor `S21Matrix::S21Matrix()`. -/
def ctor_default : Outcome S21Matrix :=
  S21Matrix.run { rows_ := 3, cols_ := 3, matrix_ := [] } creater_

/-- The constructor `S21Matrix::S21Matrix(int rows, int cols)`. -/
def ctor (rows cols : Int) : Outcome S21Matrix :=
  S21Matrix.run { rows_ := rows, cols_ := cols, matrix_ := [] } creater_

/-- The copy constructor `S21Matrix::S21Matrix(const S21Matrix&)`. -/
def ctor_copy (other : S21Matrix) : Outcome S21Matrix :=
  S21Matrix.run { rows_ := other.rows_, cols_ := other.cols_, matrix_ := [] } (do
    creater_
    copyMatrix other)

/-- The move constructor `S21Matrix::S21Matrix(S21Matrix&&)`: the new object
and `other` as it is left. -/
def ctor_move (other : S21Matrix) : S21Matrix × S21Matrix :=
  ({ rows_ := other.rows_, cols_ := other.cols_, matrix_ := other.matrix_ },
    (zeroing other).self)

/-- The inline member `help_move_and_copy`. -/
def help_move_and_copy (other : S21Matrix) : Method Unit := do
  deleteMatrix
  let this ← getThis
  setThis { this with rows_ := other.rows_ }
  let this ← getThis
  setThis { this with cols_ := other.cols_ }

/-- The copy assignment `operator=(const S21Matrix&)` for an `other` that is
not `*this` itself. -/
def operator_assign_copy (other : S21Matrix) : Method Unit := do
  help_move_and_copy other
  creater_
  copyMatrix other

/-- The move assignment `operator=(S21Matrix&&)` for an `other` that is not
`*this` itself; it returns `other` as it is left. -/
def operator_assign_move (other : S21Matrix) : Method S21Matrix := do
  help_move_and_copy other
  let this ← getThis
  setThis { this with matrix_ := other.matrix_ }
  pure (zeroing other).self

/-- Member `S21Matrix::getMatrixValue`. -/
def getMatrixValue (this : S21Matrix) (i j : Int) : Outcome ℚ := do
  let ref ← this.operator_call i j
  pure (this.cell ref.1 ref.2)

/-- Member `S21Matrix::setMatrixValue(int i, int j, double value)`. -/
def setMatrixValue (i j : Int) (value : ℚ) : Method Unit := do
  let this ← getThis
  let ref ← (this.operator_call i j).lift
  setThis (this.assign ref.1 ref.2 value)

/-- Member `S21Matrix::setMatrixValue(std::vector<double>& values)`; a read past
the end of `values` gives 0. -/
def setMatrixValue_values (values : List ℚ) : Method Unit := do
  let this ← getThis
  if wrapInt (this.rows_ * this.cols_) ≠ wrapInt (values.length : Int) then
    (errors_ .CODE_DIFF_DIMENSIONS).lift
  let count : Nat := 0
  let _ ← MATRIX_DOUBLE_LOOP_M this.rows_ this.cols_ (fun i j count => do
    let cur ← getThis
    setThis (cur.assign i j (values.getD count 0))
    pure (count + 1)) count

/-- Member `S21Matrix::getMatrixMinor`. -/
def getMatrixMinor (this : S21Matrix) (rows_del cols_del : Int) : Outcome S21Matrix := do
  let res_rows : Int := 0
  let res_cols : Int := 0
  let result ← ctor (this.rows_ - 1) (this.cols_ - 1)
  let (result, _, _) ← forLoop this.rows_ (fun i (st : S21Matrix × Int × Int) =>
    let (result, res_rows, res_cols) := st
    if (i : Int) = rows_del then pure (result, res_rows, res_cols)
    else do
      let res_cols : Int := 0
      let (result, res_cols) ← forLoop this.cols_ (fun j (st2 : S21Matrix × Int) =>
        let (result, res_cols) := st2
        if (j : Int) = cols_del then pure (result, res_cols)
        else do
          let ref ← result.operator_call res_rows res_cols
          pure (result.assign ref.1 ref.2 (this.cell i j), res_cols + 1)) (result, res_cols)
      pure (result, res_rows + 1, res_cols)) (result, res_rows, res_cols)
  pure result

/-- Member `S21Matrix::setNewSize`. -/
def setNewSize (Nrows Ncols : Int) : Method Unit := do
  let this ← getThis
  let tmp ← (ctor Nrows Ncols).lift
  let tmp ← (MATRIX_DOUBLE_LOOP (min this.rows_ Nrows) (min this.cols_ Ncols)
    (fun i j (tmp : S21Matrix) => tmp.run (setMatrixValue i j (this.cell i j))) tmp).lift
  deleteMatrix
  let _ ← operator_assign_move tmp

/-- Member `S21Matrix::setRows_`. -/
def setRows_ (newRows : Int) : Method Unit := do
  if newRows ≤ 0 then (errors_ .CODE_SET_ROWS).lift
  let this ← getThis
  setNewSize newRows this.cols_

/-- Member `S21Matrix::setCols_`. -/
def setCols_ (newCols : Int) : Method Unit := do
  if newCols ≤ 0 then (errors_ .CODE_SET_COLS).lift
  let this ← getThis
  setNewSize this.rows_ newCols

/-! ## operations.cpp -/

/-- Member `S21Matrix::Determinant` with a bound `fuel` on the depth of the
recursion (a call on an `n x n` matrix nests `n` deep). The sums and products
are exact here; `Binary64.DeterminantFuel` below rounds each of them. -/
def DeterminantFuel : Nat → S21Matrix → Outcome ℚ
  | 0, _ => .outOfFuel
  | fuel + 1, this => do
    ChecksErrorBasic .CODE_NO_SQUERE this none
    let det : ℚ := this.cell 0 0
    if this.rows_ ≠ 1 then
      let det : ℚ := 0
      let sign : Int := 1
      let tmp ← ctor_copy this
      let (det, _) ← forLoop this.cols_ (fun i (st : ℚ × Int) => do
        let (det, sign) := st
        let minor ← tmp.getMatrixMinor 0 i
        let d ← DeterminantFuel fuel minor
        pure (det + sign * this.cell 0 i * d, -sign)) (det, sign)
      pure det
    else
      pure det

/-- Member `S21Matrix::Determinant`: the recursion is as deep as the matrix has
rows. -/
def Determinant (this : S21Matrix) : Outcome ℚ :=
  DeterminantFuel this.rows_.toNat this

/-- Function `ChecksError` (Errors.cpp). -/
def ChecksError (code_ : Code) (first : S21Matrix) (second : Option S21Matrix) :
    Outcome Unit :=
  match code_ with
  | .CODE_ZERO_DETERMINANT => do
    let d ← first.Determinant
    if |d| < 1 / 10000000 then errors_ code_ else pure ()
  | _ => ChecksErrorBasic code_ first second

/-- Member `S21Matrix::EqMatrix`, on elements that are numbers;
`IEEE.S21Matrix.EqMatrix` below is the member on doubles of any kind, a NaN
included. -/
def EqMatrix (this other : S21Matrix) : Bool :=
  let code : Bool := true
  if this.EqSizeMatrix other then
    loopWhile (fun c => c) (fun i code =>
      loopWhile (fun c => c) (fun j code =>
        if |this.cell i j - other.cell i j| > ACCURACY then false else code)
        this.cols_.toNat code) this.rows_.toNat code
  else false

/-- Member `S21Matrix::PerformMatrixOperation`; `op a b` is the value `op` leaves
in its first argument. -/
def PerformMatrixOperation (code_ : Code) (other : S21Matrix) (op : ℚ → ℚ → ℚ) :
    Method Unit := do
  let this ← getThis
  (ChecksError code_ this (some other)).lift
  MATRIX_DOUBLE_LOOP_M this.rows_ this.cols_ (fun i j _ => do
    let cur ← getThis
    let b ← (other.operator_call_const i j).lift
    setThis (cur.assign i j (op (cur.cell i j) b))) ()

/-- Member `S21Matrix::SumMatrix`. -/
def SumMatrix (other : S21Matrix) : Method Unit :=
  let sum_ : ℚ → ℚ → ℚ := fun a b => a + b
  PerformMatrixOperation .CODE_DIFF_DIMENSIONS other sum_

/-- Member `S21Matrix::SubMatrix`. -/
def SubMatrix (other : S21Matrix) : Method Unit :=
  let sub_ : ℚ → ℚ → ℚ := fun a b => a - b
  PerformMatrixOperation .CODE_DIFF_DIMENSIONS other sub_

/-- Member `S21Matrix::MulNumber`. -/
def MulNumber (num : ℚ) : Method Unit := do
  let this ← getThis
  MATRIX_DOUBLE_LOOP_M this.rows_ this.cols_ (fun i j _ => do
    let cur ← getThis
    setThis (cur.assign i j (cur.cell i j * num))) ()

/-- Member `S21Matrix::MulMatrix`. -/
def MulMatrix (other : S21Matrix) : Method Unit := do
  let this ← getThis
  (ChecksError .CODE_MISTMATCH_SIZE this (some other)).lift
  let resultMatrix ← (ctor this.rows_ other.cols_).lift
  let resultMatrix ← (MATRIX_DOUBLE_LOOP this.rows_ other.cols_
    (fun i j (resultMatrix : S21Matrix) =>
      forLoop this.cols_ (fun k (resultMatrix : S21Matrix) =>
        pure (resultMatrix.assign i j
          (resultMatrix.cell i j + this.cell i k * other.cell k j))) resultMatrix)
    resultMatrix).lift
  deleteMatrix
  let _ ← operator_assign_move resultMatrix

/-- Member `S21Matrix::Transpose`. -/
def Transpose (this : S21Matrix) : Outcome S21Matrix := do
  let resultMatrix ← ctor this.cols_ this.rows_
  MATRIX_DOUBLE_LOOP this.rows_ this.cols_
    (fun i j (resultMatrix : S21Matrix) => pure (resultMatrix.assign j i (this.cell i j)))
    resultMatrix

/-- Member `S21Matrix::CalcComplements`. -/
def CalcComplements (this : S21Matrix) : Outcome S21Matrix := do
  ChecksError .CODE_NO_SQUERE this none
  ChecksError .CODE_CALC_COMPLEMENT this none
  let resultMatrix ← ctor this.cols_ this.rows_
  MATRIX_DOUBLE_LOOP this.rows_ this.cols_
    (fun i j (resultMatrix : S21Matrix) => do
      let minor ← this.getMatrixMinor i j
      let determinant ← minor.Determinant
      pure (resultMatrix.assign i j ((-1 : ℚ) ^ (i + j) * determinant)))
    resultMatrix

/-- Member `S21Matrix::InverseMatrix`. -/
def InverseMatrix (this : S21Matrix) : Outcome S21Matrix := do
  ChecksError .CODE_ZERO_DETERMINANT this none
  let determinant ← this.Determinant
  let resultMatrix ← ctor_copy this
  if this.rows_ = 1 then
    pure (resultMatrix.assign 0 0 (1 / determinant))
  else
    let t ← this.Transpose
    let c ← t.CalcComplements
    let (resultMatrix, _) ← resultMatrix.call (operator_assign_move c)
    resultMatrix.run (MulNumber (1 / determinant))

/-! ## operators.cpp -/

/-- Member `S21Matrix::operator_calculate`. -/
def operator_calculate (this other : S21Matrix) (oper : S21Matrix → Method Unit) :
    Outcome S21Matrix := do
  let resultMatrix ← ctor_copy this
  resultMatrix.run (oper other)

/-- Member `S21Matrix::operator+`. -/
def operator_plus (this other : S21Matrix) : Outcome S21Matrix :=
  this.operator_calculate other SumMatrix

/-- Member `S21Matrix::operator-`. -/
def operator_minus (this other : S21Matrix) : Outcome S21Matrix :=
  this.operator_calculate other SubMatrix

/-- Member `S21Matrix::operator*(const S21Matrix&)`. -/
def operator_mul (this other : S21Matrix) : Outcome S21Matrix :=
  this.operator_calculate other MulMatrix

/-- Member `S21Matrix::operator*(const double&)`. -/
def operator_mul_number (this : S21Matrix) (number : ℚ) : Outcome S21Matrix := do
  let resultMatrix ← ctor_copy this
  resultMatrix.run (MulNumber number)

/-- Member `S21Matrix::operator==`. -/
def operator_eq (this other : S21Matrix) : Bool :=
  this.EqMatrix other

/-- Member `S21Matrix::operator+=`. -/
def operator_plus_assign (other : S21Matrix) : Method Unit :=
  SumMatrix other

/-- Member `S21Matrix::operator-=`. -/
def operator_minus_assign (other : S21Matrix) : Method Unit :=
  SubMatrix other

/-- Member `S21Matrix::operator*=(const S21Matrix&)`. -/
def operator_mul_assign (other : S21Matrix) : Method Unit :=
  MulMatrix other

/-- Member `S21Matrix::operator*=(const double&)`. -/
def operator_mul_assign_number (number : ℚ) : Method Unit :=
  MulNumber number

end S21Matrix

/-! ## Vocabulary of the statements -/

/-- A store of `R` rows, each holding `C` values. -/
def Shaped (st : List (List ℚ)) (R C : Nat) : Prop :=
  st.length = R ∧ ∀ row ∈ st, row.length = C

instance (st : List (List ℚ)) (R C : Nat) : Decidable (Shaped st R C) := by
  unfold Shaped
  exact inferInstance

/-- A matrix in a valid state: positive dimensions and a store of exactly
`rows_` rows, each holding exactly `cols_` values. -/
def S21Matrix.valid (m : S21Matrix) : Prop :=
  0 < m.rows_ ∧ 0 < m.cols_ ∧ Shaped m.matrix_ m.rows_.toNat m.cols_.toNat

instance (m : S21Matrix) : Decidable m.valid := by
  unfold S21Matrix.valid
  exact inferInstance

/-- The `r x c` matrix whose element `(i, j)` is `f i j`. -/
def S21Matrix.ofFn (r c : Nat) (f : Nat → Nat → ℚ) : S21Matrix :=
  { rows_ := r, cols_ := c,
    matrix_ := (List.range r).map (fun i => (List.range c).map (fun j => f i j)) }

/-- The index of the `a`-th of the rows (columns) that remain when row
(column) `p` is removed. -/
def skipIndex (p a : Nat) : Nat :=
  if a < p then a else a + 1

/-- The elements of the top-left `n x n` block as a matrix over the
rationals. -/
def toMatrix (n : Nat) (m : S21Matrix) : Matrix (Fin n) (Fin n) ℚ :=
  Matrix.of (fun i j => m.cell i.val j.val)

/-- The `n x n` matrix object holding the elements of `A`. -/
def fromMatrix {n : Nat} (A : Matrix (Fin n) (Fin n) ℚ) : S21Matrix :=
  S21Matrix.ofFn n n (fun i j => if h : i < n ∧ j < n then A ⟨i, h.1⟩ ⟨j, h.2⟩ else 0)

/-- The `n x n` identity matrix. -/
def identity (n : Nat) : S21Matrix :=
  S21Matrix.ofFn n n (fun i j => if i = j then 1 else 0)

/-- The matrix `[[1, 2], [3, 4]]` of the scenarios. -/
def exampleA : S21Matrix := { rows_ := 2, cols_ := 2, matrix_ := [[1, 2], [3, 4]] }

/-- The matrix `[[5, 6], [7, 8]]` of the scenarios. -/
def exampleB : S21Matrix := { rows_ := 2, cols_ := 2, matrix_ := [[5, 6], [7, 8]] }

/-- The inverse `[[-2, 1], [1.5, -0.5]]` of `exampleA`. -/
def exampleAinv : S21Matrix :=
  { rows_ := 2, cols_ := 2, matrix_ := [[-2, 1], [3 / 2, -1 / 2]] }

/-- The `1 x 1` matrix whose element, and determinant, is exactly `1e-7`. -/
def exampleTiny : S21Matrix := { rows_ := 1, cols_ := 1, matrix_ := [[1 / 10000000]] }

/-- The product `[[19, 22], [43, 50]]` of `exampleA` and `exampleB`. -/
def exampleAB : S21Matrix := { rows_ := 2, cols_ := 2, matrix_ := [[19, 22], [43, 50]] }

/-- A `2 x 3` matrix. -/
def example23 : S21Matrix := { rows_ := 2, cols_ := 3, matrix_ := [[1, 2, 3], [4, 5, 6]] }

/-- The classes of `<stdexcept>` that the source names: the two that the
macros `LOG_ERR` and `INV_ARG` construct, and `std::out_of_range`, which the
comments on `operator()` announce. -/
inductive StdClass where
  | logic_error
  | invalid_argument
  | out_of_range
  deriving DecidableEq

/-- The class of the exception object that a `throw` constructs. -/
def Exception.stdClass : Exception → StdClass
  | .logic_error _ => .logic_error
  | .invalid_argument _ => .invalid_argument

/-- The `3 x 3` matrix of zeros, as the default constructor builds it. -/
def example33 : S21Matrix :=
  { rows_ := 3, cols_ := 3, matrix_ := [[0, 0, 0], [0, 0, 0], [0, 0, 0]] }

/-- The sum `[[6, 8], [10, 12]]` of `exampleA` and `exampleB`. -/
def exampleSum : S21Matrix := { rows_ := 2, cols_ := 2, matrix_ := [[6, 8], [10, 12]] }

/-- The `1 x 1` matrix `[[0]]`. -/
def exampleOne : S21Matrix := { rows_ := 1, cols_ := 1, matrix_ := [[0]] }

/-- The `1 x 1` matrix `[[10^8]]`. -/
def exampleBig : S21Matrix := { rows_ := 1, cols_ := 1, matrix_ := [[100000000]] }

/-- The inverse `[[10^-8]]` of `exampleBig`. -/
def exampleBigInv : S21Matrix := { rows_ := 1, cols_ := 1, matrix_ := [[1 / 100000000]] }

/-- A `3 x 3` matrix with nine different elements. -/
def exampleC : S21Matrix :=
  { rows_ := 3, cols_ := 3, matrix_ := [[1, 2, 3], [4, 5, 6], [7, 8, 9]] }

/-! ## Arithmetic in binary64

The definitions above take the arithmetic of `double` exactly. Here the
members that compute are given again with every sum, product and quotient
rounded to the nearest binary64 number, ties to the even significand, as the
machine does it operation by operation. A binary64 number is the rational it
stands for; overflow to an infinity is outside this part (no result here comes
near `2^1024`). The members that only move elements (`getMatrixMinor`,
`Transpose`, the constructors and assignments) are the ones above. -/

namespace Binary64

/-- The integer part of the binary logarithm of `n`, by at most `fuel` halvings. -/
def log2Fuel : Nat → Nat → Nat
  | 0, _ => 0
  | fuel + 1, n => if 2 ≤ n then log2Fuel fuel (n / 2) + 1 else 0

/-- The integer part of the binary logarithm of `n` (0 for `n = 0`): `n`
halvings are enough. -/
def log2 (n : Nat) : Nat :=
  log2Fuel n n

/-- The integer `e` with `2^e <= n / d < 2^(e+1)`, for positive `n` and `d`. -/
def exponent (n d : Nat) : Int :=
  let l : Int := (log2 n : Int) - (log2 d : Int)
  if (if 0 ≤ l then d * 2 ^ l.toNat ≤ n else d ≤ n * 2 ^ (-l).toNat) then l else l - 1

/-- The binary64 number nearest to `x`: a significand of 53 binary digits (fewer
below `2^-1022`, the subnormal numbers), ties to the even significand. -/
def round (x : ℚ) : ℚ :=
  if x = 0 then 0
  else
    let n : Nat := x.num.natAbs
    let d : Nat := x.den
    let e : Int := max (exponent n d - 52) (-1074)
    let p : Nat := if 0 ≤ e then n else n * 2 ^ (-e).toNat
    let q : Nat := if 0 ≤ e then d * 2 ^ e.toNat else d
    let m : Nat := p / q
    let r : Nat := p % q
    let m : Nat :=
      if 2 * r < q then m else if q < 2 * r then m + 1 else if m % 2 = 0 then m else m + 1
    let y : ℚ :=
      if 0 ≤ e then ((m * 2 ^ e.toNat : Nat) : ℚ) else (m : ℚ) / ((2 ^ (-e).toNat : Nat) : ℚ)
    if x < 0 then -y else y

/-- The sum `a + b` of two doubles. -/
def add (a b : ℚ) : ℚ := round (a + b)

/-- The product `a * b` of two doubles. -/
def mul (a b : ℚ) : ℚ := round (a * b)

/-- The quotient `a / b` of two doubles, `b` not zero. -/
def div (a b : ℚ) : ℚ := round (a / b)

/-- Member `S21Matrix::Determinant` in binary64 arithmetic, with a bound `fuel`
on the depth of the recursion. -/
def DeterminantFuel : Nat → S21Matrix → Outcome ℚ
  | 0, _ => .outOfFuel
  | fuel + 1, this => do
    S21Matrix.ChecksErrorBasic .CODE_NO_SQUERE this none
    let det : ℚ := this.cell 0 0
    if this.rows_ ≠ 1 then
      let det : ℚ := 0
      let sign : Int := 1
      let tmp ← S21Matrix.ctor_copy this
      let (det, _) ← forLoop this.cols_ (fun i (st : ℚ × Int) => do
        let (det, sign) := st
        let minor ← tmp.getMatrixMinor 0 i
        let d ← DeterminantFuel fuel minor
        pure (add det (mul (mul sign (this.cell 0 i)) d), -sign)) (det, sign)
      pure det
    else
      pure det

/-- Member `S21Matrix::Determinant` in binary64 arithmetic. -/
def Determinant (this : S21Matrix) : Outcome ℚ :=
  DeterminantFuel this.rows_.toNat this

/-- Function `ChecksError` (Errors.cpp) in binary64 arithmetic: the literal
`1e-7` is the double nearest to it. -/
def ChecksError (code_ : Code) (first : S21Matrix) (second : Option S21Matrix) :
    Outcome Unit :=
  match code_ with
  | .CODE_ZERO_DETERMINANT => do
    let d ← Determinant first
    if |d| < round (1 / 10000000) then errors_ code_ else pure ()
  | _ => S21Matrix.ChecksErrorBasic code_ first second

/-- Member `S21Matrix::MulNumber` in binary64 arithmetic. -/
def MulNumber (num : ℚ) : Method Unit := do
  let this ← getThis
  MATRIX_DOUBLE_LOOP_M this.rows_ this.cols_ (fun i j _ => do
    let cur ← getThis
    setThis (cur.assign i j (mul (cur.cell i j) num))) ()

/-- Member `S21Matrix::CalcComplements` in binary64 arithmetic. -/
def CalcComplements (this : S21Matrix) : Outcome S21Matrix := do
  ChecksError .CODE_NO_SQUERE this none
  ChecksError .CODE_CALC_COMPLEMENT this none
  let resultMatrix ← S21Matrix.ctor this.cols_ this.rows_
  MATRIX_DOUBLE_LOOP this.rows_ this.cols_
    (fun i j (resultMatrix : S21Matrix) => do
      let minor ← this.getMatrixMinor i j
      let determinant ← Determinant minor
      pure (resultMatrix.assign i j (mul ((-1 : ℚ) ^ (i + j)) determinant)))
    resultMatrix

/-- Member `S21Matrix::InverseMatrix` in binary64 arithmetic. -/
def InverseMatrix (this : S21Matrix) : Outcome S21Matrix := do
  ChecksError .CODE_ZERO_DETERMINANT this none
  let determinant ← Determinant this
  let resultMatrix ← S21Matrix.ctor_copy this
  if this.rows_ = 1 then
    pure (resultMatrix.assign 0 0 (div 1 determinant))
  else
    let t ← this.Transpose
    let c ← CalcComplements t
    let (resultMatrix, _) ← resultMatrix.call (S21Matrix.operator_assign_move c)
    resultMatrix.run (MulNumber (div 1 determinant))

end Binary64

/-- A `4 x 4` matrix of whole numbers near `10^8`, each of them a binary64
number; its determinant is `4`. -/
def exampleD : S21Matrix :=
  { rows_ := 4, cols_ := 4,
    matrix_ := [[100000002, 100000002, 100000004, 100000000],
      [100000001, 100000002, 100000004, 100000000],
      [100000003, 100000004, 100000004, 100000002],
      [100000002, 100000002, 100000003, 100000000]] }

/-- What `Binary64.InverseMatrix` returns on `exampleD`. -/
def exampleDinv : S21Matrix :=
  { rows_ := 4, cols_ := 4,
    matrix_ := [[1, -1, 0, 0],
      [-50000002, 25000001, -25000000, 50000002],
      [1, 0, 0, -1],
      [50000002, -25000000, 50000001 / 2, -50000002]] }

/-- The transposed matrix of complements of `exampleD` with every element
multiplied by `1 / Determinant`, all in binary64 arithmetic. -/
def exampleDadj : S21Matrix :=
  { rows_ := 4, cols_ := 4,
    matrix_ := [[1, -1, 0, 0],
      [-50000005 / 2, 1, -50000000, 50000002],
      [1, 0, 0, -1],
      [25000001, 0, 50000001, -50000002]] }

/-! ## Doubles that are not numbers

A `double` can also be an infinity or a NaN, and any `double` can be stored in
a matrix (`setMatrixValue(i, j, value)` takes every value). Comparison is the
one place where the members treat such values differently from numbers, so
`EqMatrix` is given again over elements of this kind. Numbers are taken
exactly, as above. -/

/-- A value of type `double`: a number, an infinity or a NaN. -/
inductive Double where
  | num (q : ℚ)
  | inf (negative : Bool)
  | nan
  deriving DecidableEq

namespace Double

/-- The difference `a - b` of two doubles. -/
def sub : Double → Double → Double
  | num a, num b => num (a - b)
  | num _, inf s => inf (!s)
  | inf s, num _ => inf s
  | inf s, inf t => if s = t then nan else inf s
  | nan, _ => nan
  | _, nan => nan

/-- Function `fabs`. -/
def fabs : Double → Double
  | num a => num |a|
  | inf _ => inf false
  | nan => nan

/-- The comparison `a > b` of two doubles: false when one of them is a NaN. -/
def gt : Double → Double → Bool
  | num a, num b => decide (b < a)
  | num _, inf s => s
  | inf s, num _ => !s
  | inf s, inf t => !s && t
  | nan, _ => false
  | _, nan => false

end Double

namespace IEEE

/-- The data members of `class S21Matrix`, the elements being doubles of any
kind. -/
structure S21Matrix where
  rows_ : Int
  cols_ : Int
  matrix_ : List (List Double)
  deriving DecidableEq

namespace S21Matrix

/-- The expression `this->matrix_[i][j]`. -/
def cell (this : S21Matrix) (i j : Nat) : Double :=
  (this.matrix_.getD i []).getD j (Double.num 0)

/-- Member `S21Matrix::EqSizeMatrix`. -/
def EqSizeMatrix (this other : S21Matrix) : Bool :=
  decide (other.cols_ = this.cols_) && decide (other.rows_ = this.rows_)

/-- Member `S21Matrix::EqMatrix`. -/
def EqMatrix (this other : S21Matrix) : Bool :=
  let code : Bool := true
  if this.EqSizeMatrix other then
    loopWhile (fun c => c) (fun i code =>
      loopWhile (fun c => c) (fun j code =>
        if ((this.cell i j).sub (other.cell i j)).fabs.gt (Double.num ACCURACY) then false
        else code)
        this.cols_.toNat code) this.rows_.toNat code
  else false

/-- Member `S21Matrix::operator==`. -/
def operator_eq (this other : S21Matrix) : Bool :=
  this.EqMatrix other

/-- A matrix in a valid state: positive dimensions and a store of exactly
`rows_` rows, each holding exactly `cols_` values. -/
def valid (m : S21Matrix) : Prop :=
  0 < m.rows_ ∧ 0 < m.cols_ ∧ m.matrix_.length = m.rows_.toNat ∧
    ∀ row ∈ m.matrix_, row.length = m.cols_.toNat

instance (m : S21Matrix) : Decidable m.valid := by
  unfold valid
  exact inferInstance

end S21Matrix

/-- A matrix of numbers as a matrix of doubles of any kind. -/
def ofNumbers (m : MatrixPlus.S21Matrix) : S21Matrix :=
  { rows_ := m.rows_, cols_ := m.cols_,
    matrix_ := m.matrix_.map (fun row => row.map Double.num) }

end IEEE

/-! ## Sequencing -/

section basics
variable {α β σ : Type}

@[simp] theorem Outcome_bind_def (x : Outcome α) (f : α → Outcome β) :
    (x >>= f) = x.bind f := rfl

@[simp] theorem Outcome_pure_def (a : α) : (pure a : Outcome α) = Outcome.ok a := rfl

@[simp] theorem Outcome.ok_bind (a : α) (f : α → Outcome β) :
    (Outcome.ok a).bind f = f a := rfl

@[simp] theorem Outcome.thrown_bind (e : Exception) (f : α → Outcome β) :
    (Outcome.thrown e : Outcome α).bind f = Outcome.thrown e := rfl

@[simp] theorem Outcome.outOfFuel_bind (f : α → Outcome β) :
    (Outcome.outOfFuel : Outcome α).bind f = Outcome.outOfFuel := rfl

theorem Outcome.bind_eq_ok {x : Outcome α} {f : α → Outcome β} {b : β} :
    x.bind f = Outcome.ok b ↔ ∃ a, x = Outcome.ok a ∧ f a = Outcome.ok b := by
  cases x <;> simp

@[simp] theorem Method_bind_def (x : Method α) (f : α → Method β) :
    (x >>= f) = x.bind f := rfl

@[simp] theorem Method.pure_apply (a : α) (this : S21Matrix) :
    (pure a : Method α) this = ⟨this, Outcome.ok a⟩ := rfl

theorem Method.bind_apply_ok {x : Method α} {f : α → Method β} {this this1 : S21Matrix}
    {a : α} (h : x this = ⟨this1, Outcome.ok a⟩) : x.bind f this = f a this1 := by
  simp [Method.bind, h]

theorem Method.bind_apply_thrown {x : Method α} {f : α → Method β} {this this1 : S21Matrix}
    {e : Exception} (h : x this = ⟨this1, Outcome.thrown e⟩) :
    x.bind f this = ⟨this1, Outcome.thrown e⟩ := by
  simp [Method.bind, h]

@[simp] theorem getThis_bind (f : S21Matrix → Method β) (this : S21Matrix) :
    getThis.bind f this = f this this := rfl

@[simp] theorem setThis_bind (new : S21Matrix) (f : Unit → Method β) (this : S21Matrix) :
    (setThis new).bind f this = f () new := rfl

@[simp] theorem setThis_apply (new this : S21Matrix) :
    setThis new this = ⟨new, Outcome.ok ()⟩ := rfl

@[simp] theorem lift_ok_bind (a : α) (f : α → Method β) (this : S21Matrix) :
    (Outcome.ok a).lift.bind f this = f a this := rfl

@[simp] theorem lift_thrown_bind (e : Exception) (f : α → Method β) (this : S21Matrix) :
    (Outcome.thrown e : Outcome α).lift.bind f this = ⟨this, Outcome.thrown e⟩ := rfl

@[simp] theorem lift_apply (o : Outcome α) (this : S21Matrix) :
    o.lift this = ⟨this, o⟩ := rfl

end basics

/-! ## The store -/

theorem getD_getD_set (st : List (List ℚ)) (i a : Nat) (row : List ℚ) :
    (st.set i row).getD a [] = if a = i ∧ i < st.length then row else st.getD a [] := by
  simp only [List.getD_eq_getElem?_getD, List.getElem?_set]
  by_cases h : i = a
  · subst h
    by_cases h2 : i < st.length
    · simp [h2]
    · have h3 : st.length ≤ i := by omega
      simp [h2, List.getElem?_eq_none h3]
  · have : ¬ (a = i) := fun e => h e.symm
    simp [h, this]

theorem rawGet_rawSet (st : List (List ℚ)) (i j a b : Nat) (v : ℚ) :
    rawGet (rawSet st i j v) a b =
      if a = i ∧ b = j ∧ i < st.length ∧ j < (st.getD i []).length then v
      else rawGet st a b := by
  unfold rawGet rawSet
  rw [getD_getD_set]
  by_cases h : a = i ∧ i < st.length
  · obtain ⟨rfl, h2⟩ := h
    simp only [h2, and_self, true_and, if_true]
    simp only [List.getD_eq_getElem?_getD, List.getElem?_set]
    by_cases h3 : j = b
    · subst h3
      by_cases h4 : j < (st[a]?.getD []).length
      · simp [h4]
      · have h5 : (st[a]?.getD []).length ≤ j := by omega
        simp [h4, List.getElem?_eq_none h5]
    · have : ¬ (b = j) := fun e => h3 e.symm
      simp [h3, this]
  · rw [if_neg h, if_neg]
    intro hh
    exact h ⟨hh.1, hh.2.2.1⟩

theorem Shaped.getD_length {st : List (List ℚ)} {R C : Nat} (h : Shaped st R C) {i : Nat}
    (hi : i < R) : (st.getD i []).length = C := by
  obtain ⟨hl, hr⟩ := h
  have hi2 : i < st.length := by omega
  rw [List.getD_eq_getElem _ _ hi2]
  exact hr _ (List.getElem_mem _)

theorem Shaped.rawSet {st : List (List ℚ)} {R C : Nat} (h : Shaped st R C) (i j : Nat) (v : ℚ) :
    Shaped (rawSet st i j v) R C := by
  obtain ⟨hl, hr⟩ := h
  refine ⟨by simp [MatrixPlus.rawSet, hl], ?_⟩
  intro row hrow
  unfold MatrixPlus.rawSet at hrow
  by_cases hi : i < st.length
  · rcases List.mem_or_eq_of_mem_set hrow with h1 | h1
    · exact hr _ h1
    · subst h1
      rw [List.length_set, List.getD_eq_getElem _ _ hi]
      exact hr _ (List.getElem_mem _)
  · rw [List.set_eq_of_length_le (by omega)] at hrow
    exact hr _ hrow

theorem Shaped.ext {st1 st2 : List (List ℚ)} {R C : Nat} (h1 : Shaped st1 R C)
    (h2 : Shaped st2 R C) (h : ∀ i j, i < R → j < C → rawGet st1 i j = rawGet st2 i j) :
    st1 = st2 := by
  apply List.ext_getElem (by rw [h1.1, h2.1])
  intro i hi1 hi2
  have hiR : i < R := by rw [← h1.1]; exact hi1
  have e1 : (st1[i]).length = C := h1.2 _ (List.getElem_mem _)
  have e2 : (st2[i]).length = C := h2.2 _ (List.getElem_mem _)
  apply List.ext_getElem (by rw [e1, e2])
  intro j hj1 hj2
  have hjC : j < C := by rw [← e1]; exact hj1
  have := h i j hiR hjC
  unfold rawGet at this
  rw [List.getD_eq_getElem _ _ hi1, List.getD_eq_getElem _ _ hi2,
    List.getD_eq_getElem _ _ hj1, List.getD_eq_getElem _ _ hj2] at this
  exact this

theorem Shaped.ofFn (r c : Nat) (f : Nat → Nat → ℚ) :
    Shaped (S21Matrix.ofFn r c f).matrix_ r c := by
  constructor
  · simp [S21Matrix.ofFn]
  · intro row hrow
    simp only [S21Matrix.ofFn, List.mem_map] at hrow
    obtain ⟨i, _, rfl⟩ := hrow
    simp

theorem cell_ofFn (r c : Nat) (f : Nat → Nat → ℚ) {i j : Nat} (hi : i < r) (hj : j < c) :
    (S21Matrix.ofFn r c f).cell i j = f i j := by
  simp [S21Matrix.cell, rawGet, S21Matrix.ofFn, List.getElem?_range hi, List.getElem?_range hj]

theorem valid_ofFn {r c : Nat} (hr : 0 < r) (hc : 0 < c) (f : Nat → Nat → ℚ) :
    (S21Matrix.ofFn r c f).valid := by
  refine ⟨?_, ?_, ?_⟩
  · simp [S21Matrix.ofFn]; exact hr
  · simp [S21Matrix.ofFn]; exact hc
  · simpa [S21Matrix.ofFn] using Shaped.ofFn r c f

/-- A matrix is determined by its dimensions, the shape of its store and its
elements. -/
theorem eq_ofFn {m : S21Matrix} {r c : Nat} (hr : m.rows_ = r) (hc : m.cols_ = c)
    (hs : Shaped m.matrix_ r c) (f : Nat → Nat → ℚ)
    (h : ∀ i j, i < r → j < c → m.cell i j = f i j) : m = S21Matrix.ofFn r c f := by
  obtain ⟨mr, mc, st⟩ := m
  simp only at hr hc hs
  subst hr hc
  have : st = (S21Matrix.ofFn r c f).matrix_ := by
    apply Shaped.ext hs (Shaped.ofFn r c f)
    intro i j hi hj
    have h1 := h i j hi hj
    have h2 := cell_ofFn r c f hi hj
    simp only [S21Matrix.cell] at h1 h2
    rw [h1, h2]
  rw [this]
  rfl

theorem valid_eq_ofFn {m : S21Matrix} (h : m.valid) :
    m = S21Matrix.ofFn m.rows_.toNat m.cols_.toNat m.cell := by
  obtain ⟨h1, h2, h3⟩ := h
  exact eq_ofFn (by omega) (by omega) h3 _ (fun _ _ _ _ => rfl)

@[simp] theorem assign_rows (m : S21Matrix) (i j : Nat) (v : ℚ) :
    (m.assign i j v).rows_ = m.rows_ := rfl

@[simp] theorem assign_cols (m : S21Matrix) (i j : Nat) (v : ℚ) :
    (m.assign i j v).cols_ = m.cols_ := rfl

theorem assign_shaped {m : S21Matrix} {R C : Nat} (h : Shaped m.matrix_ R C) (i j : Nat)
    (v : ℚ) : Shaped (m.assign i j v).matrix_ R C :=
  Shaped.rawSet h i j v

theorem cell_assign {m : S21Matrix} {R C : Nat} (h : Shaped m.matrix_ R C) {i j : Nat}
    (hi : i < R) (hj : j < C) (v : ℚ) (a b : Nat) :
    (m.assign i j v).cell a b = if a = i ∧ b = j then v else m.cell a b := by
  unfold S21Matrix.cell S21Matrix.assign
  simp only
  rw [rawGet_rawSet, h.getD_length hi, h.1]
  by_cases hab : a = i ∧ b = j
  · rw [if_pos hab, if_pos ⟨hab.1, hab.2, hi, hj⟩]
  · rw [if_neg hab, if_neg (fun hh => hab ⟨hh.1, hh.2.1⟩)]

/-! ## Loops -/

section loops
variable {σ : Type}

/-- The invariant rule for `for` loops over local variables. -/
theorem loopUpTo_inv (body : Nat → σ → Outcome σ) (Inv : Nat → σ → Prop) (n : Nat) (s : σ)
    (h0 : Inv 0 s)
    (hstep : ∀ i, i < n → ∀ t, Inv i t → ∃ u, body i t = Outcome.ok u ∧ Inv (i + 1) u) :
    ∃ t, loopUpTo body n s = Outcome.ok t ∧ Inv n t := by
  induction n with
  | zero => exact ⟨s, rfl, h0⟩
  | succ k ih =>
    obtain ⟨t, ht, hInv⟩ := ih (fun i hi => hstep i (by omega))
    obtain ⟨u, hu, hInv2⟩ := hstep k (by omega) t hInv
    exact ⟨u, by simp [loopUpTo, ht, hu], hInv2⟩

/-- The invariant rule for the macro `MATRIX_DOUBLE_LOOP`. -/
theorem doubleLoop_inv (body : Nat → Nat → σ → Outcome σ) (Inv : Nat → Nat → σ → Prop)
    (R C : Nat) (s : σ) (h0 : Inv 0 0 s)
    (hrow : ∀ i, i < R → ∀ t, Inv i C t → Inv (i + 1) 0 t)
    (hstep : ∀ i j, i < R → j < C → ∀ t, Inv i j t →
      ∃ u, body i j t = Outcome.ok u ∧ Inv i (j + 1) u) :
    ∃ t, loopUpTo (fun i s1 => loopUpTo (fun j s2 => body i j s2) C s1) R s = Outcome.ok t ∧
      Inv R 0 t := by
  apply loopUpTo_inv _ (fun i t => Inv i 0 t) R s h0
  intro i hi t hInv
  obtain ⟨u, hu, hInv2⟩ := loopUpTo_inv (fun j s2 => body i j s2) (fun j t => Inv i j t) C t hInv
    (fun j hj t ht => hstep i j hi hj t ht)
  exact ⟨u, hu, hrow i hi u hInv2⟩

/-- A loop of a member function whose body only replaces `*this` runs as the
loop over the object as a local variable. -/
theorem loopUpToM_of_loopUpTo (bodyM : Nat → Unit → Method Unit)
    (bodyO : Nat → S21Matrix → Outcome S21Matrix) (n : Nat)
    (h : ∀ i, i < n → ∀ t u, bodyO i t = Outcome.ok u → bodyM i () t = ⟨u, Outcome.ok ()⟩)
    (s u : S21Matrix) (hs : loopUpTo bodyO n s = Outcome.ok u) :
    loopUpToM bodyM n () s = ⟨u, Outcome.ok ()⟩ := by
  induction n generalizing u with
  | zero =>
    simp only [loopUpTo, Outcome.ok.injEq] at hs
    subst hs
    rfl
  | succ k ih =>
    simp only [loopUpTo] at hs
    obtain ⟨t, ht, hu⟩ := Outcome.bind_eq_ok.mp hs
    have h1 := ih (fun i hi => h i (by omega)) t ht
    simp only [loopUpToM]
    rw [Method.bind_apply_ok h1]
    exact h k (by omega) t u hu

/-- The same for the macro `MATRIX_DOUBLE_LOOP` in a member function. -/
theorem doubleLoopM_of_doubleLoop (bodyM : Nat → Nat → Unit → Method Unit)
    (bodyO : Nat → Nat → S21Matrix → Outcome S21Matrix) (R C : Nat)
    (h : ∀ i j, i < R → j < C → ∀ t u, bodyO i j t = Outcome.ok u →
      bodyM i j () t = ⟨u, Outcome.ok ()⟩)
    (s u : S21Matrix)
    (hs : loopUpTo (fun i s1 => loopUpTo (fun j s2 => bodyO i j s2) C s1) R s = Outcome.ok u) :
    loopUpToM (fun i s1 => loopUpToM (fun j s2 => bodyM i j s2) C s1) R () s =
      ⟨u, Outcome.ok ()⟩ := by
  apply loopUpToM_of_loopUpTo _ (fun i s1 => loopUpTo (fun j s2 => bodyO i j s2) C s1) R _ s u hs
  intro i hi t v hv
  exact loopUpToM_of_loopUpTo _ (fun j s2 => bodyO i j s2) C (fun j hj => h i j hi hj) t v hv

end loops

/-- A double loop whose body at `(i, j)` assigns `g i j x` to the element
`(i, j)` holding `x`: what the matrix is afterwards. -/
theorem doubleLoop_pointwise {R C R0 C0 : Nat} (hR : R ≤ R0) (hC : C ≤ C0)
    (body : Nat → Nat → S21Matrix → Outcome S21Matrix) (g : Nat → Nat → ℚ → ℚ)
    (s : S21Matrix) (hs : Shaped s.matrix_ R0 C0)
    (hbody : ∀ i j, i < R → j < C → ∀ t, t.rows_ = s.rows_ → t.cols_ = s.cols_ →
      Shaped t.matrix_ R0 C0 → body i j t = Outcome.ok (t.assign i j (g i j (t.cell i j)))) :
    ∃ t, loopUpTo (fun i s1 => loopUpTo (fun j s2 => body i j s2) C s1) R s = Outcome.ok t ∧
      t.rows_ = s.rows_ ∧ t.cols_ = s.cols_ ∧ Shaped t.matrix_ R0 C0 ∧
      ∀ a b, t.cell a b = if a < R ∧ b < C then g a b (s.cell a b) else s.cell a b := by
  have key := doubleLoop_inv body
    (fun i j t => t.rows_ = s.rows_ ∧ t.cols_ = s.cols_ ∧ Shaped t.matrix_ R0 C0 ∧
      ∀ a b, t.cell a b =
        if (a < i ∧ b < C) ∨ (a = i ∧ b < j) then g a b (s.cell a b) else s.cell a b)
    R C s ?_ ?_ ?_
  · obtain ⟨t, ht, h1, h2, h3, h4⟩ := key
    refine ⟨t, ht, h1, h2, h3, ?_⟩
    intro a b
    rw [h4 a b]
    by_cases hab : a < R ∧ b < C
    · rw [if_pos hab, if_pos (Or.inl hab)]
    · rw [if_neg hab, if_neg]
      rintro (h | h)
      · exact hab h
      · omega
  · refine ⟨rfl, rfl, hs, ?_⟩
    intro a b
    rw [if_neg]
    omega
  · rintro i hi t ⟨h1, h2, h3, h4⟩
    refine ⟨h1, h2, h3, ?_⟩
    intro a b
    rw [h4 a b]
    by_cases hab : (a < i ∧ b < C) ∨ (a = i ∧ b < C)
    · rw [if_pos hab, if_pos]
      omega
    · rw [if_neg hab, if_neg]
      omega
  · rintro i j hi hj t ⟨h1, h2, h3, h4⟩
    refine ⟨_, hbody i j hi hj t h1 h2 h3, h1, h2, assign_shaped h3 _ _ _, ?_⟩
    intro a b
    rw [cell_assign h3 (by omega) (by omega)]
    by_cases hab : a = i ∧ b = j
    · obtain ⟨rfl, rfl⟩ := hab
      rw [if_pos ⟨rfl, rfl⟩, if_pos (Or.inr ⟨rfl, by omega⟩), h4 a b, if_neg]
      omega
    · rw [if_neg hab, h4 a b]
      by_cases hc : (a < i ∧ b < C) ∨ (a = i ∧ b < j)
      · rw [if_pos hc, if_pos]
        omega
      · rw [if_neg hc, if_neg]
        omega

open S21Matrix

/-! ## Construction -/

theorem checkSize_eq_true {m : S21Matrix} (hr : 0 < m.rows_) (hc : 0 < m.cols_) :
    m.checkSize = true := by
  simp [checkSize, hr, hc]

theorem createMatrix_ok (r c : Int) (hr : 0 < r) (hc : 0 < c) (st : List (List ℚ)) :
    createMatrix { rows_ := r, cols_ := c, matrix_ := st } =
      ⟨{ rows_ := r, cols_ := c,
         matrix_ := List.replicate r.toNat (List.replicate c.toNat 0) }, Outcome.ok ()⟩ := by
  have hloop := loopUpTo_inv
    (fun i (t : S21Matrix) =>
      Outcome.ok { t with matrix_ := t.matrix_.set i (allocate_ 0 t.cols_) })
    (fun k t => t.rows_ = r ∧ t.cols_ = c ∧ t.matrix_.length = r.toNat ∧
      ∀ a, a < r.toNat → t.matrix_.getD a [] =
        if a < k then List.replicate c.toNat 0 else [])
    r.toNat { rows_ := r, cols_ := c, matrix_ := allocate_ [] r } ?_ ?_
  · obtain ⟨t, ht, h1, h2, h3, h4⟩ := hloop
    have hM := loopUpToM_of_loopUpTo
      (fun i _ => do
        let cur ← getThis
        setThis { cur with matrix_ := cur.matrix_.set i (allocate_ 0 cur.cols_) })
      _ r.toNat ?_ _ t ht
    · have ht2 : t = ⟨r, c, List.replicate r.toNat (List.replicate c.toNat 0)⟩ := by
        obtain ⟨tr, tc, tst⟩ := t
        simp only at h1 h2 h3 h4
        subst h1 h2
        congr 1
        apply List.ext_getElem (by simp [h3])
        intro a ha1 ha2
        have := h4 a (by omega)
        rw [List.getD_eq_getElem _ _ ha1, if_pos (by omega)] at this
        simp [this]
      subst ht2
      simp only [createMatrix, Method_bind_def, getThis_bind, ChecksErrorBasic, checkSize,
        hr, hc, decide_True, Bool.and_self, Bool.not_true, Bool.false_eq_true, if_false,
        lift_ok_bind, setThis_bind, forLoopM]
      exact hM
    · intro i _ t u hu
      simp only [Outcome.ok.injEq] at hu
      subst hu
      rfl
  · refine ⟨rfl, rfl, by simp [allocate_], ?_⟩
    intro a ha
    simp [allocate_, ha]
  · rintro i hi t ⟨h1, h2, h3, h4⟩
    refine ⟨_, rfl, h1, h2, by simp [h3], ?_⟩
    intro a ha
    simp only
    rw [getD_getD_set, h4 a ha, h2]
    by_cases hai : a = i
    · subst hai
      simp [h3, ha, allocate_]
    · have h5 : ¬ (a = i ∧ i < t.matrix_.length) := fun hh => hai hh.1
      rw [if_neg h5]
      by_cases h6 : a < i
      · rw [if_pos h6, if_pos (by omega)]
      · rw [if_neg h6, if_neg (by omega)]

theorem createMatrix_thrown (m : S21Matrix) (h : ¬ (0 < m.rows_ ∧ 0 < m.cols_)) :
    createMatrix m = ⟨m, Outcome.thrown (Exception.invalid_argument Code.CODE_INCORRECT_SIZE)⟩ := by
  have hc : m.checkSize = false := by
    simp only [checkSize, Bool.and_eq_false_imp, decide_eq_true_eq, decide_eq_false_iff_not]
    intro h1 h2
    exact h ⟨h1, h2⟩
  simp [createMatrix, ChecksErrorBasic, hc, errors_, Code.toInt, INV_ARG]

theorem shaped_replicate (R C : Nat) (v : ℚ) :
    Shaped (List.replicate R (List.replicate C v)) R C := by
  constructor
  · simp
  · intro row hrow
    rw [List.mem_replicate] at hrow
    simp [hrow.2]

/-- A double loop of a member function whose body at `(i, j)` assigns to the
element `(i, j)` of `*this`: what the object is afterwards. -/
theorem doubleLoopM_pointwise {R C : Nat} (bodyM : Nat → Nat → Unit → Method Unit)
    (g : Nat → Nat → ℚ → ℚ) (s : S21Matrix) (hs : Shaped s.matrix_ R C)
    (hbody : ∀ i j, i < R → j < C → ∀ t, t.rows_ = s.rows_ → t.cols_ = s.cols_ →
      Shaped t.matrix_ R C →
      bodyM i j () t = ⟨t.assign i j (g i j (t.cell i j)), Outcome.ok ()⟩) :
    loopUpToM (fun i s1 => loopUpToM (fun j s2 => bodyM i j s2) C s1) R () s =
      ⟨{ rows_ := s.rows_, cols_ := s.cols_,
         matrix_ := (ofFn R C (fun i j => g i j (s.cell i j))).matrix_ }, Outcome.ok ()⟩ := by
  obtain ⟨t, ht, h1, h2, h3, h4⟩ := doubleLoop_pointwise (le_refl R) (le_refl C)
    (fun i j t => if t.rows_ = s.rows_ ∧ t.cols_ = s.cols_ ∧ Shaped t.matrix_ R C then
      Outcome.ok (t.assign i j (g i j (t.cell i j))) else Outcome.outOfFuel) g s hs
    (by
      intro i j _ _ t e1 e2 e3
      exact if_pos ⟨e1, e2, e3⟩)
  have hM := doubleLoopM_of_doubleLoop bodyM _ R C ?_ s t ht
  · rw [hM]
    congr 1
    obtain ⟨tr, tc, tst⟩ := t
    simp only at h1 h2 h3 h4
    subst h1 h2
    congr 1
    apply Shaped.ext h3 (Shaped.ofFn R C _)
    intro i j hi hj
    have h5 := h4 i j
    rw [if_pos ⟨hi, hj⟩] at h5
    have h6 := cell_ofFn R C (fun i j => g i j (s.cell i j)) hi hj
    simp only [S21Matrix.cell] at h5 h6
    rw [h5]
    exact h6.symm
  · intro i j hi hj t u hu
    simp only at hu
    by_cases hc : t.rows_ = s.rows_ ∧ t.cols_ = s.cols_ ∧ Shaped t.matrix_ R C
    · rw [if_pos hc] at hu
      simp only [Outcome.ok.injEq] at hu
      subst hu
      exact hbody i j hi hj t hc.1 hc.2.1 hc.2.2
    · rw [if_neg hc] at hu
      cases hu

theorem initMatrixZero_ok (m : S21Matrix) (hs : Shaped m.matrix_ m.rows_.toNat m.cols_.toNat) :
    initMatrixZero m =
      ⟨{ rows_ := m.rows_, cols_ := m.cols_,
         matrix_ := (ofFn m.rows_.toNat m.cols_.toNat (fun _ _ => 0)).matrix_ },
        Outcome.ok ()⟩ := by
  simp only [initMatrixZero, Method_bind_def, getThis_bind, MATRIX_DOUBLE_LOOP_M, forLoopM]
  exact doubleLoopM_pointwise _ (fun _ _ _ => 0) m hs (fun i j _ _ t _ _ _ => rfl)

theorem creater_ok {r c : Int} (hr : 0 < r) (hc : 0 < c) (st : List (List ℚ)) :
    creater_ { rows_ := r, cols_ := c, matrix_ := st } =
      ⟨ofFn r.toNat c.toNat (fun _ _ => 0), Outcome.ok ()⟩ := by
  have h1 := createMatrix_ok r c hr hc st
  have h2 := initMatrixZero_ok
    { rows_ := r, cols_ := c, matrix_ := List.replicate r.toNat (List.replicate c.toNat 0) }
    (shaped_replicate _ _ 0)
  simp only [creater_, Method_bind_def]
  rw [Method.bind_apply_ok h1, h2]
  simp only [ofFn, Int.toNat_of_nonneg (le_of_lt hr), Int.toNat_of_nonneg (le_of_lt hc)]

/-- The sized constructor on positive dimensions builds the zero matrix. -/
theorem ctor_ok {r c : Int} (hr : 0 < r) (hc : 0 < c) :
    ctor r c = Outcome.ok (ofFn r.toNat c.toNat (fun _ _ => 0)) := by
  simp only [ctor, S21Matrix.run, creater_ok hr hc]

theorem ctor_thrown {r c : Int} (h : ¬ (0 < r ∧ 0 < c)) :
    ctor r c = Outcome.thrown (Exception.invalid_argument Code.CODE_INCORRECT_SIZE) := by
  have h1 := createMatrix_thrown { rows_ := r, cols_ := c, matrix_ := [] } h
  simp only [ctor, S21Matrix.run, creater_, Method_bind_def]
  rw [Method.bind_apply_thrown h1]

/-! ## Element access, copies, transposition, scaling -/

theorem checkIndex_nat {m : S21Matrix} {i j : Nat} (hi : (i : Int) < m.rows_)
    (hj : (j : Int) < m.cols_) : m.checkIndex i j = true := by
  simp [checkIndex, hi, hj]

theorem operator_call_const_ok {m : S21Matrix} {i j : Nat} (hi : (i : Int) < m.rows_)
    (hj : (j : Int) < m.cols_) : m.operator_call_const i j = Outcome.ok (m.cell i j) := by
  simp [operator_call_const, checkIndex_nat hi hj]

theorem operator_call_ok {m : S21Matrix} {i j : Nat} (hi : (i : Int) < m.rows_)
    (hj : (j : Int) < m.cols_) : m.operator_call i j = Outcome.ok (i, j) := by
  simp [operator_call, checkIndex_nat hi hj]

theorem valid_rows_toNat {m : S21Matrix} (h : m.valid) : (m.rows_.toNat : Int) = m.rows_ :=
  Int.toNat_of_nonneg (le_of_lt h.1)

theorem valid_cols_toNat {m : S21Matrix} (h : m.valid) : (m.cols_.toNat : Int) = m.cols_ :=
  Int.toNat_of_nonneg (le_of_lt h.2.1)

@[simp] theorem ofFn_rows_toNat (r c : Nat) (f : Nat → Nat → ℚ) :
    (ofFn r c f).rows_.toNat = r := by
  simp [ofFn]

@[simp] theorem ofFn_cols_toNat (r c : Nat) (f : Nat → Nat → ℚ) :
    (ofFn r c f).cols_.toNat = c := by
  simp [ofFn]

@[simp] theorem ofFn_rows (r c : Nat) (f : Nat → Nat → ℚ) : (ofFn r c f).rows_ = r := rfl

@[simp] theorem ofFn_cols (r c : Nat) (f : Nat → Nat → ℚ) : (ofFn r c f).cols_ = c := rfl

theorem ofFn_congr {r c : Nat} {f g : Nat → Nat → ℚ}
    (h : ∀ i j, i < r → j < c → f i j = g i j) : ofFn r c f = ofFn r c g := by
  apply eq_ofFn rfl rfl (Shaped.ofFn r c f)
  intro i j hi hj
  rw [cell_ofFn r c f hi hj, h i j hi hj]

/-- The copy constructor applied to a valid matrix yields that matrix. -/
theorem ctor_copy_ok {m : S21Matrix} (h : m.valid) : ctor_copy m = Outcome.ok m := by
  obtain ⟨hr, hc, hs⟩ := h
  have h1 := creater_ok hr hc []
  have h3 := doubleLoopM_pointwise (R := m.rows_.toNat) (C := m.cols_.toNat)
    (fun i j _ => do
      let cur ← getThis
      let v ← (m.operator_call_const i j).lift
      setThis (cur.assign i j v))
    (fun i j _ => m.cell i j)
    (ofFn m.rows_.toNat m.cols_.toNat (fun _ _ => 0))
    (Shaped.ofFn _ _ _)
    (by
      intro i j hi hj t _ _ _
      have e := operator_call_const_ok (m := m) (i := i) (j := j) (by omega) (by omega)
      simp [e])
  have h4 := valid_eq_ofFn (m := m) ⟨hr, hc, hs⟩
  simp only [ctor_copy, S21Matrix.run, Method_bind_def]
  rw [Method.bind_apply_ok h1]
  simp only [copyMatrix, MATRIX_DOUBLE_LOOP_M, forLoopM, Method_bind_def] at h3 ⊢
  rw [h3]
  simp only [Outcome.ok.injEq]
  exact h4.symm

/-- Multiplication by a number scales every element. -/
theorem MulNumber_ok {m : S21Matrix} (h : m.valid) (num : ℚ) :
    MulNumber num m =
      ⟨ofFn m.rows_.toNat m.cols_.toNat (fun i j => m.cell i j * num), Outcome.ok ()⟩ := by
  obtain ⟨hr, hc, hs⟩ := h
  have h3 := doubleLoopM_pointwise (R := m.rows_.toNat) (C := m.cols_.toNat)
    (fun i j _ => do
      let cur ← getThis
      setThis (cur.assign i j (cur.cell i j * num)))
    (fun _ _ x => x * num) m hs (fun i j _ _ t _ _ _ => rfl)
  simp only [MulNumber, Method_bind_def, getThis_bind, MATRIX_DOUBLE_LOOP_M, forLoopM] at h3 ⊢
  rw [h3]
  simp [ofFn, Int.toNat_of_nonneg (le_of_lt hr), Int.toNat_of_nonneg (le_of_lt hc)]

/-- The transposition of a valid `r x c` matrix is the `c x r` matrix whose
element `(j, i)` is the element `(i, j)` of the matrix. -/
theorem Transpose_ok {m : S21Matrix} (h : m.valid) :
    m.Transpose = Outcome.ok (ofFn m.cols_.toNat m.rows_.toNat (fun j i => m.cell i j)) := by
  obtain ⟨hr, hc, hs⟩ := h
  simp only [Transpose, Outcome_bind_def, ctor_ok hc hr, Outcome.ok_bind, MATRIX_DOUBLE_LOOP,
    forLoop]
  obtain ⟨t, ht, h1, h2, h3, h4⟩ := doubleLoop_inv
    (fun i j (resultMatrix : S21Matrix) =>
      (pure (resultMatrix.assign j i (m.cell i j)) : Outcome S21Matrix))
    (fun i j t => t.rows_ = m.cols_.toNat ∧ t.cols_ = m.rows_.toNat ∧
      Shaped t.matrix_ m.cols_.toNat m.rows_.toNat ∧
      ∀ a b, t.cell a b =
        if (b < i ∧ a < m.cols_.toNat) ∨ (b = i ∧ a < j) then m.cell b a else 0)
    m.rows_.toNat m.cols_.toNat (ofFn m.cols_.toNat m.rows_.toNat (fun _ _ => 0))
    (by
      refine ⟨rfl, rfl, Shaped.ofFn _ _ _, ?_⟩
      intro a b
      rw [if_neg (by omega)]
      by_cases hab : a < m.cols_.toNat ∧ b < m.rows_.toNat
      · exact cell_ofFn _ _ _ hab.1 hab.2
      · simp only [S21Matrix.cell, rawGet, ofFn, List.getD_eq_getElem?_getD, List.getElem?_map]
        by_cases ha : a < m.cols_.toNat
        · have hb : ¬ b < m.rows_.toNat := fun hb => hab ⟨ha, hb⟩
          simp [List.getElem?_range ha, List.getElem?_eq_none (l := List.range m.rows_.toNat)
            (n := b) (by simp; omega)]
        · simp [List.getElem?_eq_none (l := List.range m.cols_.toNat) (n := a) (by simp; omega)])
    (by
      rintro i hi t ⟨h1, h2, h3, h4⟩
      refine ⟨h1, h2, h3, ?_⟩
      intro a b
      rw [h4 a b]
      by_cases hab : (b < i ∧ a < m.cols_.toNat) ∨ (b = i ∧ a < m.cols_.toNat)
      · rw [if_pos hab, if_pos (by omega)]
      · rw [if_neg hab, if_neg (by omega)])
    (by
      rintro i j hi hj t ⟨h1, h2, h3, h4⟩
      refine ⟨_, rfl, h1, h2, assign_shaped h3 _ _ _, ?_⟩
      intro a b
      rw [cell_assign h3 hj hi]
      by_cases hab : a = j ∧ b = i
      · obtain ⟨rfl, rfl⟩ := hab
        rw [if_pos ⟨rfl, rfl⟩, if_pos (Or.inr ⟨rfl, by omega⟩)]
      · rw [if_neg hab, h4 a b]
        by_cases hc2 : (b < i ∧ a < m.cols_.toNat) ∨ (b = i ∧ a < j)
        · rw [if_pos hc2, if_pos (by omega)]
        · rw [if_neg hc2, if_neg (by omega)])
  rw [ht]
  simp only [Outcome.ok.injEq]
  apply eq_ofFn h1 h2 h3
  intro a b ha hb
  rw [h4 a b, if_pos (Or.inl ⟨hb, ha⟩)]

/-! ## Minors -/

/-- The invariant rule for a loop followed by the rest of the function. -/
theorem loopUpTo_bind_inv {σ β : Type} (Inv : Nat → σ → Prop) (Q : Outcome β → Prop)
    (body : Nat → σ → Outcome σ) (n : Nat) (s : σ) (k : σ → Outcome β) (h0 : Inv 0 s)
    (hstep : ∀ i, i < n → ∀ t, Inv i t → ∃ u, body i t = Outcome.ok u ∧ Inv (i + 1) u)
    (hk : ∀ u, Inv n u → Q (k u)) : Q ((loopUpTo body n s).bind k) := by
  obtain ⟨u, hu, hInv⟩ := loopUpTo_inv body Inv n s h0 hstep
  rw [hu]
  exact hk u hInv

theorem skipIndex_lt {p a n : Nat} (ha : a + 1 < n) : skipIndex p a < n := by
  unfold skipIndex
  split <;> omega

/-- Removing row `p` and column `q` from a valid matrix with at least two rows
and two columns. -/
theorem getMatrixMinor_ok {m : S21Matrix} (h : m.valid) (hr : 2 ≤ m.rows_) (hc : 2 ≤ m.cols_)
    {p q : Nat} (hp : (p : Int) < m.rows_) (hq : (q : Int) < m.cols_) :
    m.getMatrixMinor p q =
      Outcome.ok (ofFn (m.rows_.toNat - 1) (m.cols_.toNat - 1)
        (fun a b => m.cell (skipIndex p a) (skipIndex q b))) := by
  obtain ⟨_, _, hs⟩ := h
  have e1 : (m.rows_ - 1).toNat = m.rows_.toNat - 1 := by omega
  have e2 : (m.cols_ - 1).toNat = m.cols_.toNat - 1 := by omega
  simp only [getMatrixMinor, Outcome_bind_def, ctor_ok (r := m.rows_ - 1) (c := m.cols_ - 1)
    (by omega) (by omega), Outcome.ok_bind, forLoop, e1, e2]
  generalize hR : m.rows_.toNat = R at *
  generalize hC : m.cols_.toNat = C at *
  have hRr : m.rows_ = R := by omega
  have hCc : m.cols_ = C := by omega
  have hpR : p < R := by omega
  have hqC : q < C := by omega
  refine loopUpTo_bind_inv
    (fun i (st : S21Matrix × Int × Int) =>
      st.1.rows_ = ((R - 1 : Nat) : Int) ∧ st.1.cols_ = ((C - 1 : Nat) : Int) ∧
      Shaped st.1.matrix_ (R - 1) (C - 1) ∧
      st.2.1 = (((if i ≤ p then i else i - 1) : Nat) : Int) ∧
      ∀ a b, a < (if i ≤ p then i else i - 1) → b < C - 1 →
        st.1.cell a b = m.cell (skipIndex p a) (skipIndex q b))
    (fun o => o = Outcome.ok (ofFn (R - 1) (C - 1)
        (fun a b => m.cell (skipIndex p a) (skipIndex q b)))) _ R _ _ ?_ ?_ ?_
  · refine ⟨rfl, rfl, Shaped.ofFn _ _ _, by simp, ?_⟩
    intro a b ha
    simp at ha
  · rintro i hi ⟨t, rr, rc⟩ ⟨h1, h2, h3, h4, h5⟩
    simp only at h1 h2 h3 h4 h5
    by_cases hip : i = p
    · subst hip
      refine ⟨(t, rr, rc), by simp, h1, h2, h3, ?_, ?_⟩
      · simp only [h4]
        rw [if_pos (le_refl i), if_neg (by omega)]
        simp
      · intro a b ha hb
        rw [if_neg (by omega)] at ha
        exact h5 a b (by rw [if_pos (le_refl i)]; omega) hb
    · have hcast : ¬ ((i : Int) = (p : Int)) := by omega
      simp only [hcast, if_false]
      generalize hρ : (if i ≤ p then i else i - 1) = ρ at h4 h5
      have hρR : ρ < R - 1 := by
        rw [← hρ]
        split <;> omega
      have hskip : skipIndex p ρ = i := by
        rw [← hρ]
        unfold skipIndex
        split <;> split <;> omega
      refine loopUpTo_bind_inv
        (fun j (st : S21Matrix × Int) =>
          st.1.rows_ = ((R - 1 : Nat) : Int) ∧ st.1.cols_ = ((C - 1 : Nat) : Int) ∧
          Shaped st.1.matrix_ (R - 1) (C - 1) ∧
          st.2 = (((if j ≤ q then j else j - 1) : Nat) : Int) ∧
          ∀ a b, (a < ρ ∧ b < C - 1) ∨ (a = ρ ∧ b < (if j ≤ q then j else j - 1)) →
            st.1.cell a b = m.cell (skipIndex p a) (skipIndex q b))
        (fun o => ∃ u : S21Matrix × Int × Int, o = Outcome.ok u ∧
          u.1.rows_ = ((R - 1 : Nat) : Int) ∧ u.1.cols_ = ((C - 1 : Nat) : Int) ∧
          Shaped u.1.matrix_ (R - 1) (C - 1) ∧
          u.2.1 = (((if i + 1 ≤ p then i + 1 else i + 1 - 1) : Nat) : Int) ∧
          ∀ a b, a < (if i + 1 ≤ p then i + 1 else i + 1 - 1) → b < C - 1 →
            u.1.cell a b = m.cell (skipIndex p a) (skipIndex q b)) _ C _ _ ?_ ?_ ?_
      · refine ⟨h1, h2, h3, by simp, ?_⟩
        rintro a b (hab | hab)
        · exact h5 a b hab.1 hab.2
        · simp at hab
      · rintro j hj ⟨t2, rc2⟩ ⟨g1, g2, g3, g4, g5⟩
        simp only at g1 g2 g3 g4 g5
        by_cases hjq : j = q
        · subst hjq
          refine ⟨(t2, rc2), by simp, g1, g2, g3, ?_, ?_⟩
          · simp only [g4]
            rw [if_pos (le_refl j), if_neg (by omega)]
            simp
          · intro a b hab
            apply g5 a b
            rw [if_neg (by omega)] at hab
            rw [if_pos (le_refl j)]
            omega
        · have hcast2 : ¬ ((j : Int) = (q : Int)) := by omega
          simp only [hcast2, if_false]
          generalize hγ : (if j ≤ q then j else j - 1) = γ at g4 g5
          have hγC : γ < C - 1 := by
            rw [← hγ]
            split <;> omega
          have hskip2 : skipIndex q γ = j := by
            rw [← hγ]
            unfold skipIndex
            split <;> split <;> omega
          have hcall : t2.operator_call rr rc2 = Outcome.ok (ρ, γ) := by
            rw [h4, g4]
            exact operator_call_ok (by rw [g1]; omega) (by rw [g2]; omega)
          simp only [hcall, Outcome.ok_bind, Outcome_pure_def]
          refine ⟨_, rfl, g1, g2, assign_shaped g3 _ _ _, ?_, ?_⟩
          · simp only [g4]
            have : (if j + 1 ≤ q then j + 1 else j + 1 - 1) = γ + 1 := by
              rw [← hγ]
              split <;> split <;> omega
            rw [this]
            simp
          · intro a b hab
            simp only
            rw [cell_assign g3 hρR hγC]
            by_cases hab2 : a = ρ ∧ b = γ
            · obtain ⟨rfl, rfl⟩ := hab2
              rw [if_pos ⟨rfl, rfl⟩, hskip, hskip2]
            · rw [if_neg hab2]
              apply g5 a b
              have : (if j + 1 ≤ q then j + 1 else j + 1 - 1) = γ + 1 := by
                rw [← hγ]
                split <;> split <;> omega
              rw [this] at hab
              omega
      · rintro ⟨t2, rc2⟩ ⟨g1, g2, g3, g4, g5⟩
        simp only at g1 g2 g3 g4 g5
        refine ⟨_, rfl, g1, g2, g3, ?_, ?_⟩
        · simp only [h4]
          have : (if i + 1 ≤ p then i + 1 else i + 1 - 1) = ρ + 1 := by
            rw [← hρ]
            split <;> split <;> omega
          rw [this]
          simp
        · intro a b ha hb
          apply g5 a b
          have e3 : (if i + 1 ≤ p then i + 1 else i + 1 - 1) = ρ + 1 := by
            rw [← hρ]
            split <;> split <;> omega
          rw [e3] at ha
          rw [if_neg (by omega)]
          omega
  · rintro ⟨t, rr, rc⟩ ⟨h1, h2, h3, _, h5⟩
    simp only at h1 h2 h3 h5
    simp only [Outcome_pure_def, Outcome.ok.injEq]
    apply eq_ofFn h1 h2 h3
    intro a b ha hb
    exact h5 a b (by rw [if_neg (by omega)]; omega) hb

/-! ## The determinant -/

theorem succAbove_val {n : Nat} (p : Fin (n + 1)) (a : Fin n) :
    (p.succAbove a).val = skipIndex p.val a.val := by
  unfold skipIndex
  by_cases h : a.val < p.val
  · rw [if_pos h, Fin.succAbove_of_castSucc_lt p a (by simpa [Fin.lt_def] using h)]
    rfl
  · rw [if_neg h, Fin.succAbove_of_le_castSucc p a (by simpa [Fin.le_def] using not_lt.mp h)]
    rfl

/-- The minor of the program is the submatrix of linear algebra. -/
theorem toMatrix_minor {n : Nat} (m : S21Matrix) (p q : Fin (n + 1)) :
    toMatrix n (ofFn n n (fun a b => m.cell (skipIndex p.val a) (skipIndex q.val b))) =
      (toMatrix (n + 1) m).submatrix p.succAbove q.succAbove := by
  ext a b
  simp only [toMatrix, Matrix.of_apply, Matrix.submatrix_apply, succAbove_val]
  exact cell_ofFn n n _ a.isLt b.isLt

theorem ChecksErrorBasic_square {m : S21Matrix} (h : m.rows_ = m.cols_) :
    ChecksErrorBasic Code.CODE_NO_SQUERE m none = Outcome.ok () := by
  simp [ChecksErrorBasic, getCols_, getRows_, h]

theorem ChecksErrorBasic_not_square {m : S21Matrix} (h : m.rows_ ≠ m.cols_) :
    ChecksErrorBasic Code.CODE_NO_SQUERE m none =
      Outcome.thrown (Exception.logic_error Code.CODE_NO_SQUERE) := by
  have h2 : ¬ (m.cols_ = m.rows_) := fun e => h e.symm
  simp [ChecksErrorBasic, getCols_, getRows_, h2, errors_, Code.toInt, LOG_ERR]

/-- The loop of `Determinant`: the alternating sum it accumulates. -/
theorem Determinant_loop (body : Nat → ℚ × Int → Outcome (ℚ × Int)) (x D : Nat → ℚ) (n : Nat)
    (hbody : ∀ i, i < n → ∀ st : ℚ × Int,
      body i st = Outcome.ok (st.1 + st.2 * x i * D i, -st.2)) :
    loopUpTo body n (0, 1) =
      Outcome.ok (∑ i ∈ Finset.range n, (-1 : ℚ) ^ i * x i * D i, (-1 : Int) ^ n) := by
  induction n with
  | zero => simp [loopUpTo]
  | succ k ih =>
    simp only [loopUpTo]
    rw [ih (fun i hi => hbody i (by omega)), Outcome.ok_bind, hbody k (by omega)]
    simp only [Outcome.ok.injEq, Prod.mk.injEq]
    constructor
    · rw [Finset.sum_range_succ]
      push_cast
      ring
    · ring

/-- The expansion of the determinant along row 0 in terms of the minors of the
program. -/
theorem det_toMatrix_expand (m : S21Matrix) (k : Nat) :
    Matrix.det (toMatrix (k + 2) m) =
      ∑ j ∈ Finset.range (k + 2), (-1 : ℚ) ^ j * m.cell 0 j * Matrix.det (toMatrix (k + 1)
        (ofFn (k + 1) (k + 1) (fun a b => m.cell (skipIndex 0 a) (skipIndex j b)))) := by
  rw [Matrix.det_succ_row _ (0 : Fin (k + 2)), ← Fin.sum_univ_eq_sum_range
    (fun i => (-1 : ℚ) ^ i * m.cell 0 i * Matrix.det (toMatrix (k + 1)
      (ofFn (k + 1) (k + 1) (fun a b => m.cell (skipIndex 0 a) (skipIndex i b)))))]
  apply Finset.sum_congr rfl
  intro j _
  have := toMatrix_minor (n := k + 1) m 0 j
  simp only [Fin.val_zero] at this
  rw [this]
  simp [toMatrix]

/-- With enough fuel `Determinant` computes the determinant of linear
algebra. -/
theorem DeterminantFuel_eq_det (n : Nat) : ∀ (m : S21Matrix), m.valid → m.rows_ = (n + 1 : Nat) →
    m.cols_ = (n + 1 : Nat) → ∀ fuel, n + 1 ≤ fuel →
    DeterminantFuel fuel m = Outcome.ok (Matrix.det (toMatrix (n + 1) m)) := by
  induction n with
  | zero =>
    intro m _ hr hc fuel hf
    obtain ⟨f, rfl⟩ : ∃ f, fuel = f + 1 := ⟨fuel - 1, by omega⟩
    have hsq : m.rows_ = m.cols_ := by rw [hr, hc]
    have h1 : m.rows_ = 1 := by simpa using hr
    simp only [DeterminantFuel, Outcome_bind_def, ChecksErrorBasic_square hsq, Outcome.ok_bind,
      h1, ne_eq, not_true_eq_false, if_false, Outcome_pure_def, Outcome.ok.injEq]
    rw [Matrix.det_fin_one]
    rfl
  | succ k ih =>
    intro m hv hr hc fuel hf
    obtain ⟨f, rfl⟩ : ∃ f, fuel = f + 1 := ⟨fuel - 1, by omega⟩
    have hsq : m.rows_ = m.cols_ := by rw [hr, hc]
    have h1 : ¬ (m.rows_ = 1) := by omega
    have hcn : m.cols_.toNat = k + 2 := by omega
    have hrn : m.rows_.toNat = k + 2 := by omega
    have hloop := Determinant_loop
      (fun i (st : ℚ × Int) =>
        (m.getMatrixMinor 0 i).bind fun minor =>
          (DeterminantFuel f minor).bind fun d =>
            Outcome.ok (st.1 + st.2 * m.cell 0 i * d, -st.2))
      (fun i => m.cell 0 i)
      (fun i => Matrix.det (toMatrix (k + 1)
        (ofFn (k + 1) (k + 1) (fun a b => m.cell (skipIndex 0 a) (skipIndex i b)))))
      (k + 2)
      (by
        intro i hi st
        have hm := getMatrixMinor_ok hv (by omega) (by omega) (p := 0) (q := i)
          (by omega) (by omega)
        rw [hrn, hcn] at hm
        simp only [Nat.add_one_sub_one] at hm
        simp only [Nat.cast_zero] at hm
        simp only []
        rw [hm, Outcome.ok_bind]
        rw [ih _ (valid_ofFn (by omega) (by omega) _) (by simp [ofFn]) (by simp [ofFn]) f
          (by omega)]
        rfl)
    simp only [DeterminantFuel, Outcome_bind_def, ChecksErrorBasic_square hsq, Outcome.ok_bind,
      h1, ne_eq, not_false_eq_true, if_true, ctor_copy_ok hv, forLoop, hcn, Outcome_pure_def]
    simp only at hloop
    rw [hloop, Outcome.ok_bind]
    simp only [Outcome.ok.injEq]
    exact (det_toMatrix_expand m k).symm

theorem Determinant_eq_det {m : S21Matrix} (hv : m.valid) {n : Nat} (hr : m.rows_ = (n + 1 : Nat))
    (hc : m.cols_ = (n + 1 : Nat)) :
    m.Determinant = Outcome.ok (Matrix.det (toMatrix (n + 1) m)) := by
  unfold Determinant
  exact DeterminantFuel_eq_det n m hv hr hc _ (by omega)

theorem Determinant_not_square {m : S21Matrix} (hv : m.valid) (h : m.rows_ ≠ m.cols_) :
    m.Determinant = Outcome.thrown (Exception.logic_error Code.CODE_NO_SQUERE) := by
  unfold Determinant
  obtain ⟨f, hf⟩ : ∃ f, m.rows_.toNat = f + 1 := ⟨m.rows_.toNat - 1, by have := hv.1; omega⟩
  rw [hf]
  simp [DeterminantFuel, ChecksErrorBasic_not_square h]

/-- Two matrices with the same dimensions, stores of the same shape and the
same elements are the same. -/
theorem eq_of_cells {m1 m2 : S21Matrix} {R C : Nat} (hr : m1.rows_ = m2.rows_)
    (hc : m1.cols_ = m2.cols_) (h1 : Shaped m1.matrix_ R C) (h2 : Shaped m2.matrix_ R C)
    (h : ∀ i j, i < R → j < C → m1.cell i j = m2.cell i j) : m1 = m2 := by
  obtain ⟨r1, c1, st1⟩ := m1
  obtain ⟨r2, c2, st2⟩ := m2
  simp only at hr hc h1 h2
  subst hr hc
  congr 1
  exact Shaped.ext h1 h2 h

theorem operator_assign_move_self (other this : S21Matrix) :
    (operator_assign_move other this).self = other ∧
      ∃ o, (operator_assign_move other this).result = Outcome.ok o := by
  by_cases h : this.matrix_ = []
  · simp [operator_assign_move, help_move_and_copy, deleteMatrix, zeroing, h, Method.bind,
      getThis, setThis]
  · simp [operator_assign_move, help_move_and_copy, deleteMatrix, zeroing, h, Method.bind,
      getThis, setThis]

theorem call_operator_assign_move (other this : S21Matrix) :
    ∃ o, this.call (operator_assign_move other) = Outcome.ok (other, o) := by
  obtain ⟨h1, o, h2⟩ := operator_assign_move_self other this
  refine ⟨o, ?_⟩
  unfold S21Matrix.call
  generalize operator_assign_move other this = e at h1 h2
  obtain ⟨s, r⟩ := e
  simp only at h1 h2
  subst h1 h2
  rfl

/-- The matrix of algebraic complements of a valid square matrix with at
least two rows. -/
theorem CalcComplements_ok {m : S21Matrix} (hv : m.valid) {n : Nat}
    (hr : m.rows_ = (n + 2 : Nat)) (hc : m.cols_ = (n + 2 : Nat)) :
    m.CalcComplements = Outcome.ok (ofFn (n + 2) (n + 2) (fun i j =>
      (-1 : ℚ) ^ (i + j) * Matrix.det (toMatrix (n + 1)
        (ofFn (n + 1) (n + 1) (fun a b => m.cell (skipIndex i a) (skipIndex j b)))))) := by
  have hsq : m.rows_ = m.cols_ := by rw [hr, hc]
  have hrn : m.rows_.toNat = n + 2 := by omega
  have hcn : m.cols_.toNat = n + 2 := by omega
  have h2 : ¬ (m.cols_ < 2) := by omega
  have hchk : ChecksError Code.CODE_CALC_COMPLEMENT m none = Outcome.ok () := by
    simp [ChecksError, ChecksErrorBasic, getCols_, h2]
  have hchk2 : ChecksError Code.CODE_NO_SQUERE m none = Outcome.ok () := by
    simp only [ChecksError]
    exact ChecksErrorBasic_square hsq
  obtain ⟨t, ht, h3, h4, h5, h6⟩ := doubleLoop_pointwise (le_refl (n + 2)) (le_refl (n + 2))
    (fun i j (resultMatrix : S21Matrix) =>
      (m.getMatrixMinor i j).bind fun minor =>
        minor.Determinant.bind fun determinant =>
          Outcome.ok (resultMatrix.assign i j ((-1 : ℚ) ^ (i + j) * determinant)))
    (fun i j _ => (-1 : ℚ) ^ (i + j) * Matrix.det (toMatrix (n + 1)
        (ofFn (n + 1) (n + 1) (fun a b => m.cell (skipIndex i a) (skipIndex j b)))))
    (ofFn (n + 2) (n + 2) (fun _ _ => 0)) (Shaped.ofFn _ _ _)
    (by
      intro i j hi hj t _ _ _
      have hm := getMatrixMinor_ok hv (by omega) (by omega) (p := i) (q := j)
        (by omega) (by omega)
      rw [hrn, hcn] at hm
      simp only [Nat.add_one_sub_one] at hm
      simp only []
      rw [hm, Outcome.ok_bind, Determinant_eq_det (valid_ofFn (by omega) (by omega) _)
        (n := n) (by simp [ofFn]) (by simp [ofFn])]
      rfl)
  simp only [CalcComplements, Outcome_bind_def, hchk, hchk2, Outcome.ok_bind,
    ctor_ok (r := m.cols_) (c := m.rows_) (by omega) (by omega), MATRIX_DOUBLE_LOOP, forLoop,
    hrn, hcn, Outcome_pure_def]
  rw [ht]
  simp only [Outcome.ok.injEq]
  apply eq_ofFn (by rw [h3]; rfl) (by rw [h4]; rfl) h5
  intro i j hi hj
  rw [h6 i j, if_pos ⟨hi, hj⟩]

theorem CalcComplements_not_square {m : S21Matrix} (h : m.rows_ ≠ m.cols_) :
    m.CalcComplements = Outcome.thrown (Exception.logic_error Code.CODE_NO_SQUERE) := by
  simp [CalcComplements, ChecksError, ChecksErrorBasic_not_square h]

theorem CalcComplements_too_small {m : S21Matrix} (hr : m.rows_ = 1) (hc : m.cols_ = 1) :
    m.CalcComplements = Outcome.thrown (Exception.logic_error Code.CODE_CALC_COMPLEMENT) := by
  have hsq : m.rows_ = m.cols_ := by rw [hr, hc]
  simp [CalcComplements, ChecksError, ChecksErrorBasic_square hsq]
  simp [ChecksErrorBasic, getCols_, hc, errors_, Code.toInt, LOG_ERR]

/-! ## The inverse -/

theorem ChecksError_zero_determinant {m : S21Matrix} {d : ℚ}
    (hd : m.Determinant = Outcome.ok d) :
    ChecksError Code.CODE_ZERO_DETERMINANT m none =
      if |d| < 1 / 10000000 then Outcome.thrown (Exception.logic_error Code.CODE_ZERO_DETERMINANT)
      else Outcome.ok () := by
  simp only [ChecksError, Outcome_bind_def, hd, Outcome.ok_bind, errors_, Code.toInt, LOG_ERR,
    Outcome_pure_def]
  split <;> simp

theorem toMatrix_fromMatrix {n : Nat} (A : Matrix (Fin n) (Fin n) ℚ) :
    toMatrix n (fromMatrix A) = A := by
  ext i j
  simp only [toMatrix, fromMatrix, Matrix.of_apply]
  rw [cell_ofFn n n _ i.isLt j.isLt, dif_pos ⟨i.isLt, j.isLt⟩]

theorem valid_fromMatrix {n : Nat} (hn : 0 < n) (A : Matrix (Fin n) (Fin n) ℚ) :
    (fromMatrix A).valid :=
  valid_ofFn hn hn _

theorem toMatrix_transpose {n : Nat} (m : S21Matrix) :
    toMatrix n (ofFn n n (fun j i => m.cell i j)) = (toMatrix n m).transpose := by
  ext i j
  simp only [toMatrix, Matrix.of_apply, Matrix.transpose_apply]
  exact cell_ofFn n n _ i.isLt j.isLt

/-- The complement the program computes at `(i, j)` of the transposed matrix
is the element `(i, j)` of the adjugate. -/
theorem complement_transpose_eq_adjugate {n : Nat} (m : S21Matrix) (i j : Fin (n + 2)) :
    (-1 : ℚ) ^ (i.val + j.val) * Matrix.det (toMatrix (n + 1)
      (ofFn (n + 1) (n + 1) (fun a b =>
        (ofFn (n + 2) (n + 2) (fun j i => m.cell i j)).cell
          (skipIndex i.val a) (skipIndex j.val b)))) =
      Matrix.adjugate (toMatrix (n + 2) m) i j := by
  rw [toMatrix_minor (n := n + 1) _ i j, toMatrix_transpose,
    Matrix.adjugate_fin_succ_eq_det_submatrix, ← Matrix.transpose_submatrix,
    Matrix.det_transpose, add_comm]

/-- Member `InverseMatrix` computes the inverse of linear algebra whenever the
determinant passes the check. -/
theorem InverseMatrix_eq_inv {m : S21Matrix} (hv : m.valid) {n : Nat}
    (hr : m.rows_ = (n + 1 : Nat)) (hc : m.cols_ = (n + 1 : Nat))
    (hd : ¬ |Matrix.det (toMatrix (n + 1) m)| < 1 / 10000000) :
    m.InverseMatrix = Outcome.ok (fromMatrix (toMatrix (n + 1) m)⁻¹) := by
  have hdet := Determinant_eq_det hv hr hc
  have hchk := ChecksError_zero_determinant hdet
  rw [if_neg hd] at hchk
  have hd0 : Matrix.det (toMatrix (n + 1) m) ≠ 0 := by
    intro h0
    apply hd
    rw [h0]
    norm_num
  cases n with
  | zero =>
    have h1 : m.rows_ = 1 := by simpa using hr
    simp only [InverseMatrix, Outcome_bind_def, hchk, Outcome.ok_bind, hdet, ctor_copy_ok hv, h1,
      if_true, Outcome_pure_def, Outcome.ok.injEq]
    apply eq_ofFn (by simpa using hr) (by simpa using hc)
      (assign_shaped (by simpa [hr, hc] using hv.2.2) _ _ _)
    intro i j hi hj
    obtain rfl : i = 0 := by omega
    obtain rfl : j = 0 := by omega
    have hs : Shaped m.matrix_ 1 1 := by simpa [hr, hc] using hv.2.2
    rw [cell_assign hs (by omega) (by omega), if_pos ⟨rfl, rfl⟩, dif_pos ⟨hi, hj⟩,
      Matrix.inv_def, Matrix.smul_apply, Matrix.adjugate_fin_one, Ring.inverse_eq_inv]
    simp
  | succ k =>
    have h1 : ¬ (m.rows_ = 1) := by omega
    have hrn : m.rows_.toNat = k + 2 := by omega
    have hcn : m.cols_.toNat = k + 2 := by omega
    have hT := Transpose_ok hv
    rw [hrn, hcn] at hT
    have hvT : (ofFn (k + 2) (k + 2) (fun j i => m.cell i j)).valid :=
      valid_ofFn (by omega) (by omega) _
    have hC := CalcComplements_ok hvT (n := k) (by simp [ofFn]) (by simp [ofFn])
    have hvC := valid_ofFn (r := k + 2) (c := k + 2) (by omega) (by omega) (fun i j =>
      (-1 : ℚ) ^ (i + j) * Matrix.det (toMatrix (k + 1)
        (ofFn (k + 1) (k + 1) (fun a b =>
          (ofFn (k + 2) (k + 2) (fun j i => m.cell i j)).cell (skipIndex i a) (skipIndex j b)))))
    have hM := MulNumber_ok hvC (1 / Matrix.det (toMatrix (k + 1 + 1) m))
    simp only [ofFn_rows_toNat, ofFn_cols_toNat] at hM
    obtain ⟨o, ho⟩ := call_operator_assign_move (ofFn (k + 2) (k + 2) (fun i j =>
      (-1 : ℚ) ^ (i + j) * Matrix.det (toMatrix (k + 1)
        (ofFn (k + 1) (k + 1) (fun a b =>
          (ofFn (k + 2) (k + 2) (fun j i => m.cell i j)).cell (skipIndex i a) (skipIndex j b)))))) m
    simp only [InverseMatrix, Outcome_bind_def, hchk, Outcome.ok_bind, hdet, ctor_copy_ok hv, h1,
      if_false, hT, hC, ho, S21Matrix.run, hM, Outcome.ok.injEq]
    unfold fromMatrix
    apply ofFn_congr
    intro i j hi hj
    rw [cell_ofFn _ _ _ hi hj, dif_pos ⟨hi, hj⟩]
    have := complement_transpose_eq_adjugate (n := k) m ⟨i, hi⟩ ⟨j, hj⟩
    simp only at this
    rw [this, Matrix.inv_def, Matrix.smul_apply, Ring.inverse_eq_inv]
    simp only [smul_eq_mul, one_div]
    ring

/-! ## Products, sums and differences -/

theorem assign_self {m : S21Matrix} {R C : Nat} (hs : Shaped m.matrix_ R C) {i j : Nat}
    (hi : i < R) (hj : j < C) : m.assign i j (m.cell i j) = m := by
  refine eq_of_cells (R := R) (C := C) ?_ ?_ (assign_shaped hs _ _ _) hs ?_
  · rfl
  · rfl
  intro a b _ _
  rw [cell_assign hs hi hj]
  split
  · next h => rw [h.1, h.2]
  · rfl

theorem assign_assign {m : S21Matrix} {R C : Nat} (hs : Shaped m.matrix_ R C) {i j : Nat}
    (hi : i < R) (hj : j < C) (v w : ℚ) : (m.assign i j v).assign i j w = m.assign i j w := by
  refine eq_of_cells (R := R) (C := C) ?_ ?_ (assign_shaped (assign_shaped hs _ _ _) _ _ _)
    (assign_shaped hs _ _ _) ?_
  · rfl
  · rfl
  intro a b _ _
  rw [cell_assign (assign_shaped hs _ _ _) hi hj, cell_assign hs hi hj, cell_assign hs hi hj]
  split <;> rfl

/-- The innermost loop of `MulMatrix` adds the sum of the products to the
element. -/
theorem MulMatrix_inner (x : Nat → ℚ) {R C : Nat} {i j : Nat} (hi : i < R) (hj : j < C)
    (t : S21Matrix) (hs : Shaped t.matrix_ R C) (K : Nat) :
    loopUpTo (fun k (res : S21Matrix) => Outcome.ok (res.assign i j (res.cell i j + x k))) K t =
      Outcome.ok (t.assign i j (t.cell i j + ∑ k ∈ Finset.range K, x k)) := by
  induction K with
  | zero => simp [loopUpTo, assign_self hs hi hj]
  | succ k ih =>
    simp only [loopUpTo, ih, Outcome.ok_bind, Outcome.ok.injEq]
    rw [assign_assign hs hi hj, cell_assign hs hi hj, if_pos ⟨rfl, rfl⟩, Finset.sum_range_succ]
    ring_nf

theorem deleteMatrix_then_move (other this : S21Matrix) :
    (deleteMatrix.bind fun _ => (operator_assign_move other).bind fun _ => pure ()) this =
      ⟨other, Outcome.ok ()⟩ := by
  by_cases h : this.matrix_ = []
  · simp [operator_assign_move, help_move_and_copy, deleteMatrix, zeroing, h, Method.bind,
      getThis, setThis]
  · simp [operator_assign_move, help_move_and_copy, deleteMatrix, zeroing, h, Method.bind,
      getThis, setThis]

/-- Member `MulMatrix` on matrices whose sizes agree. -/
theorem MulMatrix_ok {m other : S21Matrix} (hv : m.valid) (hq : 0 < other.cols_)
    (h : m.cols_ = other.rows_) :
    MulMatrix other m =
      ⟨ofFn m.rows_.toNat other.cols_.toNat
        (fun i j => ∑ k ∈ Finset.range m.cols_.toNat, m.cell i k * other.cell k j),
        Outcome.ok ()⟩ := by
  have hchk : ChecksError Code.CODE_MISTMATCH_SIZE m (some other) = Outcome.ok () := by
    simp [ChecksError, ChecksErrorBasic, getCols_, getRows_, h]
  obtain ⟨t, ht, h3, h4, h5, h6⟩ := doubleLoop_pointwise (le_refl m.rows_.toNat)
    (le_refl other.cols_.toNat)
    (fun i j (resultMatrix : S21Matrix) =>
      loopUpTo (fun k (resultMatrix : S21Matrix) =>
        (pure (resultMatrix.assign i j
          (resultMatrix.cell i j + m.cell i k * other.cell k j)) : Outcome S21Matrix))
        m.cols_.toNat resultMatrix)
    (fun i j old => old + ∑ k ∈ Finset.range m.cols_.toNat, m.cell i k * other.cell k j)
    (ofFn m.rows_.toNat other.cols_.toNat (fun _ _ => 0)) (Shaped.ofFn _ _ _)
    (by
      intro i j hi hj t _ _ hs
      exact MulMatrix_inner (fun k => m.cell i k * other.cell k j) hi hj t hs _)
  simp only [MulMatrix, Method_bind_def, getThis_bind, hchk, lift_ok_bind,
    ctor_ok hv.1 hq, MATRIX_DOUBLE_LOOP, forLoop, ht]
  rw [deleteMatrix_then_move]
  congr 1
  apply eq_ofFn h3 h4 h5
  intro i j hi hj
  rw [h6 i j, if_pos ⟨hi, hj⟩, cell_ofFn _ _ _ hi hj, zero_add]

theorem MulMatrix_mismatch {m other : S21Matrix} (h : m.cols_ ≠ other.rows_) :
    MulMatrix other m =
      ⟨m, Outcome.thrown (Exception.logic_error Code.CODE_MISTMATCH_SIZE)⟩ := by
  have hchk : ChecksError Code.CODE_MISTMATCH_SIZE m (some other) =
      Outcome.thrown (Exception.logic_error Code.CODE_MISTMATCH_SIZE) := by
    simp [ChecksError, ChecksErrorBasic, getCols_, getRows_, h, errors_, Code.toInt, LOG_ERR]
  simp only [MulMatrix, Method_bind_def, getThis_bind, hchk, lift_thrown_bind]

/-- Member `PerformMatrixOperation` on matrices of equal sizes. -/
theorem PerformMatrixOperation_ok {m other : S21Matrix} (hv : m.valid)
    (hr : other.rows_ = m.rows_) (hc : other.cols_ = m.cols_) (op : ℚ → ℚ → ℚ) :
    PerformMatrixOperation Code.CODE_DIFF_DIMENSIONS other op m =
      ⟨ofFn m.rows_.toNat m.cols_.toNat (fun i j => op (m.cell i j) (other.cell i j)),
        Outcome.ok ()⟩ := by
  have hchk : ChecksError Code.CODE_DIFF_DIMENSIONS m (some other) = Outcome.ok () := by
    simp [ChecksError, ChecksErrorBasic, EqSizeMatrix, hr, hc]
  have h3 := doubleLoopM_pointwise (R := m.rows_.toNat) (C := m.cols_.toNat)
    (fun i j _ => do
      let cur ← getThis
      let b ← (other.operator_call_const i j).lift
      setThis (cur.assign i j (op (cur.cell i j) b)))
    (fun i j old => op old (other.cell i j)) m hv.2.2
    (by
      intro i j hi hj t _ _ _
      have e := operator_call_const_ok (m := other) (i := i) (j := j)
        (by rw [hr]; omega) (by rw [hc]; omega)
      simp [e])
  simp only [PerformMatrixOperation, Method_bind_def, getThis_bind, hchk, lift_ok_bind,
    MATRIX_DOUBLE_LOOP_M, forLoopM] at h3 ⊢
  rw [h3]
  congr 1
  simp only [ofFn, valid_rows_toNat hv, valid_cols_toNat hv]

theorem PerformMatrixOperation_mismatch {m other : S21Matrix}
    (h : ¬ (other.rows_ = m.rows_ ∧ other.cols_ = m.cols_)) (op : ℚ → ℚ → ℚ) :
    PerformMatrixOperation Code.CODE_DIFF_DIMENSIONS other op m =
      ⟨m, Outcome.thrown (Exception.logic_error Code.CODE_DIFF_DIMENSIONS)⟩ := by
  have hsz : m.EqSizeMatrix other = false := by
    simp only [EqSizeMatrix, Bool.and_eq_false_imp, decide_eq_true_eq, decide_eq_false_iff_not]
    intro h1 h2
    exact h ⟨h2, h1⟩
  have hchk : ChecksError Code.CODE_DIFF_DIMENSIONS m (some other) =
      Outcome.thrown (Exception.logic_error Code.CODE_DIFF_DIMENSIONS) := by
    simp [ChecksError, ChecksErrorBasic, hsz, errors_, Code.toInt, LOG_ERR]
  simp only [PerformMatrixOperation, Method_bind_def, getThis_bind, hchk, lift_thrown_bind]

/-! ## Resizing and comparison -/

theorem run_setMatrixValue {t : S21Matrix} {i j : Nat} (hi : (i : Int) < t.rows_)
    (hj : (j : Int) < t.cols_) (v : ℚ) :
    t.run (setMatrixValue i j v) = Outcome.ok (t.assign i j v) := by
  simp [S21Matrix.run, setMatrixValue, operator_call_ok hi hj]

/-- Calling `setNewSize` with positive dimensions keeps the overlap and fills the rest
with zeros. -/
theorem setNewSize_ok {m : S21Matrix} (hv : m.valid) {Nrows Ncols : Int} (hr : 0 < Nrows)
    (hc : 0 < Ncols) :
    setNewSize Nrows Ncols m =
      ⟨ofFn Nrows.toNat Ncols.toNat
        (fun i j => if i < m.rows_.toNat ∧ j < m.cols_.toNat then m.cell i j else 0),
        Outcome.ok ()⟩ := by
  have hR : (min m.rows_ Nrows).toNat ≤ Nrows.toNat := by
    have := min_le_right m.rows_ Nrows
    omega
  have hC : (min m.cols_ Ncols).toNat ≤ Ncols.toNat := by
    have := min_le_right m.cols_ Ncols
    omega
  obtain ⟨t, ht, h3, h4, h5, h6⟩ := doubleLoop_pointwise hR hC
    (fun i j (tmp : S21Matrix) => tmp.run (setMatrixValue i j (m.cell i j)))
    (fun i j _ => m.cell i j)
    (ofFn Nrows.toNat Ncols.toNat (fun _ _ => 0)) (Shaped.ofFn _ _ _)
    (by
      intro i j hi hj t e1 e2 _
      exact run_setMatrixValue (by rw [e1]; simp only [ofFn_rows]; omega)
        (by rw [e2]; simp only [ofFn_cols]; omega) _)
  simp only [setNewSize, Method_bind_def, getThis_bind, ctor_ok hr hc, lift_ok_bind,
    MATRIX_DOUBLE_LOOP, forLoop, ht]
  rw [deleteMatrix_then_move]
  congr 1
  apply eq_ofFn h3 h4 h5
  intro i j hi hj
  rw [h6 i j]
  have hv1 := hv.1
  have hv2 := hv.2.1
  by_cases hij : i < m.rows_.toNat ∧ j < m.cols_.toNat
  · rw [if_pos hij, if_pos]
    have := min_def m.rows_ Nrows
    have := min_def m.cols_ Ncols
    constructor
    · split_ifs at * <;> omega
    · split_ifs at * <;> omega
  · rw [if_neg hij, if_neg, cell_ofFn _ _ _ hi hj]
    intro hh
    apply hij
    have := min_le_left m.rows_ Nrows
    have := min_le_left m.cols_ Ncols
    omega

theorem setRows__ok {m : S21Matrix} (hv : m.valid) {n : Int} (hn : 0 < n) :
    setRows_ n m =
      ⟨ofFn n.toNat m.cols_.toNat (fun i j => if i < m.rows_.toNat then m.cell i j else 0),
        Outcome.ok ()⟩ := by
  have h1 : ¬ (n ≤ 0) := by omega
  simp only [setRows_, Method_bind_def, h1, if_false, Method.bind, Method.pure_apply, getThis,
    setNewSize_ok hv hn hv.2.1]
  congr 1
  apply ofFn_congr
  intro i j _ hj
  simp [hj]

theorem setCols__ok {m : S21Matrix} (hv : m.valid) {n : Int} (hn : 0 < n) :
    setCols_ n m =
      ⟨ofFn m.rows_.toNat n.toNat (fun i j => if j < m.cols_.toNat then m.cell i j else 0),
        Outcome.ok ()⟩ := by
  have h1 : ¬ (n ≤ 0) := by omega
  simp only [setCols_, Method_bind_def, h1, if_false, Method.bind, Method.pure_apply, getThis,
    setNewSize_ok hv hv.1 hn]
  congr 1
  apply ofFn_congr
  intro i j hi _
  simp [hi]

theorem loopWhile_false (body : Nat → Bool → Bool) (n : Nat) :
    loopWhile (fun c => c) body n false = false := by
  induction n with
  | zero => rfl
  | succ k ih => simp [loopWhile, ih]

theorem loopWhile_true (body : Nat → Bool → Bool) (n : Nat) :
    loopWhile (fun c => c) body n true = true ↔ ∀ k, k < n → body k true = true := by
  induction n with
  | zero => simp [loopWhile]
  | succ k ih =>
    simp only [loopWhile]
    by_cases h : loopWhile (fun c => c) body k true = true
    · rw [h]
      simp only [if_true]
      constructor
      · intro hb i hi
        by_cases hik : i = k
        · rw [hik]; exact hb
        · exact ih.mp h i (by omega)
      · intro hall
        exact hall k (by omega)
    · have hf : loopWhile (fun c => c) body k true = false := by
        simpa using h
      rw [hf]
      simp only [Bool.false_eq_true, if_false, false_iff]
      intro hall
      exact h (ih.mpr (fun i hi => hall i (by omega)))

/-- Comparison by `EqMatrix` holds exactly of matrices of the same size whose elements
differ by at most `ACCURACY`. -/
theorem EqMatrix_iff (a b : S21Matrix) :
    a.EqMatrix b = true ↔ a.rows_ = b.rows_ ∧ a.cols_ = b.cols_ ∧
      ∀ i j, i < a.rows_.toNat → j < a.cols_.toNat → |a.cell i j - b.cell i j| ≤ ACCURACY := by
  unfold EqMatrix
  by_cases hsz : a.EqSizeMatrix b = true
  · have hsz2 : b.cols_ = a.cols_ ∧ b.rows_ = a.rows_ := by
      simpa [EqSizeMatrix] using hsz
    simp only [hsz, if_true]
    rw [loopWhile_true]
    constructor
    · intro hall
      refine ⟨hsz2.2.symm, hsz2.1.symm, ?_⟩
      intro i j hi hj
      have h1 := (loopWhile_true _ _).mp (hall i hi) j hj
      by_contra hgt
      rw [if_pos (not_le.mp hgt)] at h1
      cases h1
    · rintro ⟨_, _, hall⟩ i hi
      rw [loopWhile_true]
      intro j hj
      rw [if_neg (not_lt.mpr (hall i j hi hj))]
  · have hsz2 : ¬ (b.cols_ = a.cols_ ∧ b.rows_ = a.rows_) := by
      simpa [EqSizeMatrix] using hsz
    simp only [hsz, if_false, Bool.false_eq_true, false_iff]
    rintro ⟨h1, h2, _⟩
    exact hsz2 ⟨h2.symm, h1.symm⟩

theorem EqMatrix_self (a : S21Matrix) : a.EqMatrix a = true := by
  rw [EqMatrix_iff]
  refine ⟨rfl, rfl, ?_⟩
  intro i j _ _
  simp [ACCURACY]

/-! ## The inverse and linear algebra -/

theorem InverseMatrix_singular {m : S21Matrix} {d : ℚ} (hd : m.Determinant = Outcome.ok d)
    (hsmall : |d| < 1 / 10000000) :
    m.InverseMatrix = Outcome.thrown (Exception.logic_error Code.CODE_ZERO_DETERMINANT) := by
  have hchk := ChecksError_zero_determinant hd
  rw [if_pos hsmall] at hchk
  simp only [InverseMatrix, Outcome_bind_def, hchk, Outcome.thrown_bind]

/-- The sum that `MulMatrix` computes is the element of the matrix product. -/
theorem sum_range_eq_mul_apply {n : Nat} (A B : S21Matrix) {i j : Nat} (hi : i < n)
    (hj : j < n) :
    ∑ k ∈ Finset.range n, A.cell i k * B.cell k j =
      (toMatrix n A * toMatrix n B) ⟨i, hi⟩ ⟨j, hj⟩ := by
  rw [Matrix.mul_apply, ← Fin.sum_univ_eq_sum_range (fun k => A.cell i k * B.cell k j)]
  rfl

theorem identity_eq_fromMatrix (n : Nat) :
    identity n = fromMatrix (1 : Matrix (Fin n) (Fin n) ℚ) := by
  unfold identity fromMatrix
  apply ofFn_congr
  intro i j hi hj
  rw [dif_pos ⟨hi, hj⟩, Matrix.one_apply]
  simp [Fin.ext_iff]

/-- A matrix multiplied in place by its inverse becomes the identity. -/
theorem MulMatrix_inverse {m : S21Matrix} (hv : m.valid) {n : Nat}
    (hr : m.rows_ = (n + 1 : Nat)) (hc : m.cols_ = (n + 1 : Nat))
    (hd : Matrix.det (toMatrix (n + 1) m) ≠ 0) :
    MulMatrix (fromMatrix (toMatrix (n + 1) m)⁻¹) m = ⟨identity (n + 1), Outcome.ok ()⟩ := by
  have hrn : m.rows_.toNat = n + 1 := by omega
  have hcn : m.cols_.toNat = n + 1 := by omega
  have hq : (0 : Int) < (fromMatrix (toMatrix (n + 1) m)⁻¹).cols_ := by
    simp [fromMatrix]
  rw [MulMatrix_ok hv hq (by simp [fromMatrix, hc]), hrn, hcn]
  congr 1
  simp only [fromMatrix, ofFn_cols_toNat]
  unfold identity
  apply ofFn_congr
  intro i j hi hj
  have h1 := sum_range_eq_mul_apply m (fromMatrix (toMatrix (n + 1) m)⁻¹) hi hj
  simp only [fromMatrix] at h1
  rw [h1]
  have h2 := toMatrix_fromMatrix (toMatrix (n + 1) m)⁻¹
  simp only [fromMatrix] at h2
  rw [h2, Matrix.mul_nonsing_inv _ (isUnit_iff_ne_zero.mpr hd), Matrix.one_apply]
  simp [Fin.ext_iff]

theorem det_ne_zero_of_not_small {d : ℚ} (h : ¬ |d| < 1 / 10000000) : d ≠ 0 := by
  intro h0
  apply h
  rw [h0]
  norm_num

/-- What `InverseMatrix` does on a valid square matrix, by the size of the
determinant. -/
theorem InverseMatrix_cases {m : S21Matrix} (hv : m.valid) {n : Nat}
    (hr : m.rows_ = (n + 1 : Nat)) (hc : m.cols_ = (n + 1 : Nat)) :
    (|Matrix.det (toMatrix (n + 1) m)| < 1 / 10000000 ∧
      m.InverseMatrix = Outcome.thrown (Exception.logic_error Code.CODE_ZERO_DETERMINANT)) ∨
    (¬ |Matrix.det (toMatrix (n + 1) m)| < 1 / 10000000 ∧
      m.InverseMatrix = Outcome.ok (fromMatrix (toMatrix (n + 1) m)⁻¹)) := by
  by_cases h : |Matrix.det (toMatrix (n + 1) m)| < 1 / 10000000
  · exact Or.inl ⟨h, InverseMatrix_singular (Determinant_eq_det hv hr hc) h⟩
  · exact Or.inr ⟨h, InverseMatrix_eq_inv hv hr hc h⟩

theorem operator_mul_eq {A B P : S21Matrix} (hv : A.valid)
    (h : MulMatrix B A = ⟨P, Outcome.ok ()⟩) : A.operator_mul B = Outcome.ok P := by
  simp [operator_mul, operator_calculate, ctor_copy_ok hv, S21Matrix.run, h]

/-! ## The claims -/

theorem square_dims {A : S21Matrix} (hv : A.valid) (hsq : A.rows_ = A.cols_) :
    ∃ n : Nat, A.rows_ = (n + 1 : Nat) ∧ A.cols_ = (n + 1 : Nat) ∧ A.rows_.toNat = n + 1 ∧
      A.cols_.toNat = n + 1 := by
  have := hv.1
  exact ⟨A.rows_.toNat - 1, by omega, by omega, by omega, by omega⟩

/-- C1: on a valid matrix `Determinant` throws the not-square error exactly
when the numbers of rows and columns differ. On a square matrix it returns: the
single element of a `1 x 1` matrix, and otherwise the expansion along row 0,
the sum over `j` of `(-1)^j * A[0][j]` times what `Determinant` returns on the
minor `getMatrixMinor(0, j)`. -/
theorem C1_Determinant_cofactor_expansion (A : S21Matrix) (hv : A.valid) :
    (A.Determinant = Outcome.thrown (Exception.logic_error Code.CODE_NO_SQUERE) ↔
        A.rows_ ≠ A.cols_) ∧
      (A.rows_ = A.cols_ →
        ∃ d, A.Determinant = Outcome.ok d ∧
          (A.rows_ = 1 → d = A.cell 0 0) ∧
          (A.rows_ ≠ 1 → ∃ dm : Nat → ℚ,
            (∀ j, j < A.cols_.toNat →
              ∃ M, A.getMatrixMinor 0 j = Outcome.ok M ∧ M.Determinant = Outcome.ok (dm j)) ∧
            d = ∑ j ∈ Finset.range A.cols_.toNat, (-1 : ℚ) ^ j * A.cell 0 j * dm j)) := by
  have hsquare : A.rows_ = A.cols_ →
      ∃ d, A.Determinant = Outcome.ok d ∧
        (A.rows_ = 1 → d = A.cell 0 0) ∧
        (A.rows_ ≠ 1 → ∃ dm : Nat → ℚ,
          (∀ j, j < A.cols_.toNat →
            ∃ M, A.getMatrixMinor 0 j = Outcome.ok M ∧ M.Determinant = Outcome.ok (dm j)) ∧
          d = ∑ j ∈ Finset.range A.cols_.toNat, (-1 : ℚ) ^ j * A.cell 0 j * dm j) := by
    intro hsq
    obtain ⟨n, hr, hc, hrn, hcn⟩ := square_dims hv hsq
    refine ⟨_, Determinant_eq_det hv hr hc, ?_, ?_⟩
    · intro h1
      obtain rfl : n = 0 := by omega
      rw [Matrix.det_fin_one]
      rfl
    · intro h1
      obtain ⟨k, rfl⟩ : ∃ k, n = k + 1 := ⟨n - 1, by omega⟩
      refine ⟨fun j => Matrix.det (toMatrix (k + 1)
        (ofFn (k + 1) (k + 1) (fun a b => A.cell (skipIndex 0 a) (skipIndex j b)))), ?_, ?_⟩
      · intro j hj
        have hm := getMatrixMinor_ok hv (by omega) (by omega) (p := 0) (q := j)
          (by omega) (by omega)
        rw [hrn, hcn] at hm
        simp only [Nat.add_one_sub_one, Nat.cast_zero] at hm
        exact ⟨_, hm, Determinant_eq_det (valid_ofFn (by omega) (by omega) _)
          (by simp [ofFn]) (by simp [ofFn])⟩
      · rw [hcn]
        exact det_toMatrix_expand A k
  refine ⟨⟨?_, Determinant_not_square hv⟩, hsquare⟩
  intro hthrown hsq
  obtain ⟨d, hd, _⟩ := hsquare hsq
  rw [hd] at hthrown
  cases hthrown

/-- C1, at the matrix `[[1, 2], [3, 4]]`: it is valid, and its determinant is
the expansion along row 0. -/
theorem C1_Determinant_cofactor_expansion_witness :
    exampleA.valid ∧
      ((exampleA.Determinant = Outcome.thrown (Exception.logic_error Code.CODE_NO_SQUERE) ↔
        exampleA.rows_ ≠ exampleA.cols_) ∧
      (exampleA.rows_ = exampleA.cols_ →
        ∃ d, exampleA.Determinant = Outcome.ok d ∧
          (exampleA.rows_ = 1 → d = exampleA.cell 0 0) ∧
          (exampleA.rows_ ≠ 1 → ∃ dm : Nat → ℚ,
            (∀ j, j < exampleA.cols_.toNat →
              ∃ M, exampleA.getMatrixMinor 0 j = Outcome.ok M ∧
                M.Determinant = Outcome.ok (dm j)) ∧
            d = ∑ j ∈ Finset.range exampleA.cols_.toNat,
              (-1 : ℚ) ^ j * exampleA.cell 0 j * dm j))) :=
  ⟨by decide, C1_Determinant_cofactor_expansion exampleA (by decide)⟩

/-- C2: for a valid square matrix whose determinant exceeds `1e-7` in absolute
value, `InverseMatrix` returns, and over exact arithmetic the product of the
matrix with the result (in place by `MulMatrix`, or by `operator*`) is the
identity matrix of the same size, which `EqMatrix` then accepts. -/
theorem C2_product_with_inverse_is_identity (A : S21Matrix) (hv : A.valid)
    (hsq : A.rows_ = A.cols_) (d : ℚ) (hd : A.Determinant = Outcome.ok d)
    (hbig : |d| > 1 / 10000000) :
    ∃ inv, A.InverseMatrix = Outcome.ok inv ∧
      MulMatrix inv A = ⟨identity A.rows_.toNat, Outcome.ok ()⟩ ∧
      A.operator_mul inv = Outcome.ok (identity A.rows_.toNat) ∧
      (MulMatrix inv A).self.EqMatrix (identity A.rows_.toNat) = true := by
  obtain ⟨n, hr, hc, hrn, _⟩ := square_dims hv hsq
  have hdet := Determinant_eq_det hv hr hc
  rw [hd] at hdet
  simp only [Outcome.ok.injEq] at hdet
  have hns : ¬ |Matrix.det (toMatrix (n + 1) A)| < 1 / 10000000 := by
    rw [← hdet]
    exact not_lt.mpr (le_of_lt hbig)
  have hmul := MulMatrix_inverse hv hr hc (det_ne_zero_of_not_small hns)
  refine ⟨_, InverseMatrix_eq_inv hv hr hc hns, ?_, ?_, ?_⟩
  · rw [hrn]
    exact hmul
  · rw [hrn]
    exact operator_mul_eq hv hmul
  · rw [hrn, hmul]
    exact EqMatrix_self _

/-- C2, at the matrix `[[1, 2], [3, 4]]`, whose determinant is `-2`. -/
theorem C2_product_with_inverse_is_identity_witness :
    exampleA.valid ∧ exampleA.rows_ = exampleA.cols_ ∧
      exampleA.Determinant = Outcome.ok (-2) ∧ |(-2 : ℚ)| > 1 / 10000000 ∧
      ∃ inv, exampleA.InverseMatrix = Outcome.ok inv ∧
        MulMatrix inv exampleA = ⟨identity exampleA.rows_.toNat, Outcome.ok ()⟩ ∧
        exampleA.operator_mul inv = Outcome.ok (identity exampleA.rows_.toNat) ∧
        (MulMatrix inv exampleA).self.EqMatrix (identity exampleA.rows_.toNat) = true :=
  ⟨by decide, by decide, by decide!, by decide!,
    C2_product_with_inverse_is_identity exampleA (by decide) (by decide) (-2) (by decide!)
      (by decide!)⟩

/-- C3: computed over exact arithmetic, when `InverseMatrix` returns `R` on a
valid square matrix with at least two rows, `R` is the transposed matrix of
complements of the matrix with every element multiplied by `1 / Determinant`
(the program takes the complements of the transposed matrix; over exact
arithmetic the two orders agree); on a `1 x 1` matrix `R` is
`[[1 / A[0][0]]]`. The matrix `[[1, 2], [3, 4]]` has determinant `-2` and
inverse `[[-2, 1], [1.5, -0.5]]`. -/
theorem C3_inverse_is_adjugate_over_determinant (A : S21Matrix) (hv : A.valid)
    (hsq : A.rows_ = A.cols_) (R : S21Matrix) (hR : A.InverseMatrix = Outcome.ok R) :
    (A.rows_ ≠ 1 →
      ∃ d C T, A.Determinant = Outcome.ok d ∧ A.CalcComplements = Outcome.ok C ∧
        C.Transpose = Outcome.ok T ∧ MulNumber (1 / d) T = ⟨R, Outcome.ok ()⟩ ∧
        ∀ i j, i < A.rows_.toNat → j < A.cols_.toNat → R.cell i j = C.cell j i * (1 / d)) ∧
    (A.rows_ = 1 → R = { rows_ := 1, cols_ := 1, matrix_ := [[1 / A.cell 0 0]] }) ∧
    exampleA.Determinant = Outcome.ok (-2) ∧
    exampleA.InverseMatrix = Outcome.ok exampleAinv := by
  obtain ⟨n, hr, hc, hrn, hcn⟩ := square_dims hv hsq
  have hdet := Determinant_eq_det hv hr hc
  have hR2 : R = fromMatrix (toMatrix (n + 1) A)⁻¹ := by
    rcases InverseMatrix_cases hv hr hc with ⟨_, h⟩ | ⟨_, h⟩
    · rw [h] at hR
      cases hR
    · rw [h] at hR
      simp only [Outcome.ok.injEq] at hR
      exact hR.symm
  refine ⟨?_, ?_, by decide!, by decide!⟩
  · intro h1
    obtain ⟨k, rfl⟩ : ∃ k, n = k + 1 := ⟨n - 1, by omega⟩
    have hC := CalcComplements_ok hv (n := k) hr hc
    have hvC := valid_ofFn (r := k + 2) (c := k + 2) (by omega) (by omega) (fun i j =>
      (-1 : ℚ) ^ (i + j) * Matrix.det (toMatrix (k + 1)
        (ofFn (k + 1) (k + 1) (fun a b => A.cell (skipIndex i a) (skipIndex j b)))))
    have hT := Transpose_ok hvC
    simp only [ofFn_rows_toNat, ofFn_cols_toNat] at hT
    have hvT := valid_ofFn (r := k + 2) (c := k + 2) (by omega) (by omega) (fun j i =>
      (ofFn (k + 2) (k + 2) (fun i j =>
        (-1 : ℚ) ^ (i + j) * Matrix.det (toMatrix (k + 1)
          (ofFn (k + 1) (k + 1) (fun a b => A.cell (skipIndex i a) (skipIndex j b)))))).cell i j)
    have hM := MulNumber_ok hvT (1 / Matrix.det (toMatrix (k + 1 + 1) A))
    simp only [ofFn_rows_toNat, ofFn_cols_toNat] at hM
    have key : ∀ i j (hi : i < k + 2) (hj : j < k + 2),
        (toMatrix (k + 1 + 1) A)⁻¹ ⟨i, hi⟩ ⟨j, hj⟩ =
          (-1 : ℚ) ^ (j + i) * Matrix.det (toMatrix (k + 1)
            (ofFn (k + 1) (k + 1) (fun a b => A.cell (skipIndex j a) (skipIndex i b)))) *
          (1 / Matrix.det (toMatrix (k + 1 + 1) A)) := by
      intro i j hi hj
      have h2 := toMatrix_minor (n := k + 1) A ⟨j, hj⟩ ⟨i, hi⟩
      simp only at h2
      rw [h2, Matrix.inv_def, Matrix.smul_apply, Ring.inverse_eq_inv,
        Matrix.adjugate_fin_succ_eq_det_submatrix]
      simp only [smul_eq_mul, one_div]
      ring
    refine ⟨_, _, _, hdet, hC, hT, ?_, ?_⟩
    · rw [hM]
      congr 1
      rw [hR2]
      unfold fromMatrix
      apply ofFn_congr
      intro i j hi hj
      rw [dif_pos ⟨hi, hj⟩, cell_ofFn _ _ _ hi hj, cell_ofFn _ _ _ hj hi, key i j hi hj]
    · intro i j hi hj
      rw [hrn] at hi
      rw [hcn] at hj
      rw [hR2]
      unfold fromMatrix
      rw [cell_ofFn _ _ _ hi hj, dif_pos ⟨hi, hj⟩, cell_ofFn _ _ _ hj hi, key i j hi hj]
  · intro h1
    obtain rfl : n = 0 := by omega
    rw [hR2]
    have hcell : (toMatrix (0 + 1) A)⁻¹ ⟨0, by omega⟩ ⟨0, by omega⟩ = 1 / A.cell 0 0 := by
      rw [Matrix.inv_def, Matrix.smul_apply, Matrix.adjugate_fin_one, Ring.inverse_eq_inv,
        Matrix.det_fin_one]
      simp [toMatrix]
    simp [fromMatrix, ofFn, List.range_succ, hcell]
    rfl

/-- C3, at the matrix `[[1, 2], [3, 4]]` and its inverse. -/
theorem C3_inverse_is_adjugate_over_determinant_witness :
    exampleA.valid ∧ exampleA.rows_ = exampleA.cols_ ∧
      exampleA.InverseMatrix = Outcome.ok exampleAinv ∧
      ∃ d C T, exampleA.Determinant = Outcome.ok d ∧ exampleA.CalcComplements = Outcome.ok C ∧
        C.Transpose = Outcome.ok T ∧ MulNumber (1 / d) T = ⟨exampleAinv, Outcome.ok ()⟩ ∧
        ∀ i j, i < exampleA.rows_.toNat → j < exampleA.cols_.toNat →
          exampleAinv.cell i j = C.cell j i * (1 / d) :=
  ⟨by decide, by decide, by decide!,
    (C3_inverse_is_adjugate_over_determinant exampleA (by decide) (by decide) exampleAinv
      (by decide!)).1 (by decide)⟩

/-- C4 as stated fails: the `1 x 1` matrix `[[1e-7]]` is valid and square, its
determinant `1e-7` is within `1e-7` of zero, and yet `InverseMatrix` returns
`[[10000000]]` instead of throwing the zero-determinant error. -/
theorem C4_counterexample_determinant_at_tolerance :
    exampleTiny.valid ∧ exampleTiny.rows_ = exampleTiny.cols_ ∧
      exampleTiny.Determinant = Outcome.ok (1 / 10000000) ∧
      |(1 / 10000000 : ℚ)| ≤ 1 / 10000000 ∧
      exampleTiny.InverseMatrix =
        Outcome.ok { rows_ := 1, cols_ := 1, matrix_ := [[10000000]] } ∧
      exampleTiny.InverseMatrix ≠
        Outcome.thrown (Exception.logic_error Code.CODE_ZERO_DETERMINANT) :=
  ⟨by decide, by decide, by decide!, by decide!, by decide!, by decide!⟩

/-- C4, amended: on a valid square matrix `Determinant` returns some `d`, and
`InverseMatrix` throws the zero-determinant error exactly when `|d| < 1e-7`
(strictly); for every other valid square matrix it returns. -/
theorem C4_InverseMatrix_singular_iff_below_tolerance (A : S21Matrix) (hv : A.valid)
    (hsq : A.rows_ = A.cols_) :
    ∃ d, A.Determinant = Outcome.ok d ∧
      (A.InverseMatrix = Outcome.thrown (Exception.logic_error Code.CODE_ZERO_DETERMINANT) ↔
        |d| < 1 / 10000000) ∧
      (¬ |d| < 1 / 10000000 → ∃ R, A.InverseMatrix = Outcome.ok R) := by
  obtain ⟨n, hr, hc, _, _⟩ := square_dims hv hsq
  refine ⟨_, Determinant_eq_det hv hr hc, ?_, ?_⟩
  · rcases InverseMatrix_cases hv hr hc with ⟨h1, h2⟩ | ⟨h1, h2⟩
    · exact ⟨fun _ => h1, fun _ => h2⟩
    · constructor
      · intro h3
        rw [h2] at h3
        cases h3
      · intro h3
        exact absurd h3 h1
  · intro h1
    exact ⟨_, InverseMatrix_eq_inv hv hr hc h1⟩

/-- C4 amended, at the matrix `[[1, 2], [3, 4]]`. -/
theorem C4_InverseMatrix_singular_iff_below_tolerance_witness :
    exampleA.valid ∧ exampleA.rows_ = exampleA.cols_ ∧
      ∃ d, exampleA.Determinant = Outcome.ok d ∧
        (exampleA.InverseMatrix =
            Outcome.thrown (Exception.logic_error Code.CODE_ZERO_DETERMINANT) ↔
          |d| < 1 / 10000000) ∧
        (¬ |d| < 1 / 10000000 → ∃ R, exampleA.InverseMatrix = Outcome.ok R) :=
  ⟨by decide, by decide,
    C4_InverseMatrix_singular_iff_below_tolerance exampleA (by decide) (by decide)⟩

/-- C5: when `InverseMatrix` returns `R` on a valid square matrix, then over
exact arithmetic the determinant of the matrix times the determinant of `R` is
1. -/
theorem C5_determinant_of_inverse (A : S21Matrix) (hv : A.valid) (hsq : A.rows_ = A.cols_)
    (R : S21Matrix) (hR : A.InverseMatrix = Outcome.ok R) :
    ∃ d e, A.Determinant = Outcome.ok d ∧ R.Determinant = Outcome.ok e ∧ d * e = 1 := by
  obtain ⟨n, hr, hc, _, _⟩ := square_dims hv hsq
  rcases InverseMatrix_cases hv hr hc with ⟨_, h⟩ | ⟨hns, h⟩
  · rw [h] at hR
    cases hR
  · rw [h] at hR
    simp only [Outcome.ok.injEq] at hR
    subst hR
    refine ⟨_, _, Determinant_eq_det hv hr hc,
      Determinant_eq_det (valid_fromMatrix (by omega) _) (n := n) (by simp [fromMatrix])
        (by simp [fromMatrix]), ?_⟩
    rw [toMatrix_fromMatrix, ← Matrix.det_mul,
      Matrix.mul_nonsing_inv _ (isUnit_iff_ne_zero.mpr (det_ne_zero_of_not_small hns)),
      Matrix.det_one]

/-- C5, at the matrix `[[1, 2], [3, 4]]` and its inverse. -/
theorem C5_determinant_of_inverse_witness :
    exampleA.valid ∧ exampleA.rows_ = exampleA.cols_ ∧
      exampleA.InverseMatrix = Outcome.ok exampleAinv ∧
      ∃ d e, exampleA.Determinant = Outcome.ok d ∧ exampleAinv.Determinant = Outcome.ok e ∧
        d * e = 1 :=
  ⟨by decide, by decide, by decide!,
    C5_determinant_of_inverse exampleA (by decide) (by decide) exampleAinv (by decide!)⟩

/-- C6: on a valid matrix `CalcComplements` throws the not-square error when
the numbers of rows and columns differ and the too-small error on a `1 x 1`
matrix; on a square matrix with at least two rows it returns a valid matrix of
the same size whose element `(i, j)` is `(-1)^(i+j)` times what `Determinant`
returns on the minor `getMatrixMinor(i, j)`. -/
theorem C6_CalcComplements_contract (A : S21Matrix) (hv : A.valid) :
    (A.rows_ ≠ A.cols_ →
      A.CalcComplements = Outcome.thrown (Exception.logic_error Code.CODE_NO_SQUERE)) ∧
    (A.rows_ = 1 ∧ A.cols_ = 1 →
      A.CalcComplements = Outcome.thrown (Exception.logic_error Code.CODE_CALC_COMPLEMENT)) ∧
    (A.rows_ = A.cols_ → 2 ≤ A.rows_ →
      ∃ C, A.CalcComplements = Outcome.ok C ∧ C.valid ∧ C.rows_ = A.rows_ ∧
        C.cols_ = A.cols_ ∧
        ∀ i j, i < A.rows_.toNat → j < A.cols_.toNat →
          ∃ M d, A.getMatrixMinor i j = Outcome.ok M ∧ M.Determinant = Outcome.ok d ∧
            C.cell i j = (-1 : ℚ) ^ (i + j) * d) := by
  refine ⟨CalcComplements_not_square, fun h => CalcComplements_too_small h.1 h.2, ?_⟩
  intro hsq h2
  obtain ⟨n, hr, hc, hrn, hcn⟩ := square_dims hv hsq
  obtain ⟨k, rfl⟩ : ∃ k, n = k + 1 := ⟨n - 1, by omega⟩
  refine ⟨_, CalcComplements_ok hv (n := k) hr hc, valid_ofFn (by omega) (by omega) _,
    by rw [hr]; rfl, by rw [hc]; rfl, ?_⟩
  intro i j hi hj
  rw [hrn] at hi
  rw [hcn] at hj
  have hm := getMatrixMinor_ok hv (by omega) (by omega) (p := i) (q := j) (by omega) (by omega)
  rw [hrn, hcn] at hm
  simp only [Nat.add_one_sub_one] at hm
  refine ⟨_, _, hm, Determinant_eq_det (valid_ofFn (by omega) (by omega) _) (n := k)
    (by simp [ofFn]) (by simp [ofFn]), ?_⟩
  exact cell_ofFn _ _ _ hi hj

/-- C6, at the matrix `[[1, 2], [3, 4]]`. -/
theorem C6_CalcComplements_contract_witness :
    exampleA.valid ∧ exampleA.rows_ = exampleA.cols_ ∧ 2 ≤ exampleA.rows_ ∧
      ∃ C, exampleA.CalcComplements = Outcome.ok C ∧ C.valid ∧ C.rows_ = exampleA.rows_ ∧
        C.cols_ = exampleA.cols_ ∧
        ∀ i j, i < exampleA.rows_.toNat → j < exampleA.cols_.toNat →
          ∃ M d, exampleA.getMatrixMinor i j = Outcome.ok M ∧
            M.Determinant = Outcome.ok d ∧ C.cell i j = (-1 : ℚ) ^ (i + j) * d :=
  ⟨by decide, by decide, by decide,
    (C6_CalcComplements_contract exampleA (by decide)).2.2 (by decide) (by decide)⟩

/-- C7: for valid matrices `A` (`r x c`) and `B` (`p x q`), `MulMatrix` throws
the size-mismatch error exactly when `c` differs from `p`; when they agree it
returns and leaves `A` a valid `r x q` matrix whose element `(i, j)` is the
sum over `k < c` of `A_old[i][k] * B[k][j]`. `[[1, 2], [3, 4]]` times
`[[5, 6], [7, 8]]` is `[[19, 22], [43, 50]]`, and a `2 x 3` matrix times a
`4 x 2` matrix throws the size-mismatch error. -/
theorem C7_MulMatrix_contract (A B : S21Matrix) (hvA : A.valid) (hvB : B.valid) :
    ((MulMatrix B A).result = Outcome.thrown (Exception.logic_error Code.CODE_MISTMATCH_SIZE) ↔
        A.cols_ ≠ B.rows_) ∧
    (A.cols_ = B.rows_ →
      (MulMatrix B A).result = Outcome.ok () ∧ (MulMatrix B A).self.valid ∧
      (MulMatrix B A).self.rows_ = A.rows_ ∧ (MulMatrix B A).self.cols_ = B.cols_ ∧
      ∀ i j, i < A.rows_.toNat → j < B.cols_.toNat →
        (MulMatrix B A).self.cell i j =
          ∑ k ∈ Finset.range A.cols_.toNat, A.cell i k * B.cell k j) ∧
    MulMatrix exampleB exampleA = ⟨exampleAB, Outcome.ok ()⟩ ∧
    (∀ X Y : S21Matrix, X.rows_ = 2 → X.cols_ = 3 → Y.rows_ = 4 → Y.cols_ = 2 →
      (MulMatrix Y X).result =
        Outcome.thrown (Exception.logic_error Code.CODE_MISTMATCH_SIZE)) := by
  refine ⟨⟨?_, ?_⟩, ?_, by decide!, ?_⟩
  · intro h heq
    rw [MulMatrix_ok hvA hvB.2.1 heq] at h
    cases h
  · intro h
    rw [MulMatrix_mismatch h]
  · intro heq
    rw [MulMatrix_ok hvA hvB.2.1 heq]
    refine ⟨rfl, valid_ofFn (by have := hvA.1; omega) (by have := hvB.2.1; omega) _,
      valid_rows_toNat hvA, valid_cols_toNat hvB, ?_⟩
    intro i j hi hj
    exact cell_ofFn _ _ _ hi hj
  · intro X Y h1 h2 h3 h4
    rw [MulMatrix_mismatch (by rw [h2, h3]; decide)]

/-- C7, at `[[1, 2], [3, 4]]` and `[[5, 6], [7, 8]]`. -/
theorem C7_MulMatrix_contract_witness :
    exampleA.valid ∧ exampleB.valid ∧ exampleA.cols_ = exampleB.rows_ ∧
      (MulMatrix exampleB exampleA).result = Outcome.ok () ∧
      (MulMatrix exampleB exampleA).self.valid ∧
      (MulMatrix exampleB exampleA).self.rows_ = exampleA.rows_ ∧
      (MulMatrix exampleB exampleA).self.cols_ = exampleB.cols_ ∧
      ∀ i j, i < exampleA.rows_.toNat → j < exampleB.cols_.toNat →
        (MulMatrix exampleB exampleA).self.cell i j =
          ∑ k ∈ Finset.range exampleA.cols_.toNat, exampleA.cell i k * exampleB.cell k j :=
  ⟨by decide, by decide, by decide,
    (C7_MulMatrix_contract exampleA exampleB (by decide) (by decide)).2.1 (by decide)⟩

/-- C8: for valid matrices `SumMatrix` and `SubMatrix` throw the
different-dimensions error exactly when the row counts or the column counts
differ; on equal sizes they return, `A` keeps its dimensions, and each element
`(i, j)` becomes `A_old[i][j] + B[i][j]`, respectively `A_old[i][j] - B[i][j]`. -/
theorem C8_SumMatrix_SubMatrix_contract (A B : S21Matrix) (hvA : A.valid) (_hvB : B.valid) :
    ((SumMatrix B A).result =
        Outcome.thrown (Exception.logic_error Code.CODE_DIFF_DIMENSIONS) ↔
      (A.rows_ ≠ B.rows_ ∨ A.cols_ ≠ B.cols_)) ∧
    ((SubMatrix B A).result =
        Outcome.thrown (Exception.logic_error Code.CODE_DIFF_DIMENSIONS) ↔
      (A.rows_ ≠ B.rows_ ∨ A.cols_ ≠ B.cols_)) ∧
    (A.rows_ = B.rows_ → A.cols_ = B.cols_ →
      ((SumMatrix B A).result = Outcome.ok () ∧ (SumMatrix B A).self.valid ∧
        (SumMatrix B A).self.rows_ = A.rows_ ∧ (SumMatrix B A).self.cols_ = A.cols_ ∧
        ∀ i j, i < A.rows_.toNat → j < A.cols_.toNat →
          (SumMatrix B A).self.cell i j = A.cell i j + B.cell i j) ∧
      ((SubMatrix B A).result = Outcome.ok () ∧ (SubMatrix B A).self.valid ∧
        (SubMatrix B A).self.rows_ = A.rows_ ∧ (SubMatrix B A).self.cols_ = A.cols_ ∧
        ∀ i j, i < A.rows_.toNat → j < A.cols_.toNat →
          (SubMatrix B A).self.cell i j = A.cell i j - B.cell i j)) := by
  have hthrow : ∀ op : ℚ → ℚ → ℚ,
      ((PerformMatrixOperation Code.CODE_DIFF_DIMENSIONS B op A).result =
        Outcome.thrown (Exception.logic_error Code.CODE_DIFF_DIMENSIONS) ↔
      (A.rows_ ≠ B.rows_ ∨ A.cols_ ≠ B.cols_)) := by
    intro op
    constructor
    · intro h
      by_contra hne
      have h1 : B.rows_ = A.rows_ := by
        by_contra h2
        exact hne (Or.inl (fun e => h2 e.symm))
      have h2 : B.cols_ = A.cols_ := by
        by_contra h3
        exact hne (Or.inr (fun e => h3 e.symm))
      rw [PerformMatrixOperation_ok hvA h1 h2] at h
      cases h
    · intro h
      rw [PerformMatrixOperation_mismatch]
      rintro ⟨h1, h2⟩
      rcases h with h | h
      · exact h h1.symm
      · exact h h2.symm
  have hok : ∀ op : ℚ → ℚ → ℚ, A.rows_ = B.rows_ → A.cols_ = B.cols_ →
      ((PerformMatrixOperation Code.CODE_DIFF_DIMENSIONS B op A).result = Outcome.ok () ∧
        (PerformMatrixOperation Code.CODE_DIFF_DIMENSIONS B op A).self.valid ∧
        (PerformMatrixOperation Code.CODE_DIFF_DIMENSIONS B op A).self.rows_ = A.rows_ ∧
        (PerformMatrixOperation Code.CODE_DIFF_DIMENSIONS B op A).self.cols_ = A.cols_ ∧
        ∀ i j, i < A.rows_.toNat → j < A.cols_.toNat →
          (PerformMatrixOperation Code.CODE_DIFF_DIMENSIONS B op A).self.cell i j =
            op (A.cell i j) (B.cell i j)) := by
    intro op h1 h2
    rw [PerformMatrixOperation_ok hvA h1.symm h2.symm]
    refine ⟨rfl, valid_ofFn (by have := hvA.1; omega) (by have := hvA.2.1; omega) _,
      valid_rows_toNat hvA, valid_cols_toNat hvA, ?_⟩
    intro i j hi hj
    exact cell_ofFn _ _ _ hi hj
  exact ⟨hthrow _, hthrow _, fun h1 h2 => ⟨hok _ h1 h2, hok _ h1 h2⟩⟩

/-- C8, at `[[1, 2], [3, 4]]` and `[[5, 6], [7, 8]]`. -/
theorem C8_SumMatrix_SubMatrix_contract_witness :
    exampleA.valid ∧ exampleB.valid ∧ exampleA.rows_ = exampleB.rows_ ∧
      exampleA.cols_ = exampleB.cols_ ∧
      ((SumMatrix exampleB exampleA).result = Outcome.ok () ∧
        (SumMatrix exampleB exampleA).self.valid ∧
        (SumMatrix exampleB exampleA).self.rows_ = exampleA.rows_ ∧
        (SumMatrix exampleB exampleA).self.cols_ = exampleA.cols_ ∧
        ∀ i j, i < exampleA.rows_.toNat → j < exampleA.cols_.toNat →
          (SumMatrix exampleB exampleA).self.cell i j =
            exampleA.cell i j + exampleB.cell i j) ∧
      ((SubMatrix exampleB exampleA).result = Outcome.ok () ∧
        (SubMatrix exampleB exampleA).self.valid ∧
        (SubMatrix exampleB exampleA).self.rows_ = exampleA.rows_ ∧
        (SubMatrix exampleB exampleA).self.cols_ = exampleA.cols_ ∧
        ∀ i j, i < exampleA.rows_.toNat → j < exampleA.cols_.toNat →
          (SubMatrix exampleB exampleA).self.cell i j =
            exampleA.cell i j - exampleB.cell i j) :=
  ⟨by decide, by decide, by decide, by decide,
    (C8_SumMatrix_SubMatrix_contract exampleA exampleB (by decide) (by decide)).2.2
      (by decide) (by decide)⟩

/-- C9: on every valid `r x c` matrix, square or not, `Transpose` returns a
valid `c x r` matrix whose element `(j, i)` is the element `(i, j)` of the
matrix; transposing the result gives back the matrix itself, dimensions and
elements, so `EqMatrix` accepts the two. -/
theorem C9_Transpose_involution (A : S21Matrix) (hv : A.valid) :
    ∃ T, A.Transpose = Outcome.ok T ∧ T.valid ∧ T.rows_ = A.cols_ ∧ T.cols_ = A.rows_ ∧
      (∀ i j, i < A.rows_.toNat → j < A.cols_.toNat → T.cell j i = A.cell i j) ∧
      ∃ TT, T.Transpose = Outcome.ok TT ∧ TT.rows_ = A.rows_ ∧ TT.cols_ = A.cols_ ∧
        (∀ i j, i < A.rows_.toNat → j < A.cols_.toNat → TT.cell i j = A.cell i j) ∧
        TT = A ∧ TT.EqMatrix A = true := by
  have hr := hv.1
  have hc := hv.2.1
  have hvT : (ofFn A.cols_.toNat A.rows_.toNat (fun j i => A.cell i j)).valid :=
    valid_ofFn (by omega) (by omega) _
  have hTT := Transpose_ok hvT
  simp only [ofFn_rows_toNat, ofFn_cols_toNat] at hTT
  have hback : ofFn A.rows_.toNat A.cols_.toNat
      (fun j i => (ofFn A.cols_.toNat A.rows_.toNat (fun j i => A.cell i j)).cell i j) = A := by
    symm
    apply eq_ofFn (valid_rows_toNat hv).symm (valid_cols_toNat hv).symm hv.2.2
    intro i j hi hj
    exact (cell_ofFn _ _ (fun j i => A.cell i j) hj hi).symm
  refine ⟨_, Transpose_ok hv, hvT, valid_cols_toNat hv, valid_rows_toNat hv, ?_, ?_⟩
  · intro i j hi hj
    exact cell_ofFn _ _ _ hj hi
  · refine ⟨_, hTT, ?_⟩
    rw [hback]
    exact ⟨rfl, rfl, fun _ _ _ _ => rfl, rfl, EqMatrix_self A⟩

/-- C9, at a `2 x 3` matrix. -/
theorem C9_Transpose_involution_witness :
    example23.valid ∧
      ∃ T, example23.Transpose = Outcome.ok T ∧ T.valid ∧ T.rows_ = example23.cols_ ∧
        T.cols_ = example23.rows_ ∧
        (∀ i j, i < example23.rows_.toNat → j < example23.cols_.toNat →
          T.cell j i = example23.cell i j) ∧
        ∃ TT, T.Transpose = Outcome.ok TT ∧ TT.rows_ = example23.rows_ ∧
          TT.cols_ = example23.cols_ ∧
          (∀ i j, i < example23.rows_.toNat → j < example23.cols_.toNat →
            TT.cell i j = example23.cell i j) ∧
          TT = example23 ∧ TT.EqMatrix example23 = true :=
  ⟨by decide, C9_Transpose_involution example23 (by decide)⟩

/-- C10: for a valid `r x c` matrix and `n > 0`, `setRows_(n)` returns and
leaves a valid `n x c` matrix whose element `(i, j)` is the old one when
`i < r` and 0 otherwise, and `setCols_(n)` returns and leaves a valid `r x n`
matrix whose element `(i, j)` is the old one when `j < c` and 0 otherwise. -/
theorem C10_setRows_setCols_resize (M : S21Matrix) (hv : M.valid) (n : Int) (hn : 0 < n) :
    ((setRows_ n M).result = Outcome.ok () ∧ (setRows_ n M).self.valid ∧
      (setRows_ n M).self.rows_ = n ∧ (setRows_ n M).self.cols_ = M.cols_ ∧
      ∀ i j, i < n.toNat → j < M.cols_.toNat →
        (setRows_ n M).self.cell i j = if i < M.rows_.toNat then M.cell i j else 0) ∧
    ((setCols_ n M).result = Outcome.ok () ∧ (setCols_ n M).self.valid ∧
      (setCols_ n M).self.rows_ = M.rows_ ∧ (setCols_ n M).self.cols_ = n ∧
      ∀ i j, i < M.rows_.toNat → j < n.toNat →
        (setCols_ n M).self.cell i j = if j < M.cols_.toNat then M.cell i j else 0) := by
  have hr := hv.1
  have hc := hv.2.1
  rw [setRows__ok hv hn, setCols__ok hv hn]
  refine ⟨⟨rfl, valid_ofFn (by omega) (by omega) _, Int.toNat_of_nonneg (le_of_lt hn),
    valid_cols_toNat hv, ?_⟩, ⟨rfl, valid_ofFn (by omega) (by omega) _, valid_rows_toNat hv,
    Int.toNat_of_nonneg (le_of_lt hn), ?_⟩⟩
  · intro i j hi hj
    exact cell_ofFn _ _ _ hi hj
  · intro i j hi hj
    exact cell_ofFn _ _ _ hi hj

/-- C10, at `[[1, 2], [3, 4]]` resized to 3 rows, respectively 3 columns. -/
theorem C10_setRows_setCols_resize_witness :
    exampleA.valid ∧ (0 : Int) < 3 ∧
      ((setRows_ 3 exampleA).result = Outcome.ok () ∧ (setRows_ 3 exampleA).self.valid ∧
        (setRows_ 3 exampleA).self.rows_ = 3 ∧
        (setRows_ 3 exampleA).self.cols_ = exampleA.cols_ ∧
        ∀ i j, i < (3 : Int).toNat → j < exampleA.cols_.toNat →
          (setRows_ 3 exampleA).self.cell i j =
            if i < exampleA.rows_.toNat then exampleA.cell i j else 0) ∧
      ((setCols_ 3 exampleA).result = Outcome.ok () ∧ (setCols_ 3 exampleA).self.valid ∧
        (setCols_ 3 exampleA).self.rows_ = exampleA.rows_ ∧
        (setCols_ 3 exampleA).self.cols_ = 3 ∧
        ∀ i j, i < exampleA.rows_.toNat → j < (3 : Int).toNat →
          (setCols_ 3 exampleA).self.cell i j =
            if j < exampleA.cols_.toNat then exampleA.cell i j else 0) :=
  ⟨by decide, by decide, C10_setRows_setCols_resize exampleA (by decide) 3 (by decide)⟩

/-! ## Failing checks -/

theorem setRows__thrown (m : S21Matrix) {n : Int} (hn : n ≤ 0) :
    setRows_ n m = ⟨m, Outcome.thrown (Exception.invalid_argument Code.CODE_SET_ROWS)⟩ := by
  simp [setRows_, hn, errors_, Code.toInt, INV_ARG, Method.bind]

theorem setCols__thrown (m : S21Matrix) {n : Int} (hn : n ≤ 0) :
    setCols_ n m = ⟨m, Outcome.thrown (Exception.invalid_argument Code.CODE_SET_COLS)⟩ := by
  simp [setCols_, hn, errors_, Code.toInt, INV_ARG, Method.bind]

theorem checkIndex_iff (m : S21Matrix) (i j : Int) :
    m.checkIndex i j = true ↔ (0 ≤ i ∧ i < m.rows_) ∧ (0 ≤ j ∧ j < m.cols_) := by
  simp [checkIndex]

theorem operator_call_in_range {m : S21Matrix} {i j : Int}
    (h : (0 ≤ i ∧ i < m.rows_) ∧ (0 ≤ j ∧ j < m.cols_)) :
    m.operator_call i j = Outcome.ok (i.toNat, j.toNat) := by
  simp [operator_call, (checkIndex_iff m i j).mpr h]

theorem operator_call_out_of_range {m : S21Matrix} {i j : Int}
    (h : ¬ ((0 ≤ i ∧ i < m.rows_) ∧ (0 ≤ j ∧ j < m.cols_))) :
    m.operator_call i j =
      Outcome.thrown (Exception.invalid_argument Code.CODE_INDEX_OUT_OF_RANGE) := by
  have hc : m.checkIndex i j = false := by
    rw [← Bool.not_eq_true, checkIndex_iff]
    exact h
  simp [operator_call, hc, errors_, Code.toInt, INV_ARG]

theorem operator_call_const_in_range {m : S21Matrix} {i j : Int}
    (h : (0 ≤ i ∧ i < m.rows_) ∧ (0 ≤ j ∧ j < m.cols_)) :
    m.operator_call_const i j = Outcome.ok (m.cell i.toNat j.toNat) := by
  simp [operator_call_const, (checkIndex_iff m i j).mpr h]

theorem operator_call_const_out_of_range {m : S21Matrix} {i j : Int}
    (h : ¬ ((0 ≤ i ∧ i < m.rows_) ∧ (0 ≤ j ∧ j < m.cols_))) :
    m.operator_call_const i j =
      Outcome.thrown (Exception.invalid_argument Code.CODE_INDEX_OUT_OF_RANGE) := by
  have hc : m.checkIndex i j = false := by
    rw [← Bool.not_eq_true, checkIndex_iff]
    exact h
  simp [operator_call_const, hc, errors_, Code.toInt, INV_ARG]

theorem setMatrixValue_in_range {m : S21Matrix} {i j : Int}
    (h : (0 ≤ i ∧ i < m.rows_) ∧ (0 ≤ j ∧ j < m.cols_)) (v : ℚ) :
    setMatrixValue i j v m = ⟨m.assign i.toNat j.toNat v, Outcome.ok ()⟩ := by
  simp [setMatrixValue, operator_call_in_range h]

theorem setMatrixValue_out_of_range {m : S21Matrix} {i j : Int}
    (h : ¬ ((0 ≤ i ∧ i < m.rows_) ∧ (0 ≤ j ∧ j < m.cols_))) (v : ℚ) :
    setMatrixValue i j v m =
      ⟨m, Outcome.thrown (Exception.invalid_argument Code.CODE_INDEX_OUT_OF_RANGE)⟩ := by
  simp [setMatrixValue, operator_call_out_of_range h]

/-! ## The bulk assignment -/

/-- A loop of a member function that only replaces `*this` and its local
variables runs as the loop over the pair of the object and the variables. -/
theorem loopUpToM_of_loopUpTo_pair {σ : Type} (bodyM : Nat → σ → Method σ)
    (bodyO : Nat → S21Matrix × σ → Outcome (S21Matrix × σ)) (n : Nat)
    (h : ∀ i, i < n → ∀ t u, bodyO i t = Outcome.ok u → bodyM i t.2 t.1 = ⟨u.1, Outcome.ok u.2⟩)
    (s u : S21Matrix × σ) (hs : loopUpTo bodyO n s = Outcome.ok u) :
    loopUpToM bodyM n s.2 s.1 = ⟨u.1, Outcome.ok u.2⟩ := by
  induction n generalizing u with
  | zero =>
    simp only [loopUpTo, Outcome.ok.injEq] at hs
    subst hs
    rfl
  | succ k ih =>
    simp only [loopUpTo] at hs
    obtain ⟨t, ht, hu⟩ := Outcome.bind_eq_ok.mp hs
    have h1 := ih (fun i hi => h i (by omega)) t ht
    simp only [loopUpToM]
    rw [Method.bind_apply_ok h1]
    exact h k (by omega) t u hu

/-- The loops of the bulk `setMatrixValue`: the matrix is filled row by row
from the sequence. -/
theorem setMatrixValue_values_loop (values : List ℚ) (m : S21Matrix) {R C : Nat}
    (hs : Shaped m.matrix_ R C) :
    loopUpToM (fun i s1 => loopUpToM (fun j (count : Nat) => do
        let cur ← getThis
        setThis (cur.assign i j (values.getD count 0))
        pure (count + 1)) C s1) R 0 m =
      ⟨{ rows_ := m.rows_, cols_ := m.cols_,
         matrix_ := (ofFn R C (fun i j => values.getD (i * C + j) 0)).matrix_ },
        Outcome.ok (R * C)⟩ := by
  obtain ⟨⟨t, cnt⟩, ht, h1, h2, h3, h4, h5⟩ := doubleLoop_inv
    (fun i j (st : S21Matrix × Nat) =>
      (Outcome.ok (st.1.assign i j (values.getD st.2 0), st.2 + 1) :
        Outcome (S21Matrix × Nat)))
    (fun i j st => st.2 = i * C + j ∧ st.1.rows_ = m.rows_ ∧ st.1.cols_ = m.cols_ ∧
      Shaped st.1.matrix_ R C ∧
      ∀ a b, (a < i ∧ b < C) ∨ (a = i ∧ b < j) → st.1.cell a b = values.getD (a * C + b) 0)
    R C (m, 0)
    (by
      refine ⟨by simp, rfl, rfl, hs, ?_⟩
      intro a b hab
      omega)
    (by
      rintro i _ ⟨t, cnt⟩ ⟨h1, h2, h3, h4, h5⟩
      refine ⟨?_, h2, h3, h4, ?_⟩
      · simp only at h1 ⊢
        rw [h1, Nat.succ_mul]
        omega
      · intro a b hab
        exact h5 a b (by omega))
    (by
      rintro i j hi hj ⟨t, cnt⟩ ⟨h1, h2, h3, h4, h5⟩
      simp only at h1 h2 h3 h4 h5
      refine ⟨_, rfl, ?_, h2, h3, assign_shaped h4 _ _ _, ?_⟩
      · simp only [h1]
        omega
      · intro a b hab
        simp only
        rw [cell_assign h4 hi hj]
        by_cases hij : a = i ∧ b = j
        · rw [if_pos hij, h1, hij.1, hij.2]
        · rw [if_neg hij]
          exact h5 a b (by omega))
  simp only at h1 h2 h3 h4 h5
  have hM := loopUpToM_of_loopUpTo_pair
    (fun i s1 => loopUpToM (fun j (count : Nat) => do
        let cur ← getThis
        setThis (cur.assign i j (values.getD count 0))
        pure (count + 1)) C s1)
    (fun i s1 => loopUpTo (fun j (st : S21Matrix × Nat) =>
      (Outcome.ok (st.1.assign i j (values.getD st.2 0), st.2 + 1) :
        Outcome (S21Matrix × Nat))) C s1) R
    (by
      intro i _ t u hu
      exact loopUpToM_of_loopUpTo_pair _ _ C
        (by
          intro j _ t2 u2 hu2
          simp only [Outcome.ok.injEq] at hu2
          subst hu2
          rfl) t u hu)
    (m, 0) (t, cnt) ht
  simp only at hM
  rw [hM]
  congr 1
  · obtain ⟨tr, tc, tst⟩ := t
    simp only at h2 h3 h4 h5
    subst h2 h3
    congr 1
    apply Shaped.ext h4 (Shaped.ofFn R C _)
    intro i j hi hj
    have h6 := h5 i j (Or.inl ⟨hi, hj⟩)
    have h7 := cell_ofFn R C (fun i j => values.getD (i * C + j) 0) hi hj
    simp only [S21Matrix.cell] at h6 h7
    rw [h6]
    exact h7.symm
  · rw [h1]
    simp

theorem setMatrixValue_values_thrown (values : List ℚ) (m : S21Matrix)
    (h : wrapInt (m.rows_ * m.cols_) ≠ wrapInt (values.length : Int)) :
    setMatrixValue_values values m =
      ⟨m, Outcome.thrown (Exception.logic_error Code.CODE_DIFF_DIMENSIONS)⟩ := by
  have he : errors_ Code.CODE_DIFF_DIMENSIONS =
      Outcome.thrown (Exception.logic_error Code.CODE_DIFF_DIMENSIONS) := rfl
  simp only [setMatrixValue_values, Method_bind_def, getThis_bind, ne_eq, h, not_false_eq_true,
    if_true, he, lift_thrown_bind]

/-- The bulk `setMatrixValue` on a valid matrix, once the check of the
length has passed. -/
theorem setMatrixValue_values_passed (values : List ℚ) {m : S21Matrix} (hv : m.valid)
    (h : wrapInt (m.rows_ * m.cols_) = wrapInt (values.length : Int)) :
    setMatrixValue_values values m =
      ⟨ofFn m.rows_.toNat m.cols_.toNat (fun i j => values.getD (i * m.cols_.toNat + j) 0),
        Outcome.ok ()⟩ := by
  have hloop := setMatrixValue_values_loop values m hv.2.2
  simp only [setMatrixValue_values, Method_bind_def, getThis_bind, h, ne_eq, not_true_eq_false,
    if_false, MATRIX_DOUBLE_LOOP_M, forLoopM] at hloop ⊢
  simp only [Method.bind, Method.pure_apply, hloop]
  congr 1
  simp only [ofFn, valid_rows_toNat hv, valid_cols_toNat hv]

/-! ## Sizes within an `int`, out-of-place sums -/

theorem wrapInt_of_small {x : Int} (h0 : 0 ≤ x) (h1 : x < 2147483648) : wrapInt x = x := by
  unfold wrapInt
  omega

/-- The bulk `setMatrixValue` while the number of elements and the length of
the sequence both fit an `int`: it throws exactly on a length that differs
from `rows_ * cols_`, and otherwise fills the matrix row by row. -/
theorem setMatrixValue_values_bounded (values : List ℚ) {m : S21Matrix} (hv : m.valid)
    (hsmall : m.rows_ * m.cols_ < 2147483648) (hlen : (values.length : Int) < 2147483648) :
    ((setMatrixValue_values values m).result =
        Outcome.thrown (Exception.logic_error Code.CODE_DIFF_DIMENSIONS) ↔
      (values.length : Int) ≠ m.rows_ * m.cols_) ∧
    ((values.length : Int) = m.rows_ * m.cols_ →
      setMatrixValue_values values m =
        ⟨ofFn m.rows_.toNat m.cols_.toNat (fun i j => values.getD (i * m.cols_.toNat + j) 0),
          Outcome.ok ()⟩) := by
  have hpos : 0 ≤ m.rows_ * m.cols_ := le_of_lt (mul_pos hv.1 hv.2.1)
  have h1 := wrapInt_of_small hpos hsmall
  have h2 := wrapInt_of_small (Int.ofNat_nonneg values.length) hlen
  constructor
  · constructor
    · intro h heq
      rw [setMatrixValue_values_passed values hv (by rw [h1, h2, heq])] at h
      cases h
    · intro hne
      rw [setMatrixValue_values_thrown values m (by rw [h1, h2]; exact fun e => hne e.symm)]
  · intro heq
    exact setMatrixValue_values_passed values hv (by rw [h1, h2, heq])

theorem operator_calculate_ok {A B P : S21Matrix} (hv : A.valid) (oper : S21Matrix → Method Unit)
    (h : oper B A = ⟨P, Outcome.ok ()⟩) : A.operator_calculate B oper = Outcome.ok P := by
  simp [operator_calculate, ctor_copy_ok hv, S21Matrix.run, h]

theorem operator_plus_ok {A B : S21Matrix} (hv : A.valid) (hr : B.rows_ = A.rows_)
    (hc : B.cols_ = A.cols_) :
    A.operator_plus B =
      Outcome.ok (ofFn A.rows_.toNat A.cols_.toNat (fun i j => A.cell i j + B.cell i j)) :=
  operator_calculate_ok hv SumMatrix (PerformMatrixOperation_ok hv hr hc _)

theorem operator_minus_ok {A B : S21Matrix} (hv : A.valid) (hr : B.rows_ = A.rows_)
    (hc : B.cols_ = A.cols_) :
    A.operator_minus B =
      Outcome.ok (ofFn A.rows_.toNat A.cols_.toNat (fun i j => A.cell i j - B.cell i j)) :=
  operator_calculate_ok hv SubMatrix (PerformMatrixOperation_ok hv hr hc _)

/-! ## The claims on failures, element access and sums -/

/-- C11: on a valid matrix and for every integer `n`, `setRows_(n)` fails
exactly when `n <= 0`, and then it throws the invalid-row-size error
(`std::invalid_argument` carrying `CODE_SET_ROWS`); `setCols_(n)` fails exactly
when `n <= 0`, and then it throws the invalid-column-size error
(`CODE_SET_COLS`). -/
theorem C11_setRows_setCols_fail_iff_nonpositive (M : S21Matrix) (hv : M.valid) (n : Int) :
    ((setRows_ n M).result ≠ Outcome.ok () ↔ n ≤ 0) ∧
    (n ≤ 0 → (setRows_ n M).result =
      Outcome.thrown (Exception.invalid_argument Code.CODE_SET_ROWS)) ∧
    ((setCols_ n M).result ≠ Outcome.ok () ↔ n ≤ 0) ∧
    (n ≤ 0 → (setCols_ n M).result =
      Outcome.thrown (Exception.invalid_argument Code.CODE_SET_COLS)) := by
  refine ⟨⟨?_, ?_⟩, ?_, ⟨?_, ?_⟩, ?_⟩
  · intro h
    by_contra hn
    exact h (by rw [setRows__ok hv (not_le.mp hn)])
  · intro hn
    rw [setRows__thrown M hn]
    simp
  · intro hn
    rw [setRows__thrown M hn]
  · intro h
    by_contra hn
    exact h (by rw [setCols__ok hv (not_le.mp hn)])
  · intro hn
    rw [setCols__thrown M hn]
    simp
  · intro hn
    rw [setCols__thrown M hn]

/-- C11, at `[[1, 2], [3, 4]]` and `n = 0`, where both calls fail. -/
theorem C11_setRows_setCols_fail_iff_nonpositive_witness :
    exampleA.valid ∧
      ((setRows_ 0 exampleA).result ≠ Outcome.ok () ↔ (0 : Int) ≤ 0) ∧
      ((0 : Int) ≤ 0 → (setRows_ 0 exampleA).result =
        Outcome.thrown (Exception.invalid_argument Code.CODE_SET_ROWS)) ∧
      ((setCols_ 0 exampleA).result ≠ Outcome.ok () ↔ (0 : Int) ≤ 0) ∧
      ((0 : Int) ≤ 0 → (setCols_ 0 exampleA).result =
        Outcome.thrown (Exception.invalid_argument Code.CODE_SET_COLS)) :=
  ⟨by decide, C11_setRows_setCols_fail_iff_nonpositive exampleA (by decide) 0⟩

/-- On matrices of numbers taken exactly, `EqMatrix` (and `operator==`, which is
`EqMatrix`) returns false when the row counts or the column counts differ, and
on equal sizes it returns true exactly when every pair of corresponding
elements differs by at most `1e-7` in absolute value. -/
theorem EqMatrix_numbers_within_tolerance (A B : S21Matrix) (_hvA : A.valid) (_hvB : B.valid) :
    A.operator_eq B = A.EqMatrix B ∧
    ((A.rows_ ≠ B.rows_ ∨ A.cols_ ≠ B.cols_) → A.EqMatrix B = false) ∧
    (A.rows_ = B.rows_ → A.cols_ = B.cols_ →
      (A.EqMatrix B = true ↔
        ∀ i j, i < A.rows_.toNat → j < A.cols_.toNat →
          |A.cell i j - B.cell i j| ≤ 1 / 10000000)) := by
  refine ⟨rfl, ?_, ?_⟩
  · intro h
    rw [← Bool.not_eq_true, EqMatrix_iff]
    rintro ⟨h1, h2, _⟩
    rcases h with h | h
    · exact h h1
    · exact h h2
  · intro h1 h2
    rw [EqMatrix_iff]
    constructor
    · rintro ⟨_, _, h3⟩
      exact h3
    · intro h3
      exact ⟨h1, h2, h3⟩

/-- C13: on a valid `r x c` matrix and for all integers `i`, `j`, the mutable
`operator()`, the constant `operator()` and `getMatrixValue` throw the
index-out-of-range error exactly when `0 <= i < r` and `0 <= j < c` fails, and
otherwise return the element at row `i`, column `j` (the mutable form returns
the reference to it). Index `(5, 0)` on a `3 x 3` matrix throws the
index-out-of-range error. -/
theorem C13_element_access_bounds (M : S21Matrix) (_hv : M.valid) (i j : Int) :
    (M.operator_call i j =
        Outcome.thrown (Exception.invalid_argument Code.CODE_INDEX_OUT_OF_RANGE) ↔
      ¬ ((0 ≤ i ∧ i < M.rows_) ∧ (0 ≤ j ∧ j < M.cols_))) ∧
    (M.operator_call_const i j =
        Outcome.thrown (Exception.invalid_argument Code.CODE_INDEX_OUT_OF_RANGE) ↔
      ¬ ((0 ≤ i ∧ i < M.rows_) ∧ (0 ≤ j ∧ j < M.cols_))) ∧
    (M.getMatrixValue i j =
        Outcome.thrown (Exception.invalid_argument Code.CODE_INDEX_OUT_OF_RANGE) ↔
      ¬ ((0 ≤ i ∧ i < M.rows_) ∧ (0 ≤ j ∧ j < M.cols_))) ∧
    ((0 ≤ i ∧ i < M.rows_) ∧ (0 ≤ j ∧ j < M.cols_) →
      M.operator_call i j = Outcome.ok (i.toNat, j.toNat) ∧
      M.operator_call_const i j = Outcome.ok (M.cell i.toNat j.toNat) ∧
      M.getMatrixValue i j = Outcome.ok (M.cell i.toNat j.toNat)) ∧
    example33.operator_call 5 0 =
      Outcome.thrown (Exception.invalid_argument Code.CODE_INDEX_OUT_OF_RANGE) ∧
    example33.operator_call_const 5 0 =
      Outcome.thrown (Exception.invalid_argument Code.CODE_INDEX_OUT_OF_RANGE) := by
  have hget_in : (0 ≤ i ∧ i < M.rows_) ∧ (0 ≤ j ∧ j < M.cols_) →
      M.getMatrixValue i j = Outcome.ok (M.cell i.toNat j.toNat) := by
    intro h
    simp [getMatrixValue, operator_call_in_range h]
  have hget_out : ¬ ((0 ≤ i ∧ i < M.rows_) ∧ (0 ≤ j ∧ j < M.cols_)) →
      M.getMatrixValue i j =
        Outcome.thrown (Exception.invalid_argument Code.CODE_INDEX_OUT_OF_RANGE) := by
    intro h
    simp [getMatrixValue, operator_call_out_of_range h]
  refine ⟨⟨?_, operator_call_out_of_range⟩, ⟨?_, operator_call_const_out_of_range⟩,
    ⟨?_, hget_out⟩, ?_, by decide, by decide!⟩
  · intro h hin
    rw [operator_call_in_range hin] at h
    cases h
  · intro h hin
    rw [operator_call_const_in_range hin] at h
    cases h
  · intro h hin
    rw [hget_in hin] at h
    cases h
  · intro hin
    exact ⟨operator_call_in_range hin, operator_call_const_in_range hin, hget_in hin⟩

/-- C13, at the `3 x 3` zero matrix and the index `(5, 0)`. -/
theorem C13_element_access_bounds_witness :
    example33.valid ∧
      ¬ (((0 : Int) ≤ 5 ∧ (5 : Int) < example33.rows_) ∧
        ((0 : Int) ≤ 0 ∧ (0 : Int) < example33.cols_)) ∧
      example33.getMatrixValue 5 0 =
        Outcome.thrown (Exception.invalid_argument Code.CODE_INDEX_OUT_OF_RANGE) :=
  ⟨by decide, by decide,
    (C13_element_access_bounds example33 (by decide) 5 0).2.2.1.mpr (by decide)⟩

/-- C15: the sized constructor throws the incorrect-size error exactly when
`rows <= 0` or `cols <= 0`; on positive dimensions it builds a valid matrix
for which `getRows_` returns `rows`, `getCols_` returns `cols` and every
element is 0. The default constructor is the case `rows = cols = 3`. -/
theorem C15_constructor_zero_matrix (rows cols : Int) :
    (ctor rows cols = Outcome.thrown (Exception.invalid_argument Code.CODE_INCORRECT_SIZE) ↔
      (rows ≤ 0 ∨ cols ≤ 0)) ∧
    ((∃ e, ctor rows cols = Outcome.thrown e) ↔ (rows ≤ 0 ∨ cols ≤ 0)) ∧
    (0 < rows → 0 < cols →
      ∃ M, ctor rows cols = Outcome.ok M ∧ M.valid ∧ M.getRows_ = rows ∧ M.getCols_ = cols ∧
        ∀ i j, i < rows.toNat → j < cols.toNat → M.cell i j = 0) ∧
    ctor_default = ctor 3 3 ∧ ctor_default = Outcome.ok example33 := by
  have hbad : (rows ≤ 0 ∨ cols ≤ 0) → ctor rows cols =
      Outcome.thrown (Exception.invalid_argument Code.CODE_INCORRECT_SIZE) := by
    intro h
    exact ctor_thrown (by omega)
  refine ⟨⟨?_, hbad⟩, ⟨?_, fun h => ⟨_, hbad h⟩⟩, ?_, rfl, by decide⟩
  · intro h
    by_contra hn
    rw [ctor_ok (by omega) (by omega)] at h
    cases h
  · rintro ⟨e, h⟩
    by_contra hn
    rw [ctor_ok (by omega) (by omega)] at h
    cases h
  · intro hr hc
    refine ⟨_, ctor_ok hr hc, valid_ofFn (by omega) (by omega) _,
      Int.toNat_of_nonneg (le_of_lt hr), Int.toNat_of_nonneg (le_of_lt hc), ?_⟩
    intro i j hi hj
    exact cell_ofFn _ _ _ hi hj

/-- C14 fails on the code at a sequence longer than an `int` can count: the
`1 x 1` matrix `[[0]]` is valid and the sequence of `4294967297` values 7 has a
length other than `1 * 1`, yet the bulk `setMatrixValue` throws nothing, returns
and leaves the matrix `[[7]]`, because the check compares `rows_ * cols_` with
the length cast to `int`, which is 1. -/
theorem C14_bulk_setMatrixValue_truncates_length :
    exampleOne.valid ∧
      ((List.replicate 4294967297 (7 : ℚ)).length : Int) ≠ exampleOne.rows_ * exampleOne.cols_ ∧
      setMatrixValue_values (List.replicate 4294967297 (7 : ℚ)) exampleOne =
        ⟨{ rows_ := 1, cols_ := 1, matrix_ := [[7]] }, Outcome.ok ()⟩ := by
  have hlen : (List.replicate 4294967297 (7 : ℚ)).length = 4294967297 :=
    List.length_replicate _ _
  have hget : (List.replicate 4294967297 (7 : ℚ))[0]?.getD 0 = 7 := by
    rw [List.getElem?_replicate_of_lt (by decide)]
    rfl
  generalize List.replicate 4294967297 (7 : ℚ) = L at hlen hget
  refine ⟨by decide, ?_, ?_⟩
  · rw [hlen]
    decide
  · rw [setMatrixValue_values_passed L (by decide) (by rw [hlen]; decide)]
    simp only [exampleOne, ofFn, Int.toNat_one, List.range_succ, List.range_zero, List.nil_append,
      List.map_cons, List.map_nil, Nat.zero_mul, Nat.zero_add, List.getD_eq_getElem?_getD, hget]
    rfl

/-- C16: when a mutating call on a valid matrix throws the error of its
precondition check (`SumMatrix` or `SubMatrix` the different-dimensions error,
`MulMatrix` the size-mismatch error, `setRows_` the invalid-row-size error,
`setCols_` the invalid-column-size error, the bulk `setMatrixValue` the
different-dimensions error, `setMatrixValue(i, j, v)` the index-out-of-range
error), the object after the call is the object before it: same row count,
same column count, same elements. -/
theorem C16_failed_check_leaves_matrix_unchanged (A B : S21Matrix) (hvA : A.valid)
    (hvB : B.valid) (n : Int) (values : List ℚ) (i j : Int) (v : ℚ) :
    ((SumMatrix B A).result = Outcome.thrown (Exception.logic_error Code.CODE_DIFF_DIMENSIONS) →
      (SumMatrix B A).self = A) ∧
    ((SubMatrix B A).result = Outcome.thrown (Exception.logic_error Code.CODE_DIFF_DIMENSIONS) →
      (SubMatrix B A).self = A) ∧
    ((MulMatrix B A).result = Outcome.thrown (Exception.logic_error Code.CODE_MISTMATCH_SIZE) →
      (MulMatrix B A).self = A) ∧
    ((setRows_ n A).result = Outcome.thrown (Exception.invalid_argument Code.CODE_SET_ROWS) →
      (setRows_ n A).self = A) ∧
    ((setCols_ n A).result = Outcome.thrown (Exception.invalid_argument Code.CODE_SET_COLS) →
      (setCols_ n A).self = A) ∧
    ((setMatrixValue_values values A).result =
        Outcome.thrown (Exception.logic_error Code.CODE_DIFF_DIMENSIONS) →
      (setMatrixValue_values values A).self = A) ∧
    ((setMatrixValue i j v A).result =
        Outcome.thrown (Exception.invalid_argument Code.CODE_INDEX_OUT_OF_RANGE) →
      (setMatrixValue i j v A).self = A) := by
  have hperform : ∀ op : ℚ → ℚ → ℚ,
      (PerformMatrixOperation Code.CODE_DIFF_DIMENSIONS B op A).result =
        Outcome.thrown (Exception.logic_error Code.CODE_DIFF_DIMENSIONS) →
      (PerformMatrixOperation Code.CODE_DIFF_DIMENSIONS B op A).self = A := by
    intro op h
    by_cases hsz : B.rows_ = A.rows_ ∧ B.cols_ = A.cols_
    · rw [PerformMatrixOperation_ok hvA hsz.1 hsz.2] at h
      cases h
    · rw [PerformMatrixOperation_mismatch hsz]
  refine ⟨hperform _, hperform _, ?_, ?_, ?_, ?_, ?_⟩
  · intro h
    by_cases hsz : A.cols_ = B.rows_
    · rw [MulMatrix_ok hvA hvB.2.1 hsz] at h
      cases h
    · rw [MulMatrix_mismatch hsz]
  · intro h
    by_cases hn : n ≤ 0
    · rw [setRows__thrown A hn]
    · rw [setRows__ok hvA (not_le.mp hn)] at h
      cases h
  · intro h
    by_cases hn : n ≤ 0
    · rw [setCols__thrown A hn]
    · rw [setCols__ok hvA (not_le.mp hn)] at h
      cases h
  · intro h
    by_cases hw : wrapInt (A.rows_ * A.cols_) = wrapInt (values.length : Int)
    · rw [setMatrixValue_values_passed values hvA hw] at h
      cases h
    · rw [setMatrixValue_values_thrown values A hw]
  · intro h
    by_cases hin : (0 ≤ i ∧ i < A.rows_) ∧ (0 ≤ j ∧ j < A.cols_)
    · rw [setMatrixValue_in_range hin] at h
      cases h
    · rw [setMatrixValue_out_of_range hin]

/-- C16, at `[[1, 2], [3, 4]]` with a `2 x 3` operand, the size 0, the empty
sequence and the index `(5, 0)`: every one of the calls throws the error of its
check and leaves the matrix as it was. -/
theorem C16_failed_check_leaves_matrix_unchanged_witness :
    exampleA.valid ∧ example23.valid ∧
      ((SumMatrix example23 exampleA).result =
          Outcome.thrown (Exception.logic_error Code.CODE_DIFF_DIMENSIONS) ∧
        (SumMatrix example23 exampleA).self = exampleA) ∧
      ((SubMatrix example23 exampleA).result =
          Outcome.thrown (Exception.logic_error Code.CODE_DIFF_DIMENSIONS) ∧
        (SubMatrix example23 exampleA).self = exampleA) ∧
      ((MulMatrix example33 exampleA).result =
          Outcome.thrown (Exception.logic_error Code.CODE_MISTMATCH_SIZE) ∧
        (MulMatrix example33 exampleA).self = exampleA) ∧
      ((setRows_ 0 exampleA).result =
          Outcome.thrown (Exception.invalid_argument Code.CODE_SET_ROWS) ∧
        (setRows_ 0 exampleA).self = exampleA) ∧
      ((setCols_ 0 exampleA).result =
          Outcome.thrown (Exception.invalid_argument Code.CODE_SET_COLS) ∧
        (setCols_ 0 exampleA).self = exampleA) ∧
      ((setMatrixValue_values [] exampleA).result =
          Outcome.thrown (Exception.logic_error Code.CODE_DIFF_DIMENSIONS) ∧
        (setMatrixValue_values [] exampleA).self = exampleA) ∧
      ((setMatrixValue 5 0 1 exampleA).result =
          Outcome.thrown (Exception.invalid_argument Code.CODE_INDEX_OUT_OF_RANGE) ∧
        (setMatrixValue 5 0 1 exampleA).self = exampleA) :=
  ⟨by decide, by decide,
    ⟨by decide!, (C16_failed_check_leaves_matrix_unchanged exampleA example23 (by decide)
      (by decide) 0 [] 5 0 1).1 (by decide!)⟩,
    ⟨by decide!, (C16_failed_check_leaves_matrix_unchanged exampleA example23 (by decide)
      (by decide) 0 [] 5 0 1).2.1 (by decide!)⟩,
    ⟨by decide!, (C16_failed_check_leaves_matrix_unchanged exampleA example33 (by decide)
      (by decide) 0 [] 5 0 1).2.2.1 (by decide!)⟩,
    ⟨by decide!, (C16_failed_check_leaves_matrix_unchanged exampleA example23 (by decide)
      (by decide) 0 [] 5 0 1).2.2.2.1 (by decide!)⟩,
    ⟨by decide!, (C16_failed_check_leaves_matrix_unchanged exampleA example23 (by decide)
      (by decide) 0 [] 5 0 1).2.2.2.2.1 (by decide!)⟩,
    ⟨by decide!, (C16_failed_check_leaves_matrix_unchanged exampleA example23 (by decide)
      (by decide) 0 [] 5 0 1).2.2.2.2.2.1 (by decide!)⟩,
    ⟨by decide!, (C16_failed_check_leaves_matrix_unchanged exampleA example23 (by decide)
      (by decide) 0 [] 5 0 1).2.2.2.2.2.2 (by decide!)⟩⟩

/-- C17: for valid matrices of equal dimensions, over exact arithmetic, the
out-of-place `(A + B) - B` returns a matrix that `operator==` accepts as equal
to `A`: every element differs from that of `A` by at most `1e-7` (indeed the
result is `A` itself). -/
theorem C17_plus_then_minus_is_identity (A B : S21Matrix) (hvA : A.valid) (_hvB : B.valid)
    (hr : A.rows_ = B.rows_) (hc : A.cols_ = B.cols_) :
    ∃ S D, A.operator_plus B = Outcome.ok S ∧ S.operator_minus B = Outcome.ok D ∧
      D.operator_eq A = true ∧
      (∀ i j, i < A.rows_.toNat → j < A.cols_.toNat →
        |D.cell i j - A.cell i j| ≤ 1 / 10000000) ∧
      D = A := by
  have hA1 := hvA.1
  have hA2 := hvA.2.1
  have hvS : (ofFn A.rows_.toNat A.cols_.toNat (fun i j => A.cell i j + B.cell i j)).valid :=
    valid_ofFn (by omega) (by omega) _
  have hminus := operator_minus_ok (B := B) hvS
    (by rw [ofFn_rows, valid_rows_toNat hvA, hr]) (by rw [ofFn_cols, valid_cols_toNat hvA, hc])
  simp only [ofFn_rows_toNat, ofFn_cols_toNat] at hminus
  have hD : ofFn A.rows_.toNat A.cols_.toNat (fun i j =>
      (ofFn A.rows_.toNat A.cols_.toNat (fun i j => A.cell i j + B.cell i j)).cell i j -
        B.cell i j) = A := by
    symm
    apply eq_ofFn (valid_rows_toNat hvA).symm (valid_cols_toNat hvA).symm hvA.2.2
    intro i j hi hj
    rw [cell_ofFn _ _ _ hi hj]
    ring
  refine ⟨_, _, operator_plus_ok hvA hr.symm hc.symm, hminus, ?_⟩
  rw [hD]
  refine ⟨EqMatrix_self A, ?_, rfl⟩
  intro i j _ _
  simp

/-- C17, at `[[1, 2], [3, 4]]` and `[[5, 6], [7, 8]]`. -/
theorem C17_plus_then_minus_is_identity_witness :
    exampleA.valid ∧ exampleB.valid ∧ exampleA.rows_ = exampleB.rows_ ∧
      exampleA.cols_ = exampleB.cols_ ∧
      ∃ S D, exampleA.operator_plus exampleB = Outcome.ok S ∧
        S.operator_minus exampleB = Outcome.ok D ∧ D.operator_eq exampleA = true ∧
        (∀ i j, i < exampleA.rows_.toNat → j < exampleA.cols_.toNat →
          |D.cell i j - exampleA.cell i j| ≤ 1 / 10000000) ∧
        D = exampleA :=
  ⟨by decide, by decide, by decide, by decide,
    C17_plus_then_minus_is_identity exampleA exampleB (by decide) (by decide) (by decide)
      (by decide)⟩

/-- C18: for valid matrices of equal dimensions the out-of-place sums `A + B`
and `B + A` both return, and `operator==` accepts them as equal (over exact
arithmetic they are the same matrix). -/
theorem C18_plus_commutes (A B : S21Matrix) (hvA : A.valid) (hvB : B.valid)
    (hr : A.rows_ = B.rows_) (hc : A.cols_ = B.cols_) :
    ∃ S1 S2, A.operator_plus B = Outcome.ok S1 ∧ B.operator_plus A = Outcome.ok S2 ∧
      S1.operator_eq S2 = true ∧ S1 = S2 := by
  have h12 : ofFn A.rows_.toNat A.cols_.toNat (fun i j => A.cell i j + B.cell i j) =
      ofFn B.rows_.toNat B.cols_.toNat (fun i j => B.cell i j + A.cell i j) := by
    rw [← hr, ← hc]
    apply ofFn_congr
    intro i j _ _
    ring
  refine ⟨_, _, operator_plus_ok hvA hr.symm hc.symm, operator_plus_ok hvB hr hc, ?_, h12⟩
  rw [h12]
  exact EqMatrix_self _

/-- C18, at `[[1, 2], [3, 4]]` and `[[5, 6], [7, 8]]`. -/
theorem C18_plus_commutes_witness :
    exampleA.valid ∧ exampleB.valid ∧ exampleA.rows_ = exampleB.rows_ ∧
      exampleA.cols_ = exampleB.cols_ ∧
      exampleA.operator_plus exampleB = Outcome.ok exampleSum ∧
      ∃ S1 S2, exampleA.operator_plus exampleB = Outcome.ok S1 ∧
        exampleB.operator_plus exampleA = Outcome.ok S2 ∧ S1.operator_eq S2 = true ∧ S1 = S2 :=
  ⟨by decide, by decide, by decide, by decide, by decide!,
    C18_plus_commutes exampleA exampleB (by decide) (by decide) (by decide) (by decide)⟩

/-- C19 fails on the code: for every matrix and every index pair outside its
size both forms of `operator()` throw an object of class
`std::invalid_argument`, not of `std::out_of_range` as their comments
announce; so at the index `(5, 0)` of the `3 x 3` zero matrix. -/
theorem C19_operator_call_throws_invalid_argument :
    (∀ (M : S21Matrix) (i j : Int), ¬ ((0 ≤ i ∧ i < M.rows_) ∧ (0 ≤ j ∧ j < M.cols_)) →
      ∃ e, M.operator_call i j = Outcome.thrown e ∧ M.operator_call_const i j = Outcome.thrown e ∧
        e.stdClass = StdClass.invalid_argument ∧ e.stdClass ≠ StdClass.out_of_range) ∧
    example33.valid ∧
    ¬ (((0 : Int) ≤ 5 ∧ (5 : Int) < example33.rows_) ∧
      ((0 : Int) ≤ 0 ∧ (0 : Int) < example33.cols_)) ∧
    example33.operator_call 5 0 =
      Outcome.thrown (Exception.invalid_argument Code.CODE_INDEX_OUT_OF_RANGE) ∧
    example33.operator_call_const 5 0 =
      Outcome.thrown (Exception.invalid_argument Code.CODE_INDEX_OUT_OF_RANGE) ∧
    (Exception.invalid_argument Code.CODE_INDEX_OUT_OF_RANGE).stdClass ≠
      StdClass.out_of_range := by
  refine ⟨?_, by decide, by decide, by decide, by decide!, by decide⟩
  intro M i j h
  exact ⟨_, operator_call_out_of_range h, operator_call_const_out_of_range h, rfl, by decide⟩

/-- C20: `errors_` returns without throwing for `CODE_NO`; it throws an object
of class `std::logic_error` for exactly the codes 0 to 4 (different
dimensions, size mismatch, not square, zero determinant, too small for
complements) and of class `std::invalid_argument` for exactly the codes 5 to 8
(index out of range, incorrect size, invalid row size, invalid column size),
each carrying its code; so the class thrown for an index out of range differs
from the class thrown for different dimensions or a size mismatch. -/
theorem C20_errors_categories :
    errors_ Code.CODE_NO = Outcome.ok () ∧
    (∀ c : Code, errors_ c = Outcome.thrown (Exception.logic_error c) ↔
      (0 ≤ c.toInt ∧ c.toInt ≤ 4)) ∧
    (∀ c : Code, errors_ c = Outcome.thrown (Exception.invalid_argument c) ↔
      (5 ≤ c.toInt ∧ c.toInt ≤ 8)) ∧
    (∀ c : Code, (∃ e, errors_ c = Outcome.thrown e ∧ e.stdClass = StdClass.logic_error) ↔
      (c = Code.CODE_DIFF_DIMENSIONS ∨ c = Code.CODE_MISTMATCH_SIZE ∨ c = Code.CODE_NO_SQUERE ∨
        c = Code.CODE_ZERO_DETERMINANT ∨ c = Code.CODE_CALC_COMPLEMENT)) ∧
    (∀ c : Code, (∃ e, errors_ c = Outcome.thrown e ∧ e.stdClass = StdClass.invalid_argument) ↔
      (c = Code.CODE_INDEX_OUT_OF_RANGE ∨ c = Code.CODE_INCORRECT_SIZE ∨
        c = Code.CODE_SET_ROWS ∨ c = Code.CODE_SET_COLS)) ∧
    (∀ e1 e2, errors_ Code.CODE_INDEX_OUT_OF_RANGE = Outcome.thrown e1 →
      (errors_ Code.CODE_DIFF_DIMENSIONS = Outcome.thrown e2 ∨
        errors_ Code.CODE_MISTMATCH_SIZE = Outcome.thrown e2) →
      e1.stdClass ≠ e2.stdClass) := by
  refine ⟨rfl, ?_, ?_, ?_, ?_, ?_⟩
  · intro c
    cases c <;> simp [errors_, Code.toInt, LOG_ERR, INV_ARG]
  · intro c
    cases c <;> simp [errors_, Code.toInt, LOG_ERR, INV_ARG]
  · intro c
    cases c <;> simp [errors_, Code.toInt, LOG_ERR, INV_ARG, Exception.stdClass]
  · intro c
    cases c <;> simp [errors_, Code.toInt, LOG_ERR, INV_ARG, Exception.stdClass]
  · intro e1 e2 h1 h2
    simp only [errors_, Code.toInt, LOG_ERR, INV_ARG] at h1 h2
    simp at h1 h2
    subst h1
    rcases h2 with h2 | h2 <;> subst h2 <;> simp [Exception.stdClass]

/-! ## Copies of any source, the inverse off the square, validity of results -/

theorem creater_thrown (m : S21Matrix) (h : ¬ (0 < m.rows_ ∧ 0 < m.cols_)) :
    creater_ m = ⟨m, Outcome.thrown (Exception.invalid_argument Code.CODE_INCORRECT_SIZE)⟩ := by
  simp only [creater_, Method_bind_def]
  rw [Method.bind_apply_thrown (createMatrix_thrown m h)]

/-- The loops of `copyMatrix` on a store of the size of the source. -/
theorem copyMatrix_ok (other t : S21Matrix)
    (hs : Shaped t.matrix_ other.rows_.toNat other.cols_.toNat) :
    copyMatrix other t =
      ⟨{ rows_ := t.rows_, cols_ := t.cols_,
         matrix_ := (ofFn other.rows_.toNat other.cols_.toNat other.cell).matrix_ },
        Outcome.ok ()⟩ := by
  have h3 := doubleLoopM_pointwise (R := other.rows_.toNat) (C := other.cols_.toNat)
    (fun i j _ => do
      let cur ← getThis
      let v ← (other.operator_call_const i j).lift
      setThis (cur.assign i j v))
    (fun i j _ => other.cell i j) t hs
    (by
      intro i j hi hj u _ _ _
      have e := operator_call_const_ok (m := other) (i := i) (j := j) (by omega) (by omega)
      simp [e])
  simp only [copyMatrix, MATRIX_DOUBLE_LOOP_M, forLoopM, Method_bind_def] at h3 ⊢
  exact h3

/-- The copy constructor on any source of positive dimensions. -/
theorem ctor_copy_any (other : S21Matrix) (hr : 0 < other.rows_) (hc : 0 < other.cols_) :
    ctor_copy other = Outcome.ok (ofFn other.rows_.toNat other.cols_.toNat other.cell) := by
  have h1 := creater_ok hr hc []
  have h2 := copyMatrix_ok other (ofFn other.rows_.toNat other.cols_.toNat (fun _ _ => 0))
    (Shaped.ofFn _ _ _)
  simp only [ctor_copy, S21Matrix.run, Method_bind_def]
  rw [Method.bind_apply_ok h1, h2]
  rfl

theorem ctor_copy_thrown (other : S21Matrix) (h : ¬ (0 < other.rows_ ∧ 0 < other.cols_)) :
    ctor_copy other = Outcome.thrown (Exception.invalid_argument Code.CODE_INCORRECT_SIZE) := by
  have h1 := creater_thrown ⟨other.rows_, other.cols_, []⟩ h
  simp only [ctor_copy, S21Matrix.run, Method_bind_def]
  rw [Method.bind_apply_thrown h1]

theorem help_move_and_copy_apply (other this : S21Matrix) :
    help_move_and_copy other this =
      ⟨{ rows_ := other.rows_, cols_ := other.cols_, matrix_ := [] }, Outcome.ok ()⟩ := by
  by_cases h : this.matrix_ = []
  · simp [help_move_and_copy, deleteMatrix, zeroing, h, Method.bind, getThis, setThis]
  · simp [help_move_and_copy, deleteMatrix, zeroing, h, Method.bind, getThis, setThis]

/-- The copy assignment from a valid source makes the receiver the source. -/
theorem operator_assign_copy_ok {other : S21Matrix} (hv : other.valid) (this : S21Matrix) :
    operator_assign_copy other this = ⟨other, Outcome.ok ()⟩ := by
  have h1 := help_move_and_copy_apply other this
  have h2 := creater_ok hv.1 hv.2.1 []
  have h3 := copyMatrix_ok other (ofFn other.rows_.toNat other.cols_.toNat (fun _ _ => 0))
    (Shaped.ofFn _ _ _)
  simp only [operator_assign_copy, Method_bind_def]
  rw [Method.bind_apply_ok h1, Method.bind_apply_ok h2, h3]
  congr 1
  exact (valid_eq_ofFn hv).symm

/-- Off the square `InverseMatrix` throws the not-square error of the
determinant that its check evaluates. -/
theorem InverseMatrix_not_square {m : S21Matrix} (hv : m.valid) (h : m.rows_ ≠ m.cols_) :
    m.InverseMatrix = Outcome.thrown (Exception.logic_error Code.CODE_NO_SQUERE) := by
  simp only [InverseMatrix, ChecksError, Outcome_bind_def, Determinant_not_square hv h,
    Outcome.thrown_bind]

theorem CalcComplements_valid {m C : S21Matrix} (hv : m.valid)
    (h : m.CalcComplements = Outcome.ok C) : C.valid := by
  by_cases hsq : m.rows_ = m.cols_
  · obtain ⟨n, hr, hc, _, _⟩ := square_dims hv hsq
    cases n with
    | zero =>
      rw [CalcComplements_too_small (by simpa using hr) (by simpa using hc)] at h
      cases h
    | succ k =>
      rw [CalcComplements_ok hv (n := k) hr hc] at h
      simp only [Outcome.ok.injEq] at h
      rw [← h]
      exact valid_ofFn (by omega) (by omega) _
  · rw [CalcComplements_not_square hsq] at h
    cases h

theorem InverseMatrix_valid {m R : S21Matrix} (hv : m.valid)
    (h : m.InverseMatrix = Outcome.ok R) : R.valid := by
  by_cases hsq : m.rows_ = m.cols_
  · obtain ⟨n, hr, hc, _, _⟩ := square_dims hv hsq
    rcases InverseMatrix_cases hv hr hc with ⟨_, h2⟩ | ⟨_, h2⟩
    · rw [h2] at h
      cases h
    · rw [h2] at h
      simp only [Outcome.ok.injEq] at h
      rw [← h]
      exact valid_fromMatrix (by omega) _
  · rw [InverseMatrix_not_square hv hsq] at h
    cases h

theorem assign_valid {m : S21Matrix} (hv : m.valid) (i j : Nat) (v : ℚ) :
    (m.assign i j v).valid :=
  ⟨hv.1, hv.2.1, assign_shaped hv.2.2 _ _ _⟩

/-! ## The claims on minors, validity, single elements and the inverse -/

/-- C21: for a valid `r x c` matrix with `r >= 2` and `c >= 2` and indices
`0 <= p < r`, `0 <= q < c`, `getMatrixMinor(p, q)` returns a valid
`(r-1) x (c-1)` matrix whose element `(i, j)` is the element
`(i + (1 if i >= p else 0), j + (1 if j >= q else 0))` of the matrix: row `p`
and column `q` are removed and the rest keeps its order. -/
theorem C21_getMatrixMinor_removes_row_and_column (A : S21Matrix) (hv : A.valid)
    (hr : 2 ≤ A.rows_) (hc : 2 ≤ A.cols_) (p q : Int) (hp : 0 ≤ p ∧ p < A.rows_)
    (hq : 0 ≤ q ∧ q < A.cols_) :
    ∃ R, A.getMatrixMinor p q = Outcome.ok R ∧ R.valid ∧ R.rows_ = A.rows_ - 1 ∧
      R.cols_ = A.cols_ - 1 ∧
      ∀ i j : Nat, (i : Int) < A.rows_ - 1 → (j : Int) < A.cols_ - 1 →
        R.cell i j =
          A.cell (i + if p ≤ (i : Int) then 1 else 0) (j + if q ≤ (j : Int) then 1 else 0) := by
  have hm := getMatrixMinor_ok hv hr hc (p := p.toNat) (q := q.toNat) (by omega) (by omega)
  rw [Int.toNat_of_nonneg hp.1, Int.toNat_of_nonneg hq.1] at hm
  refine ⟨_, hm, valid_ofFn (by omega) (by omega) _, ?_, ?_, ?_⟩
  · simp only [ofFn_rows]
    omega
  · simp only [ofFn_cols]
    omega
  · intro i j hi hj
    rw [cell_ofFn _ _ _ (by omega) (by omega)]
    unfold skipIndex
    have e1 : (if i < p.toNat then i else i + 1) = i + if p ≤ (i : Int) then 1 else 0 := by
      split <;> split <;> omega
    have e2 : (if j < q.toNat then j else j + 1) = j + if q ≤ (j : Int) then 1 else 0 := by
      split <;> split <;> omega
    rw [e1, e2]

/-- C21, at the matrix `[[1, 2, 3], [4, 5, 6], [7, 8, 9]]` with row 1 and
column 1 removed. -/
theorem C21_getMatrixMinor_removes_row_and_column_witness :
    exampleC.valid ∧ 2 ≤ exampleC.rows_ ∧ 2 ≤ exampleC.cols_ ∧
      ((0 : Int) ≤ 1 ∧ (1 : Int) < exampleC.rows_) ∧
      ((0 : Int) ≤ 1 ∧ (1 : Int) < exampleC.cols_) ∧
      exampleC.getMatrixMinor 1 1 =
        Outcome.ok { rows_ := 2, cols_ := 2, matrix_ := [[1, 3], [7, 9]] } ∧
      ∃ R, exampleC.getMatrixMinor 1 1 = Outcome.ok R ∧ R.valid ∧
        R.rows_ = exampleC.rows_ - 1 ∧ R.cols_ = exampleC.cols_ - 1 ∧
        ∀ i j : Nat, (i : Int) < exampleC.rows_ - 1 → (j : Int) < exampleC.cols_ - 1 →
          R.cell i j =
            exampleC.cell (i + if (1 : Int) ≤ (i : Int) then 1 else 0)
              (j + if (1 : Int) ≤ (j : Int) then 1 else 0) :=
  ⟨by decide, by decide, by decide, by decide, by decide, by decide!,
    C21_getMatrixMinor_removes_row_and_column exampleC (by decide) (by decide) (by decide) 1 1
      (by decide) (by decide)⟩

/-- C22: validity is an invariant. Every matrix that the sized, the default or
the copy constructor returns is valid; the move constructor and the two
assignments from a valid source give a valid matrix; and on valid operands
every call of `SumMatrix`, `SubMatrix`, `MulNumber`, `MulMatrix`, `setRows_`,
`setCols_` or either `setMatrixValue` that returns leaves the receiver valid,
and every matrix that `Transpose`, `CalcComplements` or `InverseMatrix`
returns is valid (these three do not assign to the receiver). -/
theorem C22_validity_is_invariant (A B : S21Matrix) (hvA : A.valid) (hvB : B.valid)
    (num : ℚ) (n i j : Int) (v : ℚ) (values : List ℚ) :
    (∀ rows cols M, ctor rows cols = Outcome.ok M → M.valid) ∧
    (∀ M, ctor_default = Outcome.ok M → M.valid) ∧
    (∀ other M, ctor_copy other = Outcome.ok M → M.valid) ∧
    (ctor_move B).1.valid ∧
    ((operator_assign_copy B A).result = Outcome.ok () ∧ (operator_assign_copy B A).self.valid) ∧
    (operator_assign_move B A).self.valid ∧
    ((SumMatrix B A).result = Outcome.ok () → (SumMatrix B A).self.valid) ∧
    ((SubMatrix B A).result = Outcome.ok () → (SubMatrix B A).self.valid) ∧
    ((MulNumber num A).result = Outcome.ok () ∧ (MulNumber num A).self.valid) ∧
    ((MulMatrix B A).result = Outcome.ok () → (MulMatrix B A).self.valid) ∧
    ((setRows_ n A).result = Outcome.ok () → (setRows_ n A).self.valid) ∧
    ((setCols_ n A).result = Outcome.ok () → (setCols_ n A).self.valid) ∧
    ((setMatrixValue i j v A).result = Outcome.ok () → (setMatrixValue i j v A).self.valid) ∧
    ((setMatrixValue_values values A).result = Outcome.ok () →
      (setMatrixValue_values values A).self.valid) ∧
    (∀ T, A.Transpose = Outcome.ok T → T.valid) ∧
    (∀ C, A.CalcComplements = Outcome.ok C → C.valid) ∧
    (∀ R, A.InverseMatrix = Outcome.ok R → R.valid) := by
  have hA1 := hvA.1
  have hA2 := hvA.2.1
  have hB2 := hvB.2.1
  have hctor : ∀ rows cols M, ctor rows cols = Outcome.ok M → M.valid := by
    intro rows cols M h
    by_cases hpos : 0 < rows ∧ 0 < cols
    · rw [ctor_ok hpos.1 hpos.2] at h
      simp only [Outcome.ok.injEq] at h
      rw [← h]
      exact valid_ofFn (by omega) (by omega) _
    · rw [ctor_thrown hpos] at h
      cases h
  have hperform : ∀ op : ℚ → ℚ → ℚ,
      (PerformMatrixOperation Code.CODE_DIFF_DIMENSIONS B op A).result = Outcome.ok () →
      (PerformMatrixOperation Code.CODE_DIFF_DIMENSIONS B op A).self.valid := by
    intro op h
    by_cases hsz : B.rows_ = A.rows_ ∧ B.cols_ = A.cols_
    · rw [PerformMatrixOperation_ok hvA hsz.1 hsz.2]
      exact valid_ofFn (by omega) (by omega) _
    · rw [PerformMatrixOperation_mismatch hsz] at h
      cases h
  refine ⟨hctor, fun M h => hctor 3 3 M h, ?_, ?_, ?_, ?_, hperform _, hperform _, ?_, ?_, ?_,
    ?_, ?_, ?_, ?_, fun C h => CalcComplements_valid hvA h,
    fun R h => InverseMatrix_valid hvA h⟩
  · intro other M h
    by_cases hpos : 0 < other.rows_ ∧ 0 < other.cols_
    · rw [ctor_copy_any other hpos.1 hpos.2] at h
      simp only [Outcome.ok.injEq] at h
      rw [← h]
      exact valid_ofFn (by omega) (by omega) _
    · rw [ctor_copy_thrown other hpos] at h
      cases h
  · exact hvB
  · rw [operator_assign_copy_ok hvB A]
    exact ⟨rfl, hvB⟩
  · rw [(operator_assign_move_self B A).1]
    exact hvB
  · rw [MulNumber_ok hvA num]
    exact ⟨rfl, valid_ofFn (by omega) (by omega) _⟩
  · intro h
    by_cases hsz : A.cols_ = B.rows_
    · rw [MulMatrix_ok hvA hB2 hsz]
      exact valid_ofFn (by omega) (by omega) _
    · rw [MulMatrix_mismatch hsz] at h
      cases h
  · intro h
    by_cases hn : n ≤ 0
    · rw [setRows__thrown A hn] at h
      cases h
    · rw [setRows__ok hvA (not_le.mp hn)]
      exact valid_ofFn (by omega) (by omega) _
  · intro h
    by_cases hn : n ≤ 0
    · rw [setCols__thrown A hn] at h
      cases h
    · rw [setCols__ok hvA (not_le.mp hn)]
      exact valid_ofFn (by omega) (by omega) _
  · intro h
    by_cases hin : (0 ≤ i ∧ i < A.rows_) ∧ (0 ≤ j ∧ j < A.cols_)
    · rw [setMatrixValue_in_range hin]
      exact assign_valid hvA _ _ _
    · rw [setMatrixValue_out_of_range hin] at h
      cases h
  · intro h
    by_cases hw : wrapInt (A.rows_ * A.cols_) = wrapInt (values.length : Int)
    · rw [setMatrixValue_values_passed values hvA hw]
      exact valid_ofFn (by omega) (by omega) _
    · rw [setMatrixValue_values_thrown values A hw] at h
      cases h
  · intro T h
    rw [Transpose_ok hvA] at h
    simp only [Outcome.ok.injEq] at h
    rw [← h]
    exact valid_ofFn (by omega) (by omega) _

/-- C22, at `[[1, 2], [3, 4]]` and `[[5, 6], [7, 8]]`: the calls return and
what they leave or return is valid. -/
theorem C22_validity_is_invariant_witness :
    exampleA.valid ∧ exampleB.valid ∧
      ((SumMatrix exampleB exampleA).result = Outcome.ok () ∧
        (SumMatrix exampleB exampleA).self.valid) ∧
      ((MulMatrix exampleB exampleA).result = Outcome.ok () ∧
        (MulMatrix exampleB exampleA).self.valid) ∧
      ((setRows_ 3 exampleA).result = Outcome.ok () ∧ (setRows_ 3 exampleA).self.valid) ∧
      ((setMatrixValue 0 1 9 exampleA).result = Outcome.ok () ∧
        (setMatrixValue 0 1 9 exampleA).self.valid) ∧
      ((setMatrixValue_values [9, 8, 7, 6] exampleA).result = Outcome.ok () ∧
        (setMatrixValue_values [9, 8, 7, 6] exampleA).self.valid) ∧
      (exampleA.InverseMatrix = Outcome.ok exampleAinv ∧ exampleAinv.valid) :=
  ⟨by decide, by decide,
    ⟨by decide!, (C22_validity_is_invariant exampleA exampleB (by decide) (by decide) 2 3 0 1 9
      [9, 8, 7, 6]).2.2.2.2.2.2.1 (by decide!)⟩,
    ⟨by decide!, (C22_validity_is_invariant exampleA exampleB (by decide) (by decide) 2 3 0 1 9
      [9, 8, 7, 6]).2.2.2.2.2.2.2.2.2.1 (by decide!)⟩,
    ⟨by decide!, (C22_validity_is_invariant exampleA exampleB (by decide) (by decide) 2 3 0 1 9
      [9, 8, 7, 6]).2.2.2.2.2.2.2.2.2.2.1 (by decide!)⟩,
    ⟨by decide!, (C22_validity_is_invariant exampleA exampleB (by decide) (by decide) 2 3 0 1 9
      [9, 8, 7, 6]).2.2.2.2.2.2.2.2.2.2.2.2.1 (by decide!)⟩,
    ⟨by decide!, (C22_validity_is_invariant exampleA exampleB (by decide) (by decide) 2 3 0 1 9
      [9, 8, 7, 6]).2.2.2.2.2.2.2.2.2.2.2.2.2.1 (by decide!)⟩,
    ⟨by decide!, (C22_validity_is_invariant exampleA exampleB (by decide) (by decide) 2 3 0 1 9
      [9, 8, 7, 6]).2.2.2.2.2.2.2.2.2.2.2.2.2.2.2.2 exampleAinv (by decide!)⟩⟩

/-- C23: for a valid matrix, an in-range index pair `(i, j)` and a value `v`,
`setMatrixValue(i, j, v)` returns, after it `getMatrixValue(i, j)` returns
`v`, the row and column counts are unchanged, the matrix is still valid, and
every element at another position has the value it had before the call, both
as read by `getMatrixValue` and in the store. -/
theorem C23_setMatrixValue_changes_one_element (M : S21Matrix) (hv : M.valid) (i j : Int)
    (v : ℚ) (hin : (0 ≤ i ∧ i < M.rows_) ∧ (0 ≤ j ∧ j < M.cols_)) :
    (setMatrixValue i j v M).result = Outcome.ok () ∧
      (setMatrixValue i j v M).self.getMatrixValue i j = Outcome.ok v ∧
      (setMatrixValue i j v M).self.rows_ = M.rows_ ∧
      (setMatrixValue i j v M).self.cols_ = M.cols_ ∧
      (setMatrixValue i j v M).self.valid ∧
      (∀ a b : Int, (0 ≤ a ∧ a < M.rows_) ∧ (0 ≤ b ∧ b < M.cols_) → (a ≠ i ∨ b ≠ j) →
        (setMatrixValue i j v M).self.getMatrixValue a b = M.getMatrixValue a b ∧
          M.getMatrixValue a b = Outcome.ok (M.cell a.toNat b.toNat)) ∧
      (∀ a b : Nat, (a ≠ i.toNat ∨ b ≠ j.toNat) →
        (setMatrixValue i j v M).self.cell a b = M.cell a b) := by
  have hs := hv.2.2
  have hi : i.toNat < M.rows_.toNat := by omega
  have hj : j.toNat < M.cols_.toNat := by omega
  have hget : ∀ (X : S21Matrix) (a b : Int), (0 ≤ a ∧ a < X.rows_) ∧ (0 ≤ b ∧ b < X.cols_) →
      X.getMatrixValue a b = Outcome.ok (X.cell a.toNat b.toNat) := by
    intro X a b h
    simp [getMatrixValue, operator_call_in_range h]
  rw [setMatrixValue_in_range hin]
  refine ⟨rfl, ?_, rfl, rfl, assign_valid hv _ _ _, ?_, ?_⟩
  · simp only []
    rw [hget (M.assign i.toNat j.toNat v) i j hin, cell_assign hs hi hj]
    simp
  · intro a b hab hne
    simp only []
    rw [hget (M.assign i.toNat j.toNat v) a b hab, hget M a b hab, cell_assign hs hi hj]
    refine ⟨?_, rfl⟩
    rw [if_neg]
    intro hh
    omega
  · intro a b hne
    simp only []
    rw [cell_assign hs hi hj, if_neg]
    intro hh
    omega

/-- C23, at `[[1, 2], [3, 4]]` with element `(0, 1)` set to `9`. -/
theorem C23_setMatrixValue_changes_one_element_witness :
    exampleA.valid ∧ (((0 : Int) ≤ 0 ∧ (0 : Int) < exampleA.rows_) ∧
        ((0 : Int) ≤ 1 ∧ (1 : Int) < exampleA.cols_)) ∧
      (setMatrixValue 0 1 9 exampleA).self =
        { rows_ := 2, cols_ := 2, matrix_ := [[1, 9], [3, 4]] } ∧
      (setMatrixValue 0 1 9 exampleA).self.getMatrixValue 0 1 = Outcome.ok 9 ∧
      (setMatrixValue 0 1 9 exampleA).self.getMatrixValue 1 1 = exampleA.getMatrixValue 1 1 :=
  ⟨by decide, by decide, by decide!,
    (C23_setMatrixValue_changes_one_element exampleA (by decide) 0 1 9 (by decide)).2.1,
    ((C23_setMatrixValue_changes_one_element exampleA (by decide) 0 1 9 (by decide)).2.2.2.2.2.1
      1 1 (by decide) (by decide)).1⟩

/-- C24: for a valid matrix whose row and column counts differ,
`InverseMatrix` throws the not-square error. The error comes from
`Determinant`, which the singularity check evaluates first; the call does not
throw the zero-determinant error and does not return a matrix. -/
theorem C24_InverseMatrix_not_square (A : S21Matrix) (hv : A.valid) (hns : A.rows_ ≠ A.cols_) :
    A.InverseMatrix = Outcome.thrown (Exception.logic_error Code.CODE_NO_SQUERE) ∧
      A.Determinant = Outcome.thrown (Exception.logic_error Code.CODE_NO_SQUERE) ∧
      ChecksError Code.CODE_ZERO_DETERMINANT A none =
        Outcome.thrown (Exception.logic_error Code.CODE_NO_SQUERE) ∧
      A.InverseMatrix ≠ Outcome.thrown (Exception.logic_error Code.CODE_ZERO_DETERMINANT) ∧
      ∀ R, A.InverseMatrix ≠ Outcome.ok R := by
  have hinv := InverseMatrix_not_square hv hns
  have hdet := Determinant_not_square hv hns
  refine ⟨hinv, hdet, ?_, ?_, ?_⟩
  · simp only [ChecksError, Outcome_bind_def, hdet, Outcome.thrown_bind]
  · rw [hinv]
    intro h
    cases h
  · intro R
    rw [hinv]
    intro h
    cases h

/-- C24, at the `2 x 3` example matrix. -/
theorem C24_InverseMatrix_not_square_witness :
    example23.valid ∧ example23.rows_ ≠ example23.cols_ ∧
      example23.InverseMatrix = Outcome.thrown (Exception.logic_error Code.CODE_NO_SQUERE) :=
  ⟨by decide, by decide, (C24_InverseMatrix_not_square example23 (by decide) (by decide)).1⟩

/-- C25: `InverseMatrix` is not an involution on the matrices it accepts. The
valid square `1 x 1` matrix `[[10^8]]` has the inverse `[[10^-8]]`, the
determinant of that inverse is `10^-8`, of absolute value below `1e-7`, and
`InverseMatrix` of the inverse throws the zero-determinant error. -/
theorem C25_InverseMatrix_not_involution :
    exampleBig.valid ∧ exampleBig.rows_ = exampleBig.cols_ ∧
      exampleBig.InverseMatrix = Outcome.ok exampleBigInv ∧
      exampleBigInv.Determinant = Outcome.ok (1 / 100000000) ∧
      |(1 / 100000000 : ℚ)| < ACCURACY ∧
      exampleBigInv.InverseMatrix =
        Outcome.thrown (Exception.logic_error Code.CODE_ZERO_DETERMINANT) ∧
      ∃ A R : S21Matrix, A.valid ∧ A.rows_ = A.cols_ ∧ A.InverseMatrix = Outcome.ok R ∧
        R.InverseMatrix = Outcome.thrown (Exception.logic_error Code.CODE_ZERO_DETERMINANT) :=
  ⟨by decide, by decide, by decide!, by decide!, by decide!, by decide!,
    exampleBig, exampleBigInv, by decide, by decide, by decide!, by decide!⟩

/-! ## Comparison of doubles of any kind -/

/-- An element of a matrix of numbers, read as a double of any kind. -/
theorem cell_ofNumbers (m : S21Matrix) (i j : Nat) :
    (IEEE.ofNumbers m).cell i j = Double.num (m.cell i j) := by
  unfold IEEE.S21Matrix.cell IEEE.ofNumbers S21Matrix.cell rawGet
  simp only [List.getD_eq_getElem?_getD, List.getElem?_map]
  cases m.matrix_[i]? with
  | none => simp
  | some row =>
    simp only [Option.map_some', Option.getD_some, List.getElem?_map]
    cases row[j]? <;> simp

/-- Comparison by `EqMatrix` holds exactly of matrices of the same size none of
whose pairs of elements has a difference greater than `ACCURACY`. -/
theorem EqMatrix_doubles_iff (a b : IEEE.S21Matrix) :
    a.EqMatrix b = true ↔ a.rows_ = b.rows_ ∧ a.cols_ = b.cols_ ∧
      ∀ i j, i < a.rows_.toNat → j < a.cols_.toNat →
        ((a.cell i j).sub (b.cell i j)).fabs.gt (Double.num ACCURACY) = false := by
  unfold IEEE.S21Matrix.EqMatrix
  by_cases hsz : a.EqSizeMatrix b = true
  · have hsz2 : b.cols_ = a.cols_ ∧ b.rows_ = a.rows_ := by
      simpa [IEEE.S21Matrix.EqSizeMatrix] using hsz
    simp only [hsz, if_true]
    rw [loopWhile_true]
    constructor
    · intro hall
      refine ⟨hsz2.2.symm, hsz2.1.symm, ?_⟩
      intro i j hi hj
      have h1 := (loopWhile_true _ _).mp (hall i hi) j hj
      by_contra hgt
      rw [if_pos (by simpa using hgt)] at h1
      cases h1
    · rintro ⟨_, _, hall⟩ i hi
      rw [loopWhile_true]
      intro j hj
      rw [if_neg (by simp [hall i j hi hj])]
  · have hsz2 : ¬ (b.cols_ = a.cols_ ∧ b.rows_ = a.rows_) := by
      simpa [IEEE.S21Matrix.EqSizeMatrix] using hsz
    simp only [hsz, if_false, Bool.false_eq_true, false_iff]
    rintro ⟨h1, h2, _⟩
    exact hsz2 ⟨h2.symm, h1.symm⟩

/-- On matrices of numbers the comparison of doubles of any kind is the
comparison of numbers. -/
theorem EqMatrix_ofNumbers (a b : S21Matrix) :
    (IEEE.ofNumbers a).EqMatrix (IEEE.ofNumbers b) = a.EqMatrix b := by
  rw [Bool.eq_iff_iff, EqMatrix_doubles_iff, EqMatrix_iff]
  simp only [cell_ofNumbers, Double.sub, Double.fabs, Double.gt, decide_eq_false_iff_not, not_lt]
  rfl

/-! ## The claims on the inverse and on comparison, in the arithmetic of doubles -/

/-- C3 as stated fails in binary64 arithmetic: on the valid `4 x 4` matrix
`exampleD` of whole numbers near `10^8` the determinant is `4` and
`InverseMatrix`, which takes the complements of the transposed matrix, returns
`exampleDinv`, while the transposed matrix of complements with every element
multiplied by `1 / Determinant` is `exampleDadj`; the two differ, at row 1 and
column 1 by `25000000`, and `EqMatrix` tells them apart. -/
theorem C3_counterexample_orders_differ_in_binary64 :
    exampleD.valid ∧ exampleD.rows_ = exampleD.cols_ ∧ exampleD.rows_ ≠ 1 ∧
      (∀ row ∈ exampleD.matrix_, ∀ x ∈ row, Binary64.round x = x) ∧
      Binary64.Determinant exampleD = Outcome.ok 4 ∧
      Binary64.InverseMatrix exampleD = Outcome.ok exampleDinv ∧
      (do
        let C ← Binary64.CalcComplements exampleD
        let T ← C.Transpose
        T.run (Binary64.MulNumber (Binary64.div 1 4))) = Outcome.ok exampleDadj ∧
      exampleDinv ≠ exampleDadj ∧
      exampleDinv.cell 1 1 = 25000001 ∧ exampleDadj.cell 1 1 = 1 ∧
      exampleDinv.EqMatrix exampleDadj = false :=
  ⟨by decide, by decide, by decide, by decide!, by decide!, by decide!, by decide!, by decide!,
    by decide!, by decide!, by decide!⟩

end MatrixPlus
